import Mathlib

/-!
# SimpleSSHTerm: the session transport, the terminal, the tab and the main window

A shallow embedding of the class `SshSession` (`src/src/SshSession.cpp`) as built
with `HAVE_LIBSSH`, of the size, input, key and selection handling of
`TerminalWidget` (`src/src/TerminalWidget.cpp`), of `TerminalTab`
(`src/src/TerminalTab.cpp`), which wires the two together, and of the list of
last sessions kept by `MainWindow::onProfileConnected` (`src/src/MainWindow.cpp`).

* A nullable native pointer is an `Option Handle`; `none` is `nullptr`.
* The private state (`Impl::session`, `Impl::channel`, whether `Impl::pollTimer`
  is running, `connected_`) is the record `SshSession`.
* Every member function is a pure function from the state before the call (and
  the results the libssh calls of that invocation return) to the state after it
  and the ordered list of what the invocation did to the outside: libssh calls
  (`Action.call`) and Qt signals (`Action.emit`), in program order.
* The slots connected to the signals are not part of `SshSession`; a signal is
  an observable output of the call, and `TerminalTab.dispatch` runs the slots of
  the tab on it.
* A `QString` is a `String`; `toUtf8().constData()` hands the same text to libssh.
* The object lives on one thread: the public operations and the timer slot run
  one at a time, each to completion (`Op`, `run`).
-/

namespace SimpleSSHTerm

/-- A non-null native handle (`ssh_session`, `ssh_channel` or `ssh_key`). -/
abbrev Handle := Nat

/-- The bytes of a `QByteArray`, one list element per byte. -/
abbrev QByteArray := List Nat

/-- The libssh return code `SSH_OK` (0 in `libssh/libssh.h`). -/
def SSH_OK : Int := 0

/-- The libssh return code `SSH_AUTH_SUCCESS` (0 in `libssh/libssh.h`). -/
def SSH_AUTH_SUCCESS : Int := 0

/-- The libssh calls made by `SshSession.cpp`, with the arguments passed; the two
allocating calls also record the pointer they returned. `ssh_channel_write` is
passed `data.constData()` and `data.size()`, `ssh_channel_read_nonblocking` the
size of the buffer, and `ssh_channel_change_pty_size` the width before the
height, as libssh declares it. -/
inductive LibCall where
  | ssh_new (ret : Option Handle)
  | ssh_options_set_host (session : Handle) (host : String)
  | ssh_options_set_user (session : Handle) (user : String)
  | ssh_options_set_port (session : Handle) (port : Int)
  | ssh_connect (session : Handle)
  | ssh_get_error (session : Handle)
  | ssh_pki_import_privkey_file (path : String) (pass : Option String)
  | ssh_userauth_publickey (session : Handle) (key : Handle)
  | ssh_key_free (key : Handle)
  | ssh_userauth_publickey_auto (session : Handle)
  | ssh_userauth_password (session : Handle) (password : String)
  | ssh_channel_new (session : Handle) (ret : Option Handle)
  | ssh_channel_open_session (channel : Handle)
  | ssh_channel_request_pty (channel : Handle)
  | ssh_channel_request_shell (channel : Handle)
  | ssh_channel_write (channel : Handle) (data : QByteArray) (len : Nat)
  | ssh_channel_read_nonblocking (channel : Handle) (count : Nat)
  | ssh_channel_is_eof (channel : Handle)
  | ssh_channel_is_closed (channel : Handle)
  | ssh_channel_close (channel : Handle)
  | ssh_channel_free (channel : Handle)
  | ssh_disconnect (session : Handle)
  | ssh_free (session : Handle)
  | ssh_channel_change_pty_size (channel : Handle) (cols : Int) (rows : Int)
  deriving DecidableEq, Repr

/-- The signals of `SshSession` (`include/SshSession.h`). -/
inductive Signal where
  | output (data : QByteArray)
  | error (message : String)
  | connected
  | disconnected
  deriving DecidableEq, Repr

/-- One externally visible step of a member function. -/
inductive Action where
  | call (c : LibCall)
  | emit (s : Signal)
  deriving DecidableEq, Repr

/-- The signals of a trace, in order. -/
def signals : List Action → List Signal
  | [] => []
  | Action.emit e :: t => e :: signals t
  | Action.call _ :: t => signals t

/-- The libssh calls of a trace, in order. -/
def calls : List Action → List LibCall
  | [] => []
  | Action.call c :: t => c :: calls t
  | Action.emit _ :: t => calls t

/-- The state of an `SshSession` object: `impl_->session`, `impl_->channel`,
`impl_->pollTimer.isActive()` and `connected_`. -/
structure SshSession where
  session : Option Handle
  channel : Option Handle
  pollTimerActive : Bool
  connected_ : Bool
  deriving DecidableEq, Repr

/-- The arguments of `connectToHost`. -/
structure ConnectArgs where
  host : String
  user : String
  password : String
  keyPath : String
  keyPassphrase : String
  port : Int
  deriving DecidableEq, Repr

/-- What the libssh calls of one `connectToHost` invocation return; a field is
read only if the invocation makes that call. `import_rc` and `import_key` are the
return code of `ssh_pki_import_privkey_file` and the pointer it stores in `key`
(initialised to `nullptr`); `ssh_get_error` is the text of the one
`ssh_get_error` call of a failing invocation. -/
structure ConnectOutcome where
  ssh_new : Option Handle
  ssh_connect : Int
  import_rc : Int
  import_key : Option Handle
  ssh_userauth_publickey : Int
  ssh_userauth_publickey_auto : Int
  ssh_userauth_password : Int
  ssh_channel_new : Option Handle
  ssh_channel_open_session : Int
  ssh_channel_request_pty : Int
  ssh_channel_request_shell : Int
  ssh_get_error : String
  deriving DecidableEq, Repr

/-- What the libssh calls of one poll tick return: `n` is the return value of
`ssh_channel_read_nonblocking`, `buffer` the content of `buffer` after it, and
`is_eof`, `is_closed` the return values of `ssh_channel_is_eof` and
`ssh_channel_is_closed`. -/
structure PollOutcome where
  n : Int
  buffer : QByteArray
  is_eof : Int
  is_closed : Int
  deriving DecidableEq, Repr

/-- The result `r` of the rest of a call, with the trace `t` of the call so far
put in front of its trace. -/
def after (t : List Action) (r : SshSession × List Action) : SshSession × List Action :=
  (r.1, t ++ r.2)

namespace SshSession

/-- A freshly constructed object: `session = nullptr`, `channel = nullptr`, the
timer not started, `connected_ = false`. -/
def init : SshSession :=
  { session := none, channel := none, pollTimerActive := false, connected_ := false }

/-- `SshSession::disconnectFromHost` (SshSession.cpp 149-167). -/
def disconnectFromHost (s : SshSession) : SshSession × List Action :=
  -- impl_->pollTimer.stop();
  let s1 : SshSession := { s with pollTimerActive := false }
  -- if (impl_->channel) { close; free; channel = nullptr; }
  let r2 : SshSession × List Action :=
    match s1.channel with
    | some c =>
      ({ s1 with channel := none },
        [Action.call (LibCall.ssh_channel_close c), Action.call (LibCall.ssh_channel_free c)])
    | none => (s1, [])
  -- if (impl_->session) { disconnect; free; session = nullptr; }
  let r3 : SshSession × List Action :=
    match r2.1.session with
    | some h =>
      ({ r2.1 with session := none },
        r2.2 ++ [Action.call (LibCall.ssh_disconnect h), Action.call (LibCall.ssh_free h)])
    | none => r2
  -- if (connected_) { connected_ = false; emit disconnected(); }
  if r3.1.connected_ then
    ({ r3.1 with connected_ := false }, r3.2 ++ [Action.emit Signal.disconnected])
  else r3

/-- The statements shared by the failure branches of `connectToHost` whose
message has no `%1`: `emit error(msg); disconnectFromHost(); return;`. -/
def failWith (s : SshSession) (msg : String) : SshSession × List Action :=
  after [Action.emit (Signal.error msg)] (disconnectFromHost s)

/-- The statements shared by the failure branches of `connectToHost` whose
message is `QString("<msg>%1").arg(ssh_get_error(impl_->session))`:
`ssh_get_error` is called, then the error is emitted, then
`disconnectFromHost()` runs. -/
def failWithSshError (s : SshSession) (h : Handle) (msg : String) (o : ConnectOutcome) :
    SshSession × List Action :=
  after [Action.call (LibCall.ssh_get_error h)] (failWith s (msg ++ o.ssh_get_error))

/-- The part of `SshSession::connectToHost` after the authentication call
(SshSession.cpp 88-124): `s` is the state with `impl_->session = h` and `rc` the
return code of the authentication call. -/
def connectToHostAfterAuth (s : SshSession) (h : Handle) (rc : Int) (o : ConnectOutcome) :
    SshSession × List Action :=
  if rc ≠ SSH_AUTH_SUCCESS then
    failWithSshError s h "SSH auth failed: " o
  else
    -- impl_->channel = ssh_channel_new(impl_->session);
    let s2 : SshSession := { s with channel := o.ssh_channel_new }
    after [Action.call (LibCall.ssh_channel_new h o.ssh_channel_new)] <|
    match o.ssh_channel_new with
    | none => failWith s2 "Failed to create SSH channel"
    | some c =>
      after [Action.call (LibCall.ssh_channel_open_session c)] <|
      if o.ssh_channel_open_session ≠ SSH_OK then
        failWithSshError s2 h "Failed to open channel: " o
      else
        after [Action.call (LibCall.ssh_channel_request_pty c)] <|
        if o.ssh_channel_request_pty ≠ SSH_OK then
          failWithSshError s2 h "Failed to request PTY: " o
        else
          after [Action.call (LibCall.ssh_channel_request_shell c)] <|
          if o.ssh_channel_request_shell ≠ SSH_OK then
            failWithSshError s2 h "Failed to request shell: " o
          else
            -- impl_->pollTimer.start(); connected_ = true; emit connected();
            ({ s2 with pollTimerActive := true, connected_ := true },
              [Action.emit Signal.connected])

/-- The part of `SshSession::connectToHost` from `ssh_options_set` to the
authentication call (SshSession.cpp 58-86): `s` is the state with
`impl_->session = h`. -/
def connectToHostAuth (s : SshSession) (h : Handle) (a : ConnectArgs) (o : ConnectOutcome) :
    SshSession × List Action :=
  after
    [Action.call (LibCall.ssh_options_set_host h a.host),
     Action.call (LibCall.ssh_options_set_user h a.user),
     Action.call (LibCall.ssh_options_set_port h a.port),
     Action.call (LibCall.ssh_connect h)] <|
  if o.ssh_connect ≠ SSH_OK then
    failWithSshError s h "SSH connect failed: " o
  else if a.keyPath ≠ "" then
    -- const char *pass = passBytes.isEmpty() ? nullptr : passBytes.constData();
    let pass : Option String := if a.keyPassphrase = "" then none else some a.keyPassphrase
    after [Action.call (LibCall.ssh_pki_import_privkey_file a.keyPath pass)] <|
    -- if (rc != SSH_OK || !key) { emit error(..); disconnectFromHost(); return; }
    match o.import_key with
    | none => failWithSshError s h "Failed to load key: " o
    | some key =>
      if o.import_rc ≠ SSH_OK then
        failWithSshError s h "Failed to load key: " o
      else
        after
          [Action.call (LibCall.ssh_userauth_publickey h key),
           Action.call (LibCall.ssh_key_free key)]
          (connectToHostAfterAuth s h o.ssh_userauth_publickey o)
  else if a.password = "" then
    after [Action.call (LibCall.ssh_userauth_publickey_auto h)]
      (connectToHostAfterAuth s h o.ssh_userauth_publickey_auto o)
  else
    after [Action.call (LibCall.ssh_userauth_password h a.password)]
      (connectToHostAfterAuth s h o.ssh_userauth_password o)

/-- `SshSession::connectToHost` (SshSession.cpp 41-134, the `HAVE_LIBSSH` branch). -/
def connectToHost (s : SshSession) (a : ConnectArgs) (o : ConnectOutcome) :
    SshSession × List Action :=
  -- if (impl_->session) disconnectFromHost();
  let r0 : SshSession × List Action :=
    if s.session.isSome then disconnectFromHost s else (s, [])
  -- impl_->session = ssh_new();
  let s1 : SshSession := { r0.1 with session := o.ssh_new }
  after (r0.2 ++ [Action.call (LibCall.ssh_new o.ssh_new)]) <|
  match o.ssh_new with
  | none => (s1, [Action.emit (Signal.error "Failed to create SSH session")])
  | some h => connectToHostAuth s1 h a o

/-- `SshSession::send` (SshSession.cpp 136-147, the `HAVE_LIBSSH` branch). -/
def send (s : SshSession) (data : QByteArray) : SshSession × List Action :=
  match s.channel with
  | none => (s, [Action.emit (Signal.error "No active SSH channel")])
  | some c => (s, [Action.call (LibCall.ssh_channel_write c data data.length)])

/-- `SshSession::setPtySize` (SshSession.cpp 169-179, the `HAVE_LIBSSH` branch). -/
def setPtySize (s : SshSession) (rows cols : Int) : SshSession × List Action :=
  match s.channel with
  | none => (s, [])
  | some c => (s, [Action.call (LibCall.ssh_channel_change_pty_size c cols rows)])

/-- The slot connected to `pollTimer.timeout` in the constructor
(SshSession.cpp 20-32). -/
def pollTimerTimeout (s : SshSession) (o : PollOutcome) : SshSession × List Action :=
  match s.channel with
  | none => (s, [])
  | some c =>
    -- int n = ssh_channel_read_nonblocking(impl_->channel, buffer, sizeof(buffer), 0);
    after [Action.call (LibCall.ssh_channel_read_nonblocking c 4096)] <|
    -- if (n > 0) emit output(QByteArray(buffer, n));
    after (if o.n > 0 then [Action.emit (Signal.output (o.buffer.take o.n.toNat))] else []) <|
    -- if (ssh_channel_is_eof(..) || ssh_channel_is_closed(..)) disconnectFromHost();
    after [Action.call (LibCall.ssh_channel_is_eof c)] <|
    if o.is_eof ≠ 0 then disconnectFromHost s
    else
      after [Action.call (LibCall.ssh_channel_is_closed c)] <|
      if o.is_closed ≠ 0 then disconnectFromHost s else (s, [])

end SshSession

/-- One invocation of a public operation of `SshSession`, with the results of the
libssh calls it makes. -/
inductive Op where
  | connectToHost (a : ConnectArgs) (o : ConnectOutcome)
  | send (data : QByteArray)
  | disconnectFromHost
  | setPtySize (rows : Int) (cols : Int)
  | pollTick (o : PollOutcome)
  deriving DecidableEq, Repr

/-- The effect of one operation. -/
def step (s : SshSession) : Op → SshSession × List Action
  | Op.connectToHost a o => s.connectToHost a o
  | Op.send data => s.send data
  | Op.disconnectFromHost => s.disconnectFromHost
  | Op.setPtySize rows cols => s.setPtySize rows cols
  | Op.pollTick o => s.pollTimerTimeout o

/-- The state and the whole trace after a sequence of operations on the state `s`. -/
def runFrom (s : SshSession) : List Op → SshSession × List Action
  | [] => (s, [])
  | op :: ops => after (step s op).2 (runFrom (step s op).1 ops)

/-- The state and the whole trace after a sequence of operations on a freshly
constructed object. -/
def run (ops : List Op) : SshSession × List Action :=
  runFrom SshSession.init ops

/-! ## Vocabulary of the properties -/

/-- The authentication step of a `connectToHost` call succeeds: with a key path,
the key file is loaded (`SSH_OK` and a non-null key) and
`ssh_userauth_publickey` returns `SSH_AUTH_SUCCESS`; without one, the agent
call (no password) or the password call returns `SSH_AUTH_SUCCESS`. -/
def AuthSucceeds (a : ConnectArgs) (o : ConnectOutcome) : Prop :=
  if a.keyPath ≠ "" then
    o.import_rc = SSH_OK ∧ o.import_key.isSome = true ∧
      o.ssh_userauth_publickey = SSH_AUTH_SUCCESS
  else if a.password = "" then o.ssh_userauth_publickey_auto = SSH_AUTH_SUCCESS
  else o.ssh_userauth_password = SSH_AUTH_SUCCESS

instance (a : ConnectArgs) (o : ConnectOutcome) : Decidable (AuthSucceeds a o) := by
  unfold AuthSucceeds; infer_instance

/-- Channel creation, channel open, the PTY request and the shell request all
succeed. -/
def ChannelSucceeds (o : ConnectOutcome) : Prop :=
  o.ssh_channel_new.isSome = true ∧ o.ssh_channel_open_session = SSH_OK ∧
    o.ssh_channel_request_pty = SSH_OK ∧ o.ssh_channel_request_shell = SSH_OK

instance (o : ConnectOutcome) : Decidable (ChannelSucceeds o) := by
  unfold ChannelSucceeds; infer_instance

/-- Every step of a `connectToHost` call succeeds: session creation,
`ssh_connect`, authentication, and the four channel steps. -/
def ConnectSucceeds (a : ConnectArgs) (o : ConnectOutcome) : Prop :=
  o.ssh_new.isSome = true ∧ o.ssh_connect = SSH_OK ∧ AuthSucceeds a o ∧ ChannelSucceeds o

instance (a : ConnectArgs) (o : ConnectOutcome) : Decidable (ConnectSucceeds a o) := by
  unfold ConnectSucceeds; infer_instance

/-- Whether a signal is an `error`. -/
def Signal.isError : Signal → Bool
  | Signal.error _ => true
  | _ => false

/-- The number of `error` signals in a trace. -/
def errorCount (t : List Action) : Nat :=
  ((signals t).filter Signal.isError).length

/-- Whether a libssh call is an authentication attempt (`ssh_userauth_*`). -/
def LibCall.isUserauth : LibCall → Bool
  | LibCall.ssh_userauth_publickey _ _ => true
  | LibCall.ssh_userauth_publickey_auto _ => true
  | LibCall.ssh_userauth_password _ _ => true
  | _ => false

/-- The authentication attempts of a trace: its `ssh_userauth_*` calls, in order. -/
def userauthCalls (t : List Action) : List LibCall :=
  (calls t).filter LibCall.isUserauth

/-- What tearing down the state `s` does, in order: the channel, if any, is
closed and freed; the session, if any, is disconnected and freed; `disconnected`
is emitted if the object was connected. -/
def teardown (s : SshSession) : List Action :=
  (match s.channel with
    | some c => [Action.call (LibCall.ssh_channel_close c), Action.call (LibCall.ssh_channel_free c)]
    | none => []) ++
  (match s.session with
    | some h => [Action.call (LibCall.ssh_disconnect h), Action.call (LibCall.ssh_free h)]
    | none => []) ++
  (if s.connected_ then [Action.emit Signal.disconnected] else [])

/-- The handle invariant of `SshSession`: `connected_` holds exactly when a
channel is held, exactly when the poll timer runs, and a channel is only held
together with a session. -/
def Inv (s : SshSession) : Prop :=
  s.connected_ = s.channel.isSome ∧ s.pollTimerActive = s.channel.isSome ∧
    (s.channel.isSome = true → s.session.isSome = true)

instance (s : SshSession) : Decidable (Inv s) := by
  unfold Inv; infer_instance

/-- An observer of a trace: the session handles and the channel handles that
have been allocated and not yet freed, and whether the current connection
attempt (started by the latest `ssh_new`) has emitted `connected` with no
`disconnected` since. -/
structure Monitor where
  sessions : List Handle
  channels : List Handle
  connected : Bool
  deriving DecidableEq, Repr

namespace Monitor

/-- The observer at the creation of the object. -/
def init : Monitor := { sessions := [], channels := [], connected := false }

/-- The observer after one more action. -/
def step (m : Monitor) : Action → Monitor
  | Action.call (LibCall.ssh_new (some h)) =>
    { m with sessions := h :: m.sessions, connected := false }
  | Action.call (LibCall.ssh_new none) => { m with connected := false }
  | Action.call (LibCall.ssh_free h) => { m with sessions := m.sessions.erase h }
  | Action.call (LibCall.ssh_channel_new _ (some c)) => { m with channels := c :: m.channels }
  | Action.call (LibCall.ssh_channel_free c) => { m with channels := m.channels.erase c }
  | Action.emit Signal.connected => { m with connected := true }
  | Action.emit Signal.disconnected => { m with connected := false }
  | _ => m

/-- The observer after a trace. -/
def run (m : Monitor) (t : List Action) : Monitor := t.foldl step m

/-- The action `x`, taken in the observer state `m`, keeps at most one live
session and one live channel, and is an `output` only while connected. -/
def ok (m : Monitor) (x : Action) : Bool :=
  decide ((m.step x).sessions.length ≤ 1) && decide ((m.step x).channels.length ≤ 1) &&
    (match x with
     | Action.emit (Signal.output _) => m.connected
     | _ => true)

/-- Every action of the trace is `ok` in the observer state it is taken in. -/
def safe (m : Monitor) : List Action → Bool
  | [] => true
  | x :: t => m.ok x && (m.step x).safe t

end Monitor

/-- The observer state that corresponds to the object state `s`. -/
def monitorOf (s : SshSession) : Monitor :=
  { sessions := s.session.toList, channels := s.channel.toList, connected := s.connected_ }

/-! ## Sample inputs -/

/-- A password login to `example.org`. -/
def sampleArgs : ConnectArgs :=
  { host := "example.org", user := "alice", password := "secret", keyPath := "",
    keyPassphrase := "", port := 22 }

/-- The same login with a key path given as well as the password. -/
def sampleKeyArgs : ConnectArgs :=
  { sampleArgs with keyPath := "/home/alice/.ssh/id_ed25519" }

/-- Every libssh call succeeds: session 1, channel 2, key 3. -/
def sampleOutcome : ConnectOutcome :=
  { ssh_new := some 1, ssh_connect := 0, import_rc := 0, import_key := some 3,
    ssh_userauth_publickey := 0, ssh_userauth_publickey_auto := 0, ssh_userauth_password := 0,
    ssh_channel_new := some 2, ssh_channel_open_session := 0, ssh_channel_request_pty := 0,
    ssh_channel_request_shell := 0, ssh_get_error := "timeout" }

/-- The PTY request fails (`SSH_ERROR`), everything before it succeeds. -/
def samplePtyFailure : ConnectOutcome :=
  { sampleOutcome with ssh_channel_request_pty := -1 }

/-- The key file does not load: `SSH_EOF` and no key. -/
def sampleKeyMissing : ConnectOutcome :=
  { sampleOutcome with import_rc := -127, import_key := none }

/-- One successful connect on a fresh object. -/
def sampleConnected : List Op := [Op.connectToHost sampleArgs sampleOutcome]

/-- A tick that reads the two bytes `hi` and finds the channel at EOF. -/
def samplePoll : PollOutcome := { n := 2, buffer := [104, 105, 0], is_eof := 1, is_closed := 0 }

/-! ## The plain-text path of `TerminalWidget::writeData` (`src/src/TerminalWidget.cpp`) -/

/-- The scanner states of `stripAnsi` (`enum class State`, TerminalWidget.cpp 72). -/
inductive StripState where
  | Normal
  | Esc
  | Csi
  | Osc
  | OscEsc
  deriving DecidableEq, Repr

/-- One iteration of the loop of `stripAnsi` (TerminalWidget.cpp 73-113): the
scanner state and `out` after the byte `c`, a value of `unsigned char`. -/
def stripAnsiStep (st : StripState × QByteArray) (c : Nat) : StripState × QByteArray :=
  match st.1 with
  | StripState.Normal =>
    -- if (c == 0x1b) state = Esc; else out.append(ch);
    if c = 0x1b then (StripState.Esc, st.2) else (StripState.Normal, st.2 ++ [c])
  | StripState.Esc =>
    -- '[' -> Csi, ']' -> Osc, anything else -> Normal
    if c = 0x5b then (StripState.Csi, st.2)
    else if c = 0x5d then (StripState.Osc, st.2)
    else (StripState.Normal, st.2)
  | StripState.Csi =>
    -- CSI ends with @ through ~
    if c ≥ 0x40 ∧ c ≤ 0x7e then (StripState.Normal, st.2) else (StripState.Csi, st.2)
  | StripState.Osc =>
    -- BEL -> Normal, ESC -> OscEsc
    if c = 0x07 then (StripState.Normal, st.2)
    else if c = 0x1b then (StripState.OscEsc, st.2)
    else (StripState.Osc, st.2)
  | StripState.OscEsc =>
    -- '\\' -> Normal, anything but ESC -> Osc
    if c = 0x5c then (StripState.Normal, st.2)
    else if c ≠ 0x1b then (StripState.Osc, st.2)
    else (StripState.OscEsc, st.2)

/-- The lambda `stripAnsi` of `TerminalWidget::writeData` (TerminalWidget.cpp
69-115): the loop starts in `Normal` with an empty `out` on every call. -/
def stripAnsi (input : QByteArray) : QByteArray :=
  (input.foldl stripAnsiStep (StripState.Normal, [])).2

/-! ## `TerminalWidget` (`src/src/TerminalWidget.cpp`)

libvterm is not part of the repository. Its object is the record `VTerm`; what
its functions do to it is a parameter (`Libvterm`), except that the object has
the size it was created with or last resized to, which input never changes. -/

/-- The libvterm object behind `vterm_`: its size (`vterm_get_size`), the first
code point of every cell of its screen row by row (`cell.chars[0]`, 0 for a
blank cell), and the rest of its state (parser, pen, cursor) as one value. -/
structure VTerm where
  rows : Int
  cols : Int
  cells : List (List Nat)
  internal : Nat
  deriving DecidableEq, Repr

/-- What libvterm does: the object `vterm_new` returns once the reset calls of
`initVTerm` have run, the object after `vterm_input_write`, and the object
after `vterm_set_size`. -/
structure Libvterm where
  created : Int → Int → VTerm
  written : VTerm → QByteArray → VTerm
  resized : VTerm → Int → Int → VTerm

/-- How the program is built and what it is linked with: whether
`HAVE_LIBVTERM` and `__APPLE__` are defined, and the behaviour of libvterm. -/
structure Build where
  HAVE_LIBVTERM : Bool
  APPLE : Bool
  libvterm : Libvterm

/-- The call `vterm_new(rows, cols)`: the new object has that size. -/
def vterm_new (b : Build) (rows cols : Int) : VTerm :=
  { b.libvterm.created rows cols with rows := rows, cols := cols }

/-- The call `vterm_input_write(vt, data, size)`: the size of the object stays. -/
def vterm_input_write (b : Build) (vt : VTerm) (data : QByteArray) : VTerm :=
  { b.libvterm.written vt data with rows := vt.rows, cols := vt.cols }

/-- The call `vterm_set_size(vt, rows, cols)`: the object has the new size. -/
def vterm_set_size (b : Build) (vt : VTerm) (rows cols : Int) : VTerm :=
  { b.libvterm.resized vt rows cols with rows := rows, cols := cols }

/-- What a member function of `TerminalWidget` does to the outside: the libvterm
calls that matter here and the two signals of the class. -/
inductive TermAction where
  | vterm_new (rows : Int) (cols : Int)
  | vterm_input_write (data : QByteArray)
  | vterm_set_size (rows : Int) (cols : Int)
  | terminalResized (rows : Int) (cols : Int)
  | sendData (data : QByteArray)
  deriving DecidableEq, Repr

/-- The state of a `TerminalWidget` that the modelled functions read or write.
`output_` is the text of the plain-text document as the bytes inserted so far
(`QString::fromUtf8` and the block limit of the document are Qt's and are not
modelled). -/
structure TerminalWidget where
  vterm_ : Option VTerm
  vtermReady_ : Bool
  cellWidth_ : Int
  cellHeight_ : Int
  lastRows_ : Int
  lastCols_ : Int
  output_ : Option QByteArray
  deriving DecidableEq, Repr

/-- The value of `Qt::Key_A`. -/
def Key_A : Int := 0x41

/-- The value of `Qt::Key_V`. -/
def Key_V : Int := 0x56

/-- The value of `Qt::Key_Z`. -/
def Key_Z : Int := 0x5a

/-- The value of `Qt::Key_Space`. -/
def Key_Space : Int := 0x20

/-- The value of `Qt::Key_Escape`. -/
def Key_Escape : Int := 0x01000000

/-- The value of `Qt::Key_Tab`. -/
def Key_Tab : Int := 0x01000001

/-- The value of `Qt::Key_Backspace`. -/
def Key_Backspace : Int := 0x01000003

/-- The value of `Qt::Key_Return`. -/
def Key_Return : Int := 0x01000004

/-- The value of `Qt::Key_Enter`. -/
def Key_Enter : Int := 0x01000005

/-- The value of `Qt::Key_Insert`. -/
def Key_Insert : Int := 0x01000006

/-- The value of `Qt::Key_Delete`. -/
def Key_Delete : Int := 0x01000007

/-- The value of `Qt::Key_Home`. -/
def Key_Home : Int := 0x01000010

/-- The value of `Qt::Key_End`. -/
def Key_End : Int := 0x01000011

/-- The value of `Qt::Key_Left`. -/
def Key_Left : Int := 0x01000012

/-- The value of `Qt::Key_Up`. -/
def Key_Up : Int := 0x01000013

/-- The value of `Qt::Key_Right`. -/
def Key_Right : Int := 0x01000014

/-- The value of `Qt::Key_Down`. -/
def Key_Down : Int := 0x01000015

/-- The flags of `Qt::KeyboardModifiers`, one field per flag; `m & Qt::XModifier`
is the field `x`. -/
structure KeyboardModifiers where
  shift : Bool
  control : Bool
  alt : Bool
  meta : Bool
  keypad : Bool
  deriving DecidableEq, Repr

/-- What `handleKeyEvent` reads of a `QKeyEvent`. -/
structure QKeyEvent where
  modifiers : KeyboardModifiers
  key : Int
  text : String
  deriving DecidableEq, Repr

/-- The bytes of `QString::toUtf8()`. -/
def toUtf8 (s : String) : QByteArray :=
  (s.data.flatMap String.utf8EncodeChar).map UInt8.toNat

namespace TerminalWidget

/-- The members before the constructor body runs (`include/TerminalWidget.h`). -/
def init : TerminalWidget :=
  { vterm_ := none, vtermReady_ := false, cellWidth_ := 0, cellHeight_ := 0, lastRows_ := 0,
    lastCols_ := 0, output_ := none }

/-- `TerminalWidget::initVTerm` (TerminalWidget.cpp 433-520); `width`, `height`
are `width()`, `height()` and `fmWidth`, `fmHeight` the two font metrics read. -/
def initVTerm (b : Build) (t : TerminalWidget) (width height fmWidth fmHeight : Int) :
    TerminalWidget × List TermAction :=
  -- const int cols = qMax(100, width() / qMax(1, cellWidth_));
  let cols := max 100 (width.tdiv (max 1 fmWidth))
  -- const int rows = qMax(24, height() / qMax(1, cellHeight_));
  let rows := max 24 (height.tdiv (max 1 fmHeight))
  ({ t with cellWidth_ := fmWidth, cellHeight_ := fmHeight, vterm_ := some (vterm_new b rows cols),
            vtermReady_ := true, lastRows_ := rows, lastCols_ := cols },
    [TermAction.vterm_new rows cols, TermAction.terminalResized rows cols])

/-- `TerminalWidget::initFallbackUi` (TerminalWidget.cpp 352-418): the plain-text
document is created, empty. -/
def initFallbackUi (t : TerminalWidget) : TerminalWidget :=
  { t with output_ := some [] }

/-- `TerminalWidget::updateSizeFromPixel` (TerminalWidget.cpp 522-552); `w`, `h`
are `width()`, `height()`. -/
def updateSizeFromPixel (b : Build) (t : TerminalWidget) (w h : Int) :
    TerminalWidget × List TermAction :=
  match t.vterm_ with
  | none => (t, [])
  | some vt =>
    if t.vtermReady_ = false then (t, [])
    else if t.cellWidth_ ≤ 0 ∨ t.cellHeight_ ≤ 0 then (t, [])
    else if w ≤ 0 ∨ h ≤ 0 then (t, [])
    else
      -- int cols = qMax(100, w / cellWidth_); cols = qMin(cols, 1000);
      let cols := min (max 100 (w.tdiv t.cellWidth_)) 1000
      -- int rows = qMax(24, h / cellHeight_); rows = qMin(rows, 1000);
      let rows := min (max 24 (h.tdiv t.cellHeight_)) 1000
      if rows = t.lastRows_ ∧ cols = t.lastCols_ then (t, [])
      else if b.APPLE then
        ({ t with lastRows_ := rows, lastCols_ := cols }, [TermAction.terminalResized rows cols])
      else
        ({ t with lastRows_ := rows, lastCols_ := cols,
                  vterm_ := some (vterm_set_size b vt rows cols) },
          [TermAction.vterm_set_size rows cols, TermAction.terminalResized rows cols])

/-- `TerminalWidget::setTheme` (TerminalWidget.cpp 136-180) as far as the size
goes: with libvterm the cell metrics are read again and, when the widget is
visible, `updateSizeFromPixel` runs at once (otherwise it is queued and runs
later as a call of its own). -/
def setTheme (b : Build) (t : TerminalWidget) (fmWidth fmHeight : Int) (visible : Bool)
    (w h : Int) : TerminalWidget × List TermAction :=
  if b.HAVE_LIBVTERM then
    let t1 : TerminalWidget := { t with cellWidth_ := fmWidth, cellHeight_ := fmHeight }
    if t1.vterm_.isSome ∧ visible then updateSizeFromPixel b t1 w h else (t1, [])
  else (t, [])

/-- The constructor `TerminalWidget::TerminalWidget` (TerminalWidget.cpp 20-46);
`useVterm` is false when `SSH_TERMINAL_DISABLE_VTERM` is set. `setTheme` is called
at the end in every branch; the widget is not visible yet, so it only queues its
`updateSizeFromPixel`. -/
def create (b : Build) (useVterm : Bool) (width height fmWidth fmHeight : Int) :
    TerminalWidget × List TermAction :=
  let r : TerminalWidget × List TermAction :=
    if b.HAVE_LIBVTERM then
      if useVterm then initVTerm b init width height fmWidth fmHeight
      else (initFallbackUi init, [])
    else (initFallbackUi init, [])
  -- setTheme(fg_, bg_, font_);
  let r2 := setTheme b r.1 fmWidth fmHeight false width height
  (r2.1, r.2 ++ r2.2)

/-- `TerminalWidget::writeData` (TerminalWidget.cpp 57-122). -/
def writeData (b : Build) (t : TerminalWidget) (data : QByteArray) :
    TerminalWidget × List TermAction :=
  if b.HAVE_LIBVTERM then
    match t.vterm_ with
    | none => (t, [])
    | some vt =>
      ({ t with vterm_ := some (vterm_input_write b vt data) },
        [TermAction.vterm_input_write data])
  else
    match t.output_ with
    | none => (t, [])
    | some doc =>
      -- output_->insertPlainText(QString::fromUtf8(stripAnsi(data))), at the end
      ({ t with output_ := some (doc ++ stripAnsi data) }, [])

/-- `TerminalWidget::clearScreen` (TerminalWidget.cpp 124-134). -/
def clearScreen (b : Build) (t : TerminalWidget) : TerminalWidget × List TermAction :=
  if b.HAVE_LIBVTERM then
    -- Avoid calling libvterm APIs here; clearing is handled by the remote output.
    (t, [])
  else
    match t.output_ with
    | none => (t, [])
    | some _ => ({ t with output_ := some [] }, [])

/-- `TerminalWidget::pasteFromClipboard` (TerminalWidget.cpp 420-430); `clipboard`
is the text of the clipboard, `none` when there is no clipboard object. -/
def pasteFromClipboard (clipboard : Option String) : List TermAction :=
  match clipboard with
  | none => []
  | some text => if text = "" then [] else [TermAction.sendData (toUtf8 text)]

/-- The bytes `out` that `handleKeyEvent` builds when the event is no paste
combination (TerminalWidget.cpp 197-247). -/
def keyBytes (event : QKeyEvent) : QByteArray :=
  if event.modifiers.control then
    -- if (key >= Qt::Key_A && key <= Qt::Key_Z) out.append(char(key - Qt::Key_A + 1));
    if event.key ≥ Key_A ∧ event.key ≤ Key_Z then [(event.key - Key_A + 1).toNat] else []
  else if event.key = Key_Backspace then [0x7f]
  else if event.key = Key_Return ∨ event.key = Key_Enter then [0x0d]
  else if event.key = Key_Tab then [0x09]
  else if event.key = Key_Escape then [0x1b]
  else if event.key = Key_Space then [0x20]
  else if event.key = Key_Left then [0x1b, 0x5b, 0x44]
  else if event.key = Key_Right then [0x1b, 0x5b, 0x43]
  else if event.key = Key_Up then [0x1b, 0x5b, 0x41]
  else if event.key = Key_Down then [0x1b, 0x5b, 0x42]
  else if event.key = Key_Home then [0x1b, 0x5b, 0x48]
  else if event.key = Key_End then [0x1b, 0x5b, 0x46]
  else if event.key = Key_Delete then [0x1b, 0x5b, 0x33, 0x7e]
  else toUtf8 event.text

/-- `TerminalWidget::handleKeyEvent` (TerminalWidget.cpp 182-254): the signals
emitted and the value returned. -/
def handleKeyEvent (event : QKeyEvent) (clipboard : Option String) : List TermAction × Bool :=
  if event.modifiers.shift ∧ event.modifiers.control ∧ event.key = Key_V then
    (pasteFromClipboard clipboard, true)
  else if event.modifiers.shift ∧ event.key = Key_Insert then
    (pasteFromClipboard clipboard, true)
  else if keyBytes event ≠ [] then
    ([TermAction.sendData (keyBytes event)], true)
  else ([], false)

end TerminalWidget

/-- The struct `Profile` (`include/ProfileStore.h`). -/
structure Profile where
  name : String
  host : String
  user : String
  port : Int
  keyPath : String
  openInNewTab : Bool
  deriving DecidableEq, Repr

/-- Whether `QChar::isSpace` holds: the characters U+0009 to U+000D, U+0085 and
those of the Unicode separator categories. -/
def qIsSpace (c : Char) : Bool :=
  let v := c.toNat
  (0x09 ≤ v ∧ v ≤ 0x0d) ∨ v = 0x20 ∨ v = 0x85 ∨ v = 0xa0 ∨ v = 0x1680 ∨
    (0x2000 ≤ v ∧ v ≤ 0x200a) ∨ v = 0x2028 ∨ v = 0x2029 ∨ v = 0x202f ∨ v = 0x205f ∨ v = 0x3000

/-- The text of `QString::trimmed()`: without the spaces at its two ends. -/
def trimmed (s : String) : String :=
  String.mk ((s.data.dropWhile qIsSpace).reverse.dropWhile qIsSpace).reverse

/-- What a call on a `TerminalTab` does to the outside, in order: the actions of
its session, those of its terminal, and the signals of the tab. -/
inductive TabAction where
  | session (a : Action)
  | terminal (a : TermAction)
  | profileSelected (p : Profile)
  | profileConnected (p : Profile)
  | connectInNewTab (p : Profile)
  | requestClose
  deriving DecidableEq, Repr

/-- The members of a `TerminalTab` (`include/TerminalTab.h`). -/
structure TerminalTab where
  terminal_ : TerminalWidget
  session_ : SshSession
  currentProfile_ : Profile
  hasProfile_ : Bool
  connected_ : Bool
  deriving DecidableEq, Repr

/-- What the passphrase dialog of `connectProfile` returns: `ok` and the text. -/
structure DialogResult where
  ok : Bool
  text : String
  deriving DecidableEq, Repr

namespace TerminalTab

/-- `TerminalTab::onSessionOutput` (TerminalTab.cpp 91-93). -/
def onSessionOutput (b : Build) (tab : TerminalTab) (data : QByteArray) :
    TerminalTab × List TabAction :=
  let r := tab.terminal_.writeData b data
  ({ tab with terminal_ := r.1 }, r.2.map TabAction.terminal)

/-- `TerminalTab::onSessionError` (TerminalTab.cpp 95-97). -/
def onSessionError (b : Build) (tab : TerminalTab) (message : String) :
    TerminalTab × List TabAction :=
  let r := tab.terminal_.writeData b (toUtf8 "[Error] " ++ toUtf8 message ++ toUtf8 "\n")
  ({ tab with terminal_ := r.1 }, r.2.map TabAction.terminal)

/-- `TerminalTab::onSessionConnected` (TerminalTab.cpp 103-109). -/
def onSessionConnected (b : Build) (tab : TerminalTab) : TerminalTab × List TabAction :=
  let r := tab.terminal_.clearScreen b
  let tab1 : TerminalTab := { tab with connected_ := true, terminal_ := r.1 }
  (tab1, r.2.map TabAction.terminal ++
    (if tab1.hasProfile_ then [TabAction.profileConnected tab1.currentProfile_] else []))

/-- `TerminalTab::onSessionDisconnected` (TerminalTab.cpp 111-114). -/
def onSessionDisconnected (tab : TerminalTab) : TerminalTab × List TabAction :=
  ({ tab with connected_ := false }, [TabAction.requestClose])

/-- The slot the constructor connects to each signal of the session. -/
def deliver (b : Build) (tab : TerminalTab) : Signal → TerminalTab × List TabAction
  | Signal.output data => onSessionOutput b tab data
  | Signal.error message => onSessionError b tab message
  | Signal.connected => onSessionConnected b tab
  | Signal.disconnected => onSessionDisconnected tab

/-- The trace of a function of the session as the tab sees it: every action of
the session, each signal followed by what its slot does. -/
def dispatch (b : Build) (tab : TerminalTab) : List Action → TerminalTab × List TabAction
  | [] => (tab, [])
  | Action.call c :: t =>
    let r := dispatch b tab t
    (r.1, TabAction.session (Action.call c) :: r.2)
  | Action.emit e :: t =>
    let r1 := deliver b tab e
    let r2 := dispatch b r1.1 t
    (r2.1, TabAction.session (Action.emit e) :: (r1.2 ++ r2.2))

/-- A call of a function of `session_` from the tab or the terminal: the session
takes its new state and the tab sees the trace. -/
def callSession (b : Build) (tab : TerminalTab) (r : SshSession × List Action) :
    TerminalTab × List TabAction :=
  dispatch b { tab with session_ := r.1 } r.2

/-- `TerminalTab::onTerminalResize` (TerminalTab.cpp 99-101). -/
def onTerminalResize (b : Build) (tab : TerminalTab) (rows cols : Int) :
    TerminalTab × List TabAction :=
  callSession b tab (tab.session_.setPtySize rows cols)

/-- The trace of a function of the terminal as the tab sees it: every action of
the terminal, `terminalResized` followed by `onTerminalResize` and `sendData`
by `SshSession::send`, as the constructor connects them. -/
def forward (b : Build) (tab : TerminalTab) : List TermAction → TerminalTab × List TabAction
  | [] => (tab, [])
  | TermAction.terminalResized rows cols :: t =>
    let r1 := onTerminalResize b tab rows cols
    let r2 := forward b r1.1 t
    (r2.1, TabAction.terminal (TermAction.terminalResized rows cols) :: (r1.2 ++ r2.2))
  | TermAction.sendData data :: t =>
    let r1 := callSession b tab (tab.session_.send data)
    let r2 := forward b r1.1 t
    (r2.1, TabAction.terminal (TermAction.sendData data) :: (r1.2 ++ r2.2))
  | a :: t =>
    let r := forward b tab t
    (r.1, TabAction.terminal a :: r.2)

/-- The constructor `TerminalTab::TerminalTab` (TerminalTab.cpp 12-42): the
terminal and the session are created before any connection is made, so the
`terminalResized` that `initVTerm` emits reaches no slot. -/
def create (b : Build) (useVterm : Bool) (width height fmWidth fmHeight : Int) :
    TerminalTab × List TabAction :=
  let r := TerminalWidget.create b useVterm width height fmWidth fmHeight
  ({ terminal_ := r.1, session_ := SshSession.init,
     currentProfile_ :=
       { name := "", host := "", user := "", port := 22, keyPath := "", openInNewTab := false },
     hasProfile_ := false, connected_ := false },
    r.2.map TabAction.terminal)

/-- `TerminalTab::connectProfile` (TerminalTab.cpp 44-60); `fileExists` is
`QFileInfo::exists(keyPath)`, `dialog` what `QInputDialog::getText` returns if
it is shown, and `o` what the libssh calls of `connectToHost` return. -/
def connectProfile (b : Build) (tab : TerminalTab) (p : Profile) (promptKeyPass : Bool)
    (fileExists : Bool) (dialog : DialogResult) (o : ConnectOutcome) :
    TerminalTab × List TabAction :=
  let keyPath := trimmed p.keyPath
  let prompted : Bool := promptKeyPass ∧ keyPath ≠ "" ∧ fileExists
  if prompted ∧ dialog.ok = false then (tab, [])
  else
    let keyPass := if prompted then dialog.text else ""
    let tab1 : TerminalTab := { tab with currentProfile_ := p, hasProfile_ := true }
    let r := callSession b tab1
      (tab1.session_.connectToHost
        { host := p.host, user := p.user, password := "", keyPath := keyPath,
          keyPassphrase := keyPass, port := p.port } o)
    (r.1, TabAction.profileSelected p :: r.2)

/-- The resize timer of the terminal fires (TerminalWidget.cpp 279-281), or a
queued `updateSizeFromPixel` runs: the terminal takes the size of the widget
and the tab forwards its signals. -/
def updateSize (b : Build) (tab : TerminalTab) (w h : Int) : TerminalTab × List TabAction :=
  let r := tab.terminal_.updateSizeFromPixel b w h
  forward b { tab with terminal_ := r.1 } r.2

/-- `TerminalTab::applyTheme` (TerminalTab.cpp 74-76): `setTheme` of the terminal,
the tab forwarding the signals of the `updateSizeFromPixel` it may run. -/
def applyTheme (b : Build) (tab : TerminalTab) (fmWidth fmHeight : Int) (visible : Bool)
    (w h : Int) : TerminalTab × List TabAction :=
  let r := tab.terminal_.setTheme b fmWidth fmHeight visible w h
  forward b { tab with terminal_ := r.1 } r.2

/-- The poll timer of the session fires. -/
def pollTick (b : Build) (tab : TerminalTab) (o : PollOutcome) : TerminalTab × List TabAction :=
  callSession b tab (tab.session_.pollTimerTimeout o)

/-- A key press in the terminal (`keyPressEvent`, TerminalWidget.cpp 256-260). -/
def keyPress (b : Build) (tab : TerminalTab) (event : QKeyEvent) (clipboard : Option String) :
    TerminalTab × List TabAction :=
  forward b tab (TerminalWidget.handleKeyEvent event clipboard).1

end TerminalTab

/-- One thing that happens to a tab after its construction. -/
inductive TabOp where
  | connectProfile (p : Profile) (promptKeyPass : Bool) (fileExists : Bool)
      (dialog : DialogResult) (o : ConnectOutcome)
  | updateSize (w : Int) (h : Int)
  | applyTheme (fmWidth : Int) (fmHeight : Int) (visible : Bool) (w : Int) (h : Int)
  | pollTick (o : PollOutcome)
  | keyPress (event : QKeyEvent) (clipboard : Option String)
  deriving DecidableEq, Repr

/-- The effect of one `TabOp`. -/
def tabStep (b : Build) (tab : TerminalTab) : TabOp → TerminalTab × List TabAction
  | TabOp.connectProfile p promptKeyPass fileExists dialog o =>
    tab.connectProfile b p promptKeyPass fileExists dialog o
  | TabOp.updateSize w h => tab.updateSize b w h
  | TabOp.applyTheme fmWidth fmHeight visible w h => tab.applyTheme b fmWidth fmHeight visible w h
  | TabOp.pollTick o => tab.pollTick b o
  | TabOp.keyPress event clipboard => tab.keyPress b event clipboard

/-- The tab and the whole trace after a sequence of operations on the tab `tab`. -/
def tabRunFrom (b : Build) (tab : TerminalTab) : List TabOp → TerminalTab × List TabAction
  | [] => (tab, [])
  | op :: ops =>
    ((tabRunFrom b (tabStep b tab op).1 ops).1,
      (tabStep b tab op).2 ++ (tabRunFrom b (tabStep b tab op).1 ops).2)

/-- The sizes forwarded to the remote PTY in a trace: the width and height of
its `ssh_channel_change_pty_size` calls, in order. -/
def ptySizes : List TabAction → List (Int × Int)
  | [] => []
  | TabAction.session (Action.call (LibCall.ssh_channel_change_pty_size _ cols rows)) :: t =>
    (cols, rows) :: ptySizes t
  | _ :: t => ptySizes t

/-- The profiles of the `profileConnected` signals of a trace, in order. -/
def profilesConnected : List TabAction → List Profile
  | [] => []
  | TabAction.profileConnected p :: t => p :: profilesConnected t
  | _ :: t => profilesConnected t

/-- The number of `connected` signals of the session in a trace. -/
def sessionConnectedCount : List TabAction → Nat
  | [] => 0
  | TabAction.session (Action.emit Signal.connected) :: t => sessionConnectedCount t + 1
  | _ :: t => sessionConnectedCount t

/-! ## Vocabulary of the properties of the terminal and the tab -/

/-- The scanner state of `stripAnsi` after the bytes `l`, started in `st`. -/
def scan (st : StripState) (l : QByteArray) : StripState :=
  (l.foldl stripAnsiStep (st, [])).1

/-- The bytes `stripAnsi` appends to `out` over the bytes `l`, started in `st`. -/
def kept (st : StripState) (l : QByteArray) : QByteArray :=
  (l.foldl stripAnsiStep (st, [])).2

/-- Whether the bytes hold the string terminator `ESC \` somewhere. -/
def hasST : QByteArray → Bool
  | a :: b :: rest => (a = 0x1b && b = 0x5c) || hasST (b :: rest)
  | _ => false

/-- Whether the bytes hold a `BEL` that does not directly follow an `ESC`;
`afterEsc` tells whether the byte before the first of them is an `ESC`. -/
def hasFreeBel : Bool → QByteArray → Bool
  | _, [] => false
  | afterEsc, c :: rest => (c = 0x07 && !afterEsc) || hasFreeBel (c = 0x1b) rest

/-- Whether a byte is a final byte of a CSI sequence, `0x40` to `0x7E`. -/
def isCsiFinal (c : Nat) : Bool := 0x40 ≤ c && c ≤ 0x7e

/-- A piece of a byte stream: a byte of text, or one ESC-introduced sequence:
`ESC` and one byte, a CSI sequence `ESC [ params final`, or an OSC sequence
`ESC ] body` ended by `BEL` or by `ESC \`. -/
inductive Token where
  | plain (c : Nat)
  | escape (c : Nat)
  | csi (params : QByteArray) (final : Nat)
  | oscBel (body : QByteArray)
  | oscSt (body : QByteArray)
  deriving DecidableEq, Repr

/-- The bytes of a token. -/
def Token.bytes : Token → QByteArray
  | Token.plain c => [c]
  | Token.escape c => [0x1b, c]
  | Token.csi params final => 0x1b :: 0x5b :: (params ++ [final])
  | Token.oscBel body => 0x1b :: 0x5d :: (body ++ [0x07])
  | Token.oscSt body => 0x1b :: 0x5d :: (body ++ [0x1b, 0x5c])

/-- The text of a token: the byte itself for a byte of text, nothing for a
sequence. -/
def Token.text : Token → QByteArray
  | Token.plain c => [c]
  | _ => []

/-- A token as the sentence on escape sequences describes it: a byte of text is
not `ESC`; the byte after `ESC` is neither `[` nor `]`; the parameters of a CSI
hold no final byte and its last byte is one; the body of an OSC goes up to the
first `BEL` or `ESC \`, so it holds neither. -/
def Token.Described : Token → Prop
  | Token.plain c => c ≠ 0x1b
  | Token.escape c => c ≠ 0x5b ∧ c ≠ 0x5d
  | Token.csi params final => (∀ p ∈ params, isCsiFinal p = false) ∧ isCsiFinal final = true
  | Token.oscBel body => 0x07 ∉ body ∧ hasST body = false
  | Token.oscSt body => 0x07 ∉ body ∧ hasST body = false

/-- A token as the scanner takes it: as described, except that an OSC goes up to
the first `ESC \` or the first `BEL` that does not directly follow an `ESC`: its
body holds no `ESC \` and no such `BEL` (it may hold a `BEL` right after an
`ESC`), and when a `BEL` ends it the body does not end in `ESC`. -/
def Token.Scanned : Token → Prop
  | Token.oscBel body =>
    hasFreeBel false body = false ∧ hasST body = false ∧ body.getLast? ≠ some 0x1b
  | Token.oscSt body => hasFreeBel false body = false ∧ hasST body = false
  | t => Token.Described t

/-- An unterminated sequence at the end of the input: nothing, a lone `ESC`, a
CSI without its final byte, or an OSC without its end (no `ESC \` and no `BEL`
that does not directly follow an `ESC`). -/
def UnterminatedTail (tail : QByteArray) : Prop :=
  tail = [] ∨ tail = [0x1b] ∨
    (∃ params, tail = 0x1b :: 0x5b :: params ∧ ∀ p ∈ params, isCsiFinal p = false) ∨
    (∃ body, tail = 0x1b :: 0x5d :: body ∧ hasFreeBel false body = false ∧ hasST body = false)

/-- A libvterm for the examples: a new object is blank, input puts its bytes in
the first row, a resize keeps the cells. -/
def sampleLibvterm : Libvterm :=
  { created := fun rows cols => { rows := rows, cols := cols, cells := [], internal := 0 },
    written := fun vt data => { vt with cells := [data] },
    resized := fun vt _ _ => vt }

/-- The build with libvterm, not on macOS. -/
def vtermBuild : Build := { HAVE_LIBVTERM := true, APPLE := false, libvterm := sampleLibvterm }

/-- The build without libvterm: the plain-text path. -/
def plainBuild : Build := { HAVE_LIBVTERM := false, APPLE := false, libvterm := sampleLibvterm }

/-- Authentication is refused (`SSH_AUTH_DENIED`), everything before it succeeds. -/
def sampleAuthDenied : ConnectOutcome :=
  { sampleOutcome with ssh_userauth_password := 1 }

/-- A profile without a key. -/
def sampleProfile : Profile :=
  { name := "build box", host := "example.org", user := "alice", port := 22, keyPath := "",
    openInNewTab := false }

/-- The sizes of the `terminalResized` signals of a trace of the terminal, rows
first, in order. -/
def resizedSignals : List TermAction → List (Int × Int)
  | [] => []
  | TermAction.terminalResized rows cols :: t => (rows, cols) :: resizedSignals t
  | _ :: t => resizedSignals t

/-! ## The selection of `TerminalWidget` (`src/src/TerminalWidget.cpp`, with libvterm)

A `QString` built from the cells of the screen is the list of the code points
appended to it (`QString::fromUcs4` is Qt's); a space is the code point `0x20`
and `"\n"` the code point `0x0A`. -/

/-- The struct `VTermPos` of libvterm. -/
structure VTermPos where
  row : Int
  col : Int
  deriving DecidableEq, Repr

/-- The call `vterm_screen_get_cell(screen_, pos, &cell)`: it fails outside the
screen; inside, the result is `cell.chars[0]`, 0 for a blank cell. -/
def vterm_screen_get_cell (vt : VTerm) (pos : VTermPos) : Option Nat :=
  if 0 ≤ pos.row ∧ pos.row < vt.rows ∧ 0 ≤ pos.col ∧ pos.col < vt.cols then
    some ((vt.cells.getD pos.row.toNat []).getD pos.col.toNat 0)
  else none

/-- The values a loop `for (int i = lo; i <= hi; ++i)` gives to `i`, in order. -/
def intRange (lo hi : Int) : List Int :=
  (List.range (hi + 1 - lo).toNat).map (fun (i : Nat) => lo + (i : Int))

/-- The members `selecting_`, `selStart_`, `selEnd_` of `TerminalWidget`. -/
structure Selection where
  selecting_ : Bool
  selStart_ : VTermPos
  selEnd_ : VTermPos
  deriving DecidableEq, Repr

/-- The position of the pointer in a mouse event, in pixels (`event->pos()`). -/
structure QPoint where
  x : Int
  y : Int
  deriving DecidableEq, Repr

/-- The mouse buttons the widget tells apart. -/
inductive MouseButton where
  | LeftButton
  | MiddleButton
  | other
  deriving DecidableEq, Repr

/-- The two clipboard modes written on mouse release. -/
inductive ClipboardMode where
  | Clipboard
  | Selection
  deriving DecidableEq, Repr

/-- A call `cb->setText(text, mode)` on the clipboard. -/
structure ClipboardWrite where
  text : List Nat
  mode : ClipboardMode
  deriving DecidableEq, Repr

namespace TerminalWidget

/-- The members `selecting_`, `selStart_`, `selEnd_` before the constructor body
runs (`include/TerminalWidget.h`). -/
def initSelection : Selection :=
  { selecting_ := false, selStart_ := { row := 0, col := 0 }, selEnd_ := { row := 0, col := 0 } }

/-- `TerminalWidget::pointToCell` (TerminalWidget.cpp 554-573). -/
def pointToCell (t : TerminalWidget) (p : QPoint) : VTermPos :=
  -- if (cellWidth_ > 0 && cellHeight_ > 0) { col = p.x() / cellWidth_; row = ...; }
  let col : Int := if t.cellWidth_ > 0 ∧ t.cellHeight_ > 0 then p.x.tdiv t.cellWidth_ else 0
  let row : Int := if t.cellWidth_ > 0 ∧ t.cellHeight_ > 0 then p.y.tdiv t.cellHeight_ else 0
  -- if (vterm_) vterm_get_size(vterm_, &rows, &cols);
  let rows : Int := match t.vterm_ with
    | some vt => vt.rows
    | none => 0
  let cols : Int := match t.vterm_ with
    | some vt => vt.cols
    | none => 0
  -- if (rows > 0) row = qBound(0, row, rows - 1); if (cols > 0) col = qBound(0, col, cols - 1);
  { row := if rows > 0 then max 0 (min (rows - 1) row) else row,
    col := if cols > 0 then max 0 (min (cols - 1) col) else col }

/-- The test `b.row < a.row || (b.row == a.row && b.col < a.col)` of
`selectedText` and `renderVTerm`. -/
def before (b a : VTermPos) : Bool :=
  b.row < a.row ∨ (b.row = a.row ∧ b.col < a.col)

/-- The pair `a`, `b` of `selectedText` after its swap (TerminalWidget.cpp
586-592). -/
def normalized (selStart_ selEnd_ : VTermPos) : VTermPos × VTermPos :=
  if before selEnd_ selStart_ then (selEnd_, selStart_) else (selStart_, selEnd_)

/-- The rows the outer loop of `selectedText` visits:
`for (int r = a.row; r <= b.row && r < rows; ++r)`. -/
def selectedRows (vt : VTerm) (a b : VTermPos) : List Int :=
  intRange a.row (min b.row (vt.rows - 1))

/-- The columns the inner loop of `selectedText` visits in row `r`
(TerminalWidget.cpp 596-603): `c0`, `c1` are swapped if `c0 > c1`, then
`for (int c = c0; c <= c1 && c < cols; ++c)`. -/
def selectedCols (vt : VTerm) (a b : VTermPos) (r : Int) : List Int :=
  let c0 : Int := if r = a.row then a.col else 0
  let c1 : Int := if r = b.row then b.col else vt.cols - 1
  if c0 > c1 then intRange c1 (min c0 (vt.cols - 1)) else intRange c0 (min c1 (vt.cols - 1))

/-- What the inner loop of `selectedText` appends for the cell at `pos`: a space
if the cell cannot be read or is blank, else its code point. -/
def cellText (vt : VTerm) (pos : VTermPos) : Nat :=
  match vterm_screen_get_cell vt pos with
  | none => 0x20
  | some ch => if ch = 0 then 0x20 else ch

/-- The text `line.left(end)` of `selectedText`: `line` without the spaces at its
end (TerminalWidget.cpp 616-620). -/
def withoutTrailingSpaces (line : List Nat) : List Nat :=
  (line.reverse.dropWhile (fun ch => ch = 0x20)).reverse

/-- The line `selectedText` appends to `lines` for row `r`. -/
def selectedLine (vt : VTerm) (a b : VTermPos) (r : Int) : List Nat :=
  withoutTrailingSpaces
    ((selectedCols vt a b r).map (fun c => cellText vt { row := r, col := c }))

/-- `TerminalWidget::selectedText` (TerminalWidget.cpp 575-624); `screen_` is set
together with `vterm_`. -/
def selectedText (t : TerminalWidget) (sel : Selection) : List Nat :=
  match t.vterm_ with
  | none => []
  | some vt =>
    if vt.rows ≤ 0 ∨ vt.cols ≤ 0 then []
    else
      let ab := normalized sel.selStart_ sel.selEnd_
      -- return lines.join("\n");
      List.intercalate [0x0a] ((selectedRows vt ab.1 ab.2).map (selectedLine vt ab.1 ab.2))

/-- The test `inSel` of `renderVTerm` for the cell in row `r` and column `c`,
with `a`, `b` as at that point (TerminalWidget.cpp 686-695). -/
def inSel (a b : VTermPos) (r c : Int) : Bool :=
  if r > a.row ∧ r < b.row then true
  else if r = a.row ∧ r = b.row then c ≥ a.col ∧ c ≤ b.col
  else if r = a.row then c ≥ a.col
  else if r = b.row then c ≤ b.col
  else false

/-- Whether `renderVTerm` paints the cell in row `r` and column `c` with the
selection colours (TerminalWidget.cpp 641-700): the function does not return
early, the cell is one of the screen, `hasSelection` holds and `inSel` is true. -/
def highlighted (t : TerminalWidget) (sel : Selection) (r c : Int) : Bool :=
  match t.vterm_ with
  -- if (!screen_) return;
  | none => false
  | some vt =>
    -- if (cellWidth_ <= 0 || cellHeight_ <= 0) return;
    if t.cellWidth_ ≤ 0 ∨ t.cellHeight_ ≤ 0 then false
    else
      -- bool hasSelection = (a.row != b.row) || (a.col != b.col) || selecting_;
      let hasSelection : Bool :=
        sel.selStart_.row ≠ sel.selEnd_.row ∨ sel.selStart_.col ≠ sel.selEnd_.col ∨
          sel.selecting_
      -- if (hasSelection && (b.row < a.row || ...)) swap
      let ab : VTermPos × VTermPos :=
        if hasSelection ∧ before sel.selEnd_ sel.selStart_ then (sel.selEnd_, sel.selStart_)
        else (sel.selStart_, sel.selEnd_)
      -- for (r = 0; r < rows; ++r) for (c = 0; c < cols; ++c) if (get_cell) ...
      (0 ≤ r ∧ r < vt.rows ∧ 0 ≤ c ∧ c < vt.cols) ∧
        (vterm_screen_get_cell vt { row := r, col := c }).isSome ∧ hasSelection ∧
          inSel ab.1 ab.2 r c

/-- `TerminalWidget::mousePressEvent` (TerminalWidget.cpp 303-318), with
libvterm: the selection after the event and the signals emitted. -/
def mousePressEvent (t : TerminalWidget) (sel : Selection) (button : MouseButton) (pos : QPoint)
    (clipboard : Option String) : Selection × List TermAction :=
  match button with
  | MouseButton.LeftButton =>
    ({ selecting_ := true, selStart_ := pointToCell t pos, selEnd_ := pointToCell t pos }, [])
  | MouseButton.MiddleButton => (sel, pasteFromClipboard clipboard)
  | MouseButton.other => (sel, [])

/-- `TerminalWidget::mouseMoveEvent` (TerminalWidget.cpp 320-329), with libvterm. -/
def mouseMoveEvent (t : TerminalWidget) (sel : Selection) (pos : QPoint) : Selection :=
  if sel.selecting_ then { sel with selEnd_ := pointToCell t pos } else sel

/-- `TerminalWidget::mouseReleaseEvent` (TerminalWidget.cpp 331-350), with
libvterm: the selection after the event and the writes to the clipboard;
`hasClipboard` is whether `QApplication::clipboard()` is non-null and
`supportsSelection` what `cb->supportsSelection()` returns. -/
def mouseReleaseEvent (t : TerminalWidget) (sel : Selection) (button : MouseButton)
    (hasClipboard supportsSelection : Bool) : Selection × List ClipboardWrite :=
  if button = MouseButton.LeftButton ∧ sel.selecting_ = true then
    let sel1 : Selection := { sel with selecting_ := false }
    let text := selectedText t sel1
    if text ≠ [] then
      if hasClipboard then
        (sel1, { text := text, mode := ClipboardMode.Clipboard } ::
          (if supportsSelection then [{ text := text, mode := ClipboardMode.Selection }] else []))
      else (sel1, [])
    else (sel1, [])
  else (sel, [])

end TerminalWidget

/-! ## `MainWindow::onProfileConnected` (`src/src/MainWindow.cpp`) -/

namespace MainWindow

/-- The loop `while (names.size() > 10) names.removeLast();` run for at most
`fuel` rounds. -/
def removeLastLoop : Nat → List String → List String
  | 0, names => names
  | fuel + 1, names =>
    if names.length > 10 then removeLastLoop fuel names.dropLast else names

/-- `MainWindow::onProfileConnected` (MainWindow.cpp 118-126): `stored` is what
`loadLastSessions` returns and the result the list passed to
`saveLastSessions`. Every round of the loop removes one name, so as many rounds
as there are names suffice. -/
def onProfileConnected (stored : List String) (p : Profile) : List String :=
  -- names.removeAll(p.name);
  let names := stored.filter (fun name => name ≠ p.name)
  -- names.prepend(p.name);
  let names := p.name :: names
  removeLastLoop names.length names

end MainWindow

/-! ## Vocabulary of the properties of the keys, the selection and the session list -/

/-- The event is a paste combination: Shift and Ctrl with the key V, or Shift
with the key Insert. -/
def QKeyEvent.isPaste (event : QKeyEvent) : Bool :=
  (event.modifiers.shift ∧ event.modifiers.control ∧ event.key = Key_V) ∨
    (event.modifiers.shift ∧ event.key = Key_Insert)

/-- The keys with a fixed byte sequence. -/
def namedKeys : List Int :=
  [Key_Backspace, Key_Return, Key_Enter, Key_Tab, Key_Escape, Key_Space, Key_Left, Key_Right,
    Key_Up, Key_Down, Key_Home, Key_End, Key_Delete]

/-- The order of the positions: by row, then by column. -/
def VTermPos.le (p q : VTermPos) : Prop :=
  p.row < q.row ∨ (p.row = q.row ∧ p.col ≤ q.col)

instance (p q : VTermPos) : Decidable (p.le q) := by
  unfold VTermPos.le; infer_instance

/-- The position lies on the screen of `vt`. -/
def VTermPos.inBounds (vt : VTerm) (p : VTermPos) : Prop :=
  0 ≤ p.row ∧ p.row < vt.rows ∧ 0 ≤ p.col ∧ p.col < vt.cols

instance (vt : VTerm) (p : VTermPos) : Decidable (p.inBounds vt) := by
  unfold VTermPos.inBounds; infer_instance

/-- The glyph of a cell of the screen as the words on selection describe it: the
code point of the cell, a blank cell (0) read as a space. -/
def glyph (vt : VTerm) (r c : Int) : Nat :=
  if (vt.cells.getD r.toNat []).getD c.toNat 0 = 0 then 0x20
  else (vt.cells.getD r.toNat []).getD c.toNat 0

/-- The line of row `r` as the words on selection describe it: the glyphs of the
columns `c0` to `c1`, where `c0` is `a.col` in the first row and 0 elsewhere and
`c1` is `b.col` in the last row and `cols - 1` elsewhere, with the trailing run
of spaces removed. -/
def describedLine (vt : VTerm) (a b : VTermPos) (r : Int) : List Nat :=
  let c0 : Int := if r = a.row then a.col else 0
  let c1 : Int := if r = b.row then b.col else vt.cols - 1
  let line :=
    (List.range (c1 + 1 - c0).toNat).map (fun (i : Nat) => glyph vt r (c0 + (i : Int)))
  line.take (line.length - (line.reverse.takeWhile (fun ch => ch = 0x20)).length)

/-- The text of a selection as the words on selection describe it: the lines of
the rows `a.row` to `b.row`, one per row, joined with `"\n"`. -/
def describedText (vt : VTerm) (a b : VTermPos) : List Nat :=
  List.intercalate [0x0a]
    ((List.range (b.row - a.row + 1).toNat).map
      (fun (i : Nat) => describedLine vt a b (a.row + (i : Int))))

/-- The text of the cells `renderVTerm` highlights: for every row of the screen
that holds a highlighted cell, from top to bottom, the glyphs of its highlighted
cells from left to right with the trailing run of spaces removed; the rows are
joined with `"\n"`. -/
def highlightedText (t : TerminalWidget) (sel : Selection) : List Nat :=
  match t.vterm_ with
  | none => []
  | some vt =>
    List.intercalate [0x0a]
      (((intRange 0 (vt.rows - 1)).filter
          (fun r => (intRange 0 (vt.cols - 1)).any
            (fun c => TerminalWidget.highlighted t sel r c))).map
        (fun r =>
          let line := ((intRange 0 (vt.cols - 1)).filter
            (fun c => TerminalWidget.highlighted t sel r c)).map (fun c => glyph vt r c)
          line.take (line.length - (line.reverse.takeWhile (fun ch => ch = 0x20)).length)))

/-- Whether `connected` and `disconnected` alternate in a list of signals, the
first one being `connected` if `c` is false and `disconnected` if `c` is true;
the result is `none` if they do not, else whether the last one was `connected`
(`c` if there is none). -/
def alternates (c : Bool) : List Signal → Option Bool
  | [] => some c
  | Signal.connected :: t => if c then none else alternates true t
  | Signal.disconnected :: t => if c then alternates false t else none
  | _ :: t => alternates c t

/-- The actions of the session in a trace of a tab, in order. -/
def sessionTrace : List TabAction → List Action
  | [] => []
  | TabAction.session a :: t => a :: sessionTrace t
  | _ :: t => sessionTrace t

/-- A widget with libvterm, 3 rows of 4 columns and cells of 8 by 16 pixels; the
screen shows `ab` in its first row, `c` at the start and `d` at the end of its
second row, and nothing in its third. -/
def sampleTerminal : TerminalWidget :=
  { vterm_ := some { rows := 3, cols := 4, cells := [[0x61, 0x62, 0, 0], [0x63, 0, 0, 0x64]],
                     internal := 0 },
    vtermReady_ := true, cellWidth_ := 8, cellHeight_ := 16, lastRows_ := 3, lastCols_ := 4,
    output_ := none }

/-- A profile with a key path that has spaces around it. -/
def sampleKeyProfile : Profile :=
  { name := "key box", host := "example.org", user := "alice", port := 22,
    keyPath := "  /home/alice/.ssh/id_ed25519 ", openInNewTab := false }

open SshSession

/-! ## Basic facts -/

@[simp] theorem after_fst (t : List Action) (r : SshSession × List Action) :
    (after t r).1 = r.1 := rfl

@[simp] theorem after_snd (t : List Action) (r : SshSession × List Action) :
    (after t r).2 = t ++ r.2 := rfl

@[simp] theorem signals_nil : signals [] = [] := rfl

@[simp] theorem signals_emit (e : Signal) (t : List Action) :
    signals (Action.emit e :: t) = e :: signals t := rfl

@[simp] theorem signals_call (c : LibCall) (t : List Action) :
    signals (Action.call c :: t) = signals t := rfl

@[simp] theorem calls_nil : calls [] = [] := rfl

@[simp] theorem calls_call (c : LibCall) (t : List Action) :
    calls (Action.call c :: t) = c :: calls t := rfl

@[simp] theorem calls_emit (e : Signal) (t : List Action) :
    calls (Action.emit e :: t) = calls t := rfl

@[simp] theorem signals_append (t u : List Action) :
    signals (t ++ u) = signals t ++ signals u := by
  induction t with
  | nil => rfl
  | cons x t ih => cases x <;> simp [ih]

@[simp] theorem calls_append (t u : List Action) : calls (t ++ u) = calls t ++ calls u := by
  induction t with
  | nil => rfl
  | cons x t ih => cases x <;> simp [ih]

theorem errorCount_append (t u : List Action) :
    errorCount (t ++ u) = errorCount t + errorCount u := by
  simp [errorCount]

theorem userauthCalls_nil : userauthCalls [] = [] := rfl

theorem userauthCalls_cons_emit (e : Signal) (t : List Action) :
    userauthCalls (Action.emit e :: t) = userauthCalls t := rfl

theorem userauthCalls_cons_call (c : LibCall) (t : List Action) :
    userauthCalls (Action.call c :: t) =
      if c.isUserauth then c :: userauthCalls t else userauthCalls t := by
  cases hc : c.isUserauth <;> simp [userauthCalls, List.filter_cons, hc]

theorem userauthCalls_append (t u : List Action) :
    userauthCalls (t ++ u) = userauthCalls t ++ userauthCalls u := by
  simp [userauthCalls]

theorem disconnectFromHost_eq (s : SshSession) :
    disconnectFromHost s = (init, teardown s) := by
  rcases s with ⟨_ | h, _ | c, p, _ | _⟩ <;> simp [disconnectFromHost, init, teardown]

theorem signals_teardown (s : SshSession) :
    signals (teardown s) = if s.connected_ then [Signal.disconnected] else [] := by
  rcases s with ⟨_ | h, _ | c, p, _ | _⟩ <;> simp [teardown]

theorem errorCount_teardown (s : SshSession) : errorCount (teardown s) = 0 := by
  rcases s with ⟨_ | h, _ | c, p, _ | _⟩ <;> simp [teardown, errorCount, Signal.isError]

theorem userauthCalls_teardown (s : SshSession) : userauthCalls (teardown s) = [] := by
  rcases s with ⟨_ | h, _ | c, p, _ | _⟩ <;> simp [teardown, userauthCalls, LibCall.isUserauth]

theorem failWith_eq (s : SshSession) (msg : String) :
    failWith s msg = (init, Action.emit (Signal.error msg) :: teardown s) := by
  simp [failWith, after, disconnectFromHost_eq]

theorem failWithSshError_eq (s : SshSession) (h : Handle) (msg : String) (o : ConnectOutcome) :
    failWithSshError s h msg o =
      (init, Action.call (LibCall.ssh_get_error h) ::
        Action.emit (Signal.error (msg ++ o.ssh_get_error)) :: teardown s) := by
  simp [failWithSshError, failWith_eq, after]

/-! ## The state after `connectToHost` -/

theorem afterAuth_fst (s : SshSession) (h : Handle) (rc : Int) (o : ConnectOutcome) :
    (connectToHostAfterAuth s h rc o).1 =
      if rc = SSH_AUTH_SUCCESS ∧ ChannelSucceeds o then
        { s with channel := o.ssh_channel_new, pollTimerActive := true, connected_ := true }
      else init := by
  unfold connectToHostAfterAuth ChannelSucceeds
  by_cases h1 : rc = SSH_AUTH_SUCCESS <;> rcases Option.eq_none_or_eq_some o.ssh_channel_new with hc | ⟨c, hc⟩ <;>
  by_cases h2 : o.ssh_channel_open_session = SSH_OK <;>
  by_cases h3 : o.ssh_channel_request_pty = SSH_OK <;>
  by_cases h4 : o.ssh_channel_request_shell = SSH_OK <;>
  simp [h1, h2, h3, h4, hc, failWith_eq, failWithSshError_eq]

theorem auth_fst (s : SshSession) (h : Handle) (a : ConnectArgs) (o : ConnectOutcome) :
    (connectToHostAuth s h a o).1 =
      if o.ssh_connect = SSH_OK ∧ AuthSucceeds a o ∧ ChannelSucceeds o then
        { s with channel := o.ssh_channel_new, pollTimerActive := true, connected_ := true }
      else init := by
  unfold connectToHostAuth AuthSucceeds
  by_cases h1 : o.ssh_connect = SSH_OK <;> by_cases hk : a.keyPath = "" <;>
  by_cases hp : a.password = "" <;> rcases Option.eq_none_or_eq_some o.import_key with hkey | ⟨key, hkey⟩ <;>
  by_cases h2 : o.import_rc = SSH_OK <;>
  simp [h1, hk, hp, h2, hkey, failWithSshError_eq, afterAuth_fst]

theorem connectToHost_fst (s : SshSession) (a : ConnectArgs) (o : ConnectOutcome) :
    (connectToHost s a o).1 =
      if ConnectSucceeds a o then
        { session := o.ssh_new, channel := o.ssh_channel_new, pollTimerActive := true,
          connected_ := true }
      else if o.ssh_new.isSome ∨ s.session.isSome then init
      else { s with session := none } := by
  unfold connectToHost ConnectSucceeds
  rcases Option.eq_none_or_eq_some o.ssh_new with hn | ⟨h, hn⟩ <;>
  rcases Option.eq_none_or_eq_some s.session with hs | ⟨h0, hs⟩ <;>
  simp [hn, hs, auth_fst, disconnectFromHost_eq, init]

/-! ## The signals of `connectToHost` -/

theorem afterAuth_signals (s : SshSession) (h : Handle) (rc : Int) (o : ConnectOutcome) :
    ∃ msg, signals (connectToHostAfterAuth s h rc o).2 =
      if rc = SSH_AUTH_SUCCESS ∧ ChannelSucceeds o then [Signal.connected]
      else Signal.error msg :: (if s.connected_ then [Signal.disconnected] else []) := by
  unfold connectToHostAfterAuth ChannelSucceeds
  by_cases h1 : rc = SSH_AUTH_SUCCESS <;>
  rcases Option.eq_none_or_eq_some o.ssh_channel_new with hc | ⟨c, hc⟩ <;>
  by_cases h2 : o.ssh_channel_open_session = SSH_OK <;>
  by_cases h3 : o.ssh_channel_request_pty = SSH_OK <;>
  by_cases h4 : o.ssh_channel_request_shell = SSH_OK <;>
  simp [h1, h2, h3, h4, hc, failWith_eq, failWithSshError_eq, signals_teardown]

theorem auth_signals (s : SshSession) (h : Handle) (a : ConnectArgs) (o : ConnectOutcome) :
    ∃ msg, signals (connectToHostAuth s h a o).2 =
      if o.ssh_connect = SSH_OK ∧ AuthSucceeds a o ∧ ChannelSucceeds o then [Signal.connected]
      else Signal.error msg :: (if s.connected_ then [Signal.disconnected] else []) := by
  obtain ⟨m1, e1⟩ := afterAuth_signals s h o.ssh_userauth_publickey o
  obtain ⟨m2, e2⟩ := afterAuth_signals s h o.ssh_userauth_publickey_auto o
  obtain ⟨m3, e3⟩ := afterAuth_signals s h o.ssh_userauth_password o
  unfold connectToHostAuth AuthSucceeds
  by_cases h1 : o.ssh_connect = SSH_OK <;> by_cases hk : a.keyPath = "" <;>
  by_cases hp : a.password = "" <;>
  rcases Option.eq_none_or_eq_some o.import_key with hkey | ⟨key, hkey⟩ <;>
  by_cases h2 : o.import_rc = SSH_OK <;>
  simp [h1, hk, hp, h2, hkey, failWithSshError_eq, signals_teardown, e1, e2, e3] <;>
  first | exact ⟨m1, rfl⟩ | exact ⟨m2, rfl⟩ | exact ⟨m3, rfl⟩

theorem connectToHost_signals (s : SshSession) (a : ConnectArgs) (o : ConnectOutcome) :
    ∃ msg, signals (connectToHost s a o).2 =
      (if s.session.isSome = true ∧ s.connected_ = true then [Signal.disconnected] else []) ++
      if ConnectSucceeds a o then [Signal.connected]
      else Signal.error msg ::
        (if o.ssh_new.isSome = true ∧ s.session = none ∧ s.connected_ = true then
          [Signal.disconnected] else []) := by
  unfold connectToHost ConnectSucceeds
  rcases Option.eq_none_or_eq_some o.ssh_new with hn | ⟨h, hn⟩ <;>
  rcases Option.eq_none_or_eq_some s.session with hs | ⟨h0, hs⟩
  · simp [hn, hs]
  · simp [hn, hs, disconnectFromHost_eq, signals_teardown]
  · obtain ⟨m, e⟩ := auth_signals { s with session := some h } h a o
    simp [hn, hs] at e ⊢
    exact ⟨m, e⟩
  · obtain ⟨m, e⟩ := auth_signals { init with session := some h } h a o
    simp only [init] at e
    simp [hn, hs, disconnectFromHost_eq, signals_teardown, init, e]
    exact ⟨m, rfl⟩

/-! ## The authentication calls of `connectToHost` -/

theorem afterAuth_userauthCalls (s : SshSession) (h : Handle) (rc : Int) (o : ConnectOutcome) :
    userauthCalls (connectToHostAfterAuth s h rc o).2 = [] := by
  unfold connectToHostAfterAuth
  by_cases h1 : rc = SSH_AUTH_SUCCESS <;>
  rcases Option.eq_none_or_eq_some o.ssh_channel_new with hc | ⟨c, hc⟩ <;>
  by_cases h2 : o.ssh_channel_open_session = SSH_OK <;>
  by_cases h3 : o.ssh_channel_request_pty = SSH_OK <;>
  by_cases h4 : o.ssh_channel_request_shell = SSH_OK <;>
  simp [h1, h2, h3, h4, hc, failWith_eq, failWithSshError_eq, userauthCalls_teardown,
    userauthCalls_cons_call, userauthCalls_cons_emit, userauthCalls_nil, LibCall.isUserauth]

theorem auth_userauthCalls (s : SshSession) (h : Handle) (a : ConnectArgs) (o : ConnectOutcome) :
    userauthCalls (connectToHostAuth s h a o).2 =
      if o.ssh_connect ≠ SSH_OK then []
      else if a.keyPath ≠ "" then
        (match o.import_key with
         | some key =>
           if o.import_rc = SSH_OK then [LibCall.ssh_userauth_publickey h key] else []
         | none => [])
      else if a.password = "" then [LibCall.ssh_userauth_publickey_auto h]
      else [LibCall.ssh_userauth_password h a.password] := by
  unfold connectToHostAuth
  by_cases h1 : o.ssh_connect = SSH_OK <;> by_cases hk : a.keyPath = "" <;>
  by_cases hp : a.password = "" <;>
  rcases Option.eq_none_or_eq_some o.import_key with hkey | ⟨key, hkey⟩ <;>
  by_cases h2 : o.import_rc = SSH_OK <;>
  simp [h1, hk, hp, h2, hkey, failWithSshError_eq, userauthCalls_teardown,
    userauthCalls_cons_call, userauthCalls_cons_emit, userauthCalls_nil, LibCall.isUserauth, userauthCalls_append,
    afterAuth_userauthCalls]

theorem connectToHost_userauthCalls (s : SshSession) (a : ConnectArgs) (o : ConnectOutcome) :
    userauthCalls (connectToHost s a o).2 =
      match o.ssh_new with
      | none => []
      | some h => userauthCalls (connectToHostAuth { s with session := some h } h a o).2 := by
  unfold connectToHost
  rcases Option.eq_none_or_eq_some o.ssh_new with hn | ⟨h, hn⟩ <;>
  rcases Option.eq_none_or_eq_some s.session with hs | ⟨h0, hs⟩ <;>
  simp [hn, hs, disconnectFromHost_eq, userauthCalls_append, userauthCalls_teardown,
    userauthCalls_cons_call, userauthCalls_cons_emit, userauthCalls_nil, LibCall.isUserauth, auth_userauthCalls, init]

/-! ## The handle invariant -/

theorem inv_init : Inv init := by simp [Inv, init]

theorem eq_init_of_inv (s : SshSession) (h : Inv s) (hs : s.session = none) : s = init := by
  rcases s with ⟨_ | h0, _ | c, _ | _, _ | _⟩ <;> simp_all [Inv, init]

theorem send_fst (s : SshSession) (data : QByteArray) : (send s data).1 = s := by
  unfold send; split <;> rfl

theorem setPtySize_fst (s : SshSession) (rows cols : Int) : (setPtySize s rows cols).1 = s := by
  unfold setPtySize; split <;> rfl

theorem pollTimerTimeout_fst (s : SshSession) (o : PollOutcome) :
    (pollTimerTimeout s o).1 =
      if s.channel.isSome = true ∧ (o.is_eof ≠ 0 ∨ o.is_closed ≠ 0) then init else s := by
  unfold pollTimerTimeout
  rcases Option.eq_none_or_eq_some s.channel with hc | ⟨c, hc⟩ <;>
  by_cases h1 : o.is_eof = 0 <;> by_cases h2 : o.is_closed = 0 <;>
  simp [hc, h1, h2, disconnectFromHost_eq]

theorem inv_connectToHost (s : SshSession) (a : ConnectArgs) (o : ConnectOutcome) (h : Inv s) :
    Inv (connectToHost s a o).1 := by
  rw [connectToHost_fst]
  split_ifs with h1 h2
  · simp only [ConnectSucceeds, ChannelSucceeds] at h1
    simp [Inv, h1]
  · exact inv_init
  · have hs : s.session = none := by
      rcases Option.eq_none_or_eq_some s.session with hs | ⟨h0, hs⟩
      · exact hs
      · simp [hs] at h2
    rw [eq_init_of_inv s h hs]
    exact inv_init

theorem inv_step (s : SshSession) (op : Op) (h : Inv s) : Inv (step s op).1 := by
  cases op with
  | connectToHost a o => exact inv_connectToHost s a o h
  | send data => simpa [step, send_fst] using h
  | disconnectFromHost => simpa [step, disconnectFromHost_eq] using inv_init
  | setPtySize rows cols => simpa [step, setPtySize_fst] using h
  | pollTick o =>
    simp only [step, pollTimerTimeout_fst]
    split_ifs
    · exact inv_init
    · exact h

theorem inv_runFrom (ops : List Op) : ∀ s : SshSession, Inv s → Inv (runFrom s ops).1 := by
  induction ops with
  | nil => intro s h; exact h
  | cons op ops ih => intro s h; exact ih _ (inv_step s op h)

theorem inv_run (ops : List Op) : Inv (run ops).1 := inv_runFrom ops init inv_init

theorem runFrom_append (ops ops2 : List Op) : ∀ s : SshSession,
    runFrom s (ops ++ ops2) = after (runFrom s ops).2 (runFrom (runFrom s ops).1 ops2) := by
  induction ops with
  | nil => intro s; simp [runFrom, after]
  | cons op ops ih => intro s; simp [runFrom, after, ih]

/-- Under the invariant, the state in which `connectToHost` runs `ssh_new` is the
initial one, whether or not a teardown has just run. -/
theorem connectToHost_eq_of_inv (s : SshSession) (a : ConnectArgs) (o : ConnectOutcome)
    (h : Inv s) :
    connectToHost s a o =
      after ((if s.session.isSome then teardown s else []) ++
          [Action.call (LibCall.ssh_new o.ssh_new)])
        (match o.ssh_new with
         | none => (init, [Action.emit (Signal.error "Failed to create SSH session")])
         | some h0 => connectToHostAuth { init with session := some h0 } h0 a o) := by
  unfold connectToHost
  rcases Option.eq_none_or_eq_some s.session with hs | ⟨h1, hs⟩
  · have := eq_init_of_inv s h hs
    subst this
    rcases Option.eq_none_or_eq_some o.ssh_new with hn | ⟨h0, hn⟩ <;> simp [hn, init]
  · rcases Option.eq_none_or_eq_some o.ssh_new with hn | ⟨h0, hn⟩ <;>
    simp [hn, hs, disconnectFromHost_eq, init]

/-! ## The observer -/

@[simp] theorem Monitor.run_nil (m : Monitor) : m.run [] = m := rfl

@[simp] theorem Monitor.run_cons (m : Monitor) (x : Action) (t : List Action) :
    m.run (x :: t) = (m.step x).run t := rfl

theorem Monitor.run_append (m : Monitor) (t u : List Action) :
    m.run (t ++ u) = (m.run t).run u := by
  simp [Monitor.run, List.foldl_append]

@[simp] theorem Monitor.safe_nil (m : Monitor) : m.safe [] = true := rfl

@[simp] theorem Monitor.safe_cons (m : Monitor) (x : Action) (t : List Action) :
    m.safe (x :: t) = (m.ok x && (m.step x).safe t) := rfl

theorem Monitor.safe_append (t u : List Action) : ∀ m : Monitor,
    m.safe (t ++ u) = (m.safe t && (m.run t).safe u) := by
  induction t with
  | nil => intro m; simp
  | cons x t ih => intro m; simp [ih, Bool.and_assoc]

theorem monitor_teardown (s : SshSession) :
    (monitorOf s).safe (teardown s) = true ∧ (monitorOf s).run (teardown s) = monitorOf init := by
  rcases s with ⟨_ | h, _ | c, p, _ | _⟩ <;>
  simp [teardown, monitorOf, init, Monitor.step, Monitor.ok]

theorem monitor_afterAuth (h : Handle) (rc : Int) (o : ConnectOutcome) :
    (Monitor.mk [h] [] false).safe
        (connectToHostAfterAuth (SshSession.mk (some h) none false false) h rc o).2 = true ∧
    (Monitor.mk [h] [] false).run
        (connectToHostAfterAuth (SshSession.mk (some h) none false false) h rc o).2 =
      monitorOf (connectToHostAfterAuth (SshSession.mk (some h) none false false) h rc o).1 := by
  unfold connectToHostAfterAuth
  by_cases h1 : rc = SSH_AUTH_SUCCESS <;>
  rcases Option.eq_none_or_eq_some o.ssh_channel_new with hc | ⟨c, hc⟩ <;>
  by_cases h2 : o.ssh_channel_open_session = SSH_OK <;>
  by_cases h3 : o.ssh_channel_request_pty = SSH_OK <;>
  by_cases h4 : o.ssh_channel_request_shell = SSH_OK <;>
  simp [h1, h2, h3, h4, hc, failWith_eq, failWithSshError_eq, teardown, monitorOf, init,
    Monitor.step, Monitor.ok]

theorem monitor_auth (h : Handle) (a : ConnectArgs) (o : ConnectOutcome) :
    (Monitor.mk [h] [] false).safe
        (connectToHostAuth (SshSession.mk (some h) none false false) h a o).2 = true ∧
    (Monitor.mk [h] [] false).run
        (connectToHostAuth (SshSession.mk (some h) none false false) h a o).2 =
      monitorOf (connectToHostAuth (SshSession.mk (some h) none false false) h a o).1 := by
  have e1 := monitor_afterAuth h o.ssh_userauth_publickey o
  have e2 := monitor_afterAuth h o.ssh_userauth_publickey_auto o
  have e3 := monitor_afterAuth h o.ssh_userauth_password o
  unfold connectToHostAuth
  by_cases h1 : o.ssh_connect = SSH_OK <;> by_cases hk : a.keyPath = "" <;>
  by_cases hp : a.password = "" <;>
  rcases Option.eq_none_or_eq_some o.import_key with hkey | ⟨key, hkey⟩ <;>
  by_cases h2 : o.import_rc = SSH_OK <;>
  simp [h1, hk, hp, h2, hkey, failWithSshError_eq, teardown, monitorOf, init,
    Monitor.step, Monitor.ok, e1, e2, e3]

theorem monitor_connectToHost (s : SshSession) (a : ConnectArgs) (o : ConnectOutcome)
    (h : Inv s) :
    (monitorOf s).safe (connectToHost s a o).2 = true ∧
    (monitorOf s).run (connectToHost s a o).2 = monitorOf (connectToHost s a o).1 := by
  rw [connectToHost_eq_of_inv s a o h]
  have ht := monitor_teardown s
  rcases Option.eq_none_or_eq_some s.session with hs | ⟨h1, hs⟩
  · have := eq_init_of_inv s h hs
    subst this
    rcases Option.eq_none_or_eq_some o.ssh_new with hn | ⟨h0, hn⟩
    · simp [hn, init, monitorOf, Monitor.step, Monitor.ok]
    · have e := monitor_auth h0 a o
      simp [hn, init, monitorOf, Monitor.step, Monitor.ok, e]
  · rcases Option.eq_none_or_eq_some o.ssh_new with hn | ⟨h0, hn⟩
    · simp [hn, hs, Monitor.safe_append, Monitor.run_append, ht]
      simp [init, monitorOf, Monitor.step, Monitor.ok]
    · have e := monitor_auth h0 a o
      simp [hn, hs, Monitor.safe_append, Monitor.run_append, ht]
      simp [init, monitorOf, Monitor.step, Monitor.ok, e]

theorem monitor_step (s : SshSession) (op : Op) (h : Inv s) :
    (monitorOf s).safe (step s op).2 = true ∧
    (monitorOf s).run (step s op).2 = monitorOf (step s op).1 := by
  cases op with
  | connectToHost a o => exact monitor_connectToHost s a o h
  | send data =>
    rcases s with ⟨_ | h0, _ | c, p, _ | _⟩ <;>
    simp [step, send, Monitor.step, Monitor.ok, monitorOf]
  | disconnectFromHost => simpa [step, disconnectFromHost_eq] using monitor_teardown s
  | setPtySize rows cols =>
    rcases s with ⟨_ | h0, _ | c, p, _ | _⟩ <;>
    simp [step, setPtySize, Monitor.step, Monitor.ok, monitorOf]
  | pollTick o =>
    rcases s with ⟨_ | h0, _ | c, p, _ | _⟩ <;> simp [Inv] at h <;>
    by_cases hn : o.n > 0 <;> by_cases h1 : o.is_eof = 0 <;> by_cases h2 : o.is_closed = 0 <;>
    simp [step, pollTimerTimeout, h1, h2, hn, disconnectFromHost_eq, teardown, init,
      Monitor.step, Monitor.ok, monitorOf]

theorem monitor_runFrom (ops : List Op) : ∀ s : SshSession, Inv s →
    (monitorOf s).safe (runFrom s ops).2 = true ∧
    (monitorOf s).run (runFrom s ops).2 = monitorOf (runFrom s ops).1 := by
  induction ops with
  | nil => intro s _; simp [runFrom]
  | cons op ops ih =>
    intro s h
    have h1 := monitor_step s op h
    have h2 := ih _ (inv_step s op h)
    simp [runFrom, Monitor.safe_append, Monitor.run_append, h1, h2]

theorem monitor_run (ops : List Op) :
    Monitor.init.safe (run ops).2 = true ∧
    Monitor.init.run (run ops).2 = monitorOf (run ops).1 :=
  monitor_runFrom ops init inv_init

/-! ## The last action of a successful `connectToHost` -/

theorem afterAuth_getLast (s : SshSession) (h : Handle) (rc : Int) (o : ConnectOutcome)
    (h1 : rc = SSH_AUTH_SUCCESS) (h2 : ChannelSucceeds o) :
    (connectToHostAfterAuth s h rc o).2.getLast? = some (Action.emit Signal.connected) := by
  obtain ⟨hc, h3, h4, h5⟩ := h2
  obtain ⟨c, hc⟩ := Option.isSome_iff_exists.mp hc
  simp [connectToHostAfterAuth, h1, hc, h3, h4, h5]

theorem auth_getLast (s : SshSession) (h : Handle) (a : ConnectArgs) (o : ConnectOutcome)
    (h1 : o.ssh_connect = SSH_OK) (h2 : AuthSucceeds a o) (h3 : ChannelSucceeds o) :
    (connectToHostAuth s h a o).2.getLast? = some (Action.emit Signal.connected) := by
  unfold AuthSucceeds at h2
  unfold connectToHostAuth
  by_cases hk : a.keyPath = ""
  · by_cases hp : a.password = ""
    · simp [hk, hp] at h2
      simp [h1, hk, hp, List.getLast?_cons, afterAuth_getLast s h _ o h2 h3]
    · simp [hk, hp] at h2
      simp [h1, hk, hp, List.getLast?_cons, afterAuth_getLast s h _ o h2 h3]
  · simp [hk] at h2
    obtain ⟨h4, h5, h6⟩ := h2
    obtain ⟨key, hkey⟩ := Option.isSome_iff_exists.mp h5
    simp [h1, hk, hkey, h4, List.getLast?_cons, afterAuth_getLast s h _ o h6 h3]

theorem connectToHost_getLast (s : SshSession) (a : ConnectArgs) (o : ConnectOutcome)
    (h : ConnectSucceeds a o) :
    (connectToHost s a o).2.getLast? = some (Action.emit Signal.connected) := by
  obtain ⟨hn, h1, h2, h3⟩ := h
  obtain ⟨h0, hn⟩ := Option.isSome_iff_exists.mp hn
  simp [connectToHost, hn, List.getLast?_cons, auth_getLast _ h0 a o h1 h2 h3]

/-! ## Facts about traces -/

theorem mem_userauthCalls (c : LibCall) (hc : c.isUserauth = true) : ∀ t : List Action,
    Action.call c ∈ t → c ∈ userauthCalls t := by
  intro t
  induction t with
  | nil => simp
  | cons x t ih =>
    intro hx
    rcases List.mem_cons.mp hx with hx1 | hx2
    · subst hx1
      simp [userauthCalls_cons_call, hc]
    · have hi := ih hx2
      cases x with
      | call c2 =>
        rw [userauthCalls_cons_call]
        split_ifs
        · exact List.mem_cons_of_mem _ hi
        · exact hi
      | emit e => simpa [userauthCalls_cons_emit] using hi

theorem monitor_take (t : List Action) : ∀ (m : Monitor) (n : Nat), m.safe t = true →
    m.sessions.length ≤ 1 → m.channels.length ≤ 1 →
    (m.run (t.take n)).sessions.length ≤ 1 ∧ (m.run (t.take n)).channels.length ≤ 1 := by
  induction t with
  | nil => intro m n _ h1 h2; simpa using ⟨h1, h2⟩
  | cons x t ih =>
    intro m n hs h1 h2
    cases n with
    | zero => simpa using ⟨h1, h2⟩
    | succ k =>
      simp only [Monitor.safe_cons, Bool.and_eq_true, Monitor.ok, decide_eq_true_eq] at hs
      simpa using ih (m.step x) k hs.2 hs.1.1.1 hs.1.1.2

theorem monitor_output (pre post : List Action) (d : QByteArray) (m : Monitor)
    (h : m.safe (pre ++ Action.emit (Signal.output d) :: post) = true) :
    (m.run pre).connected = true := by
  rw [Monitor.safe_append] at h
  simp only [Monitor.safe_cons, Bool.and_eq_true, Monitor.ok] at h
  exact h.2.1.2

theorem monitor_connected_split (m : Monitor) (hm : m.connected = false) (pre : List Action) :
    (m.run pre).connected = true →
    ∃ p q, pre = p ++ Action.emit Signal.connected :: q ∧
      Action.emit Signal.disconnected ∉ q ∧ ∀ r, Action.call (LibCall.ssh_new r) ∉ q := by
  induction pre using List.reverseRecOn with
  | nil => intro h; simp [hm] at h
  | append_singleton l x ih =>
    intro h
    rw [Monitor.run_append] at h
    simp only [Monitor.run_cons, Monitor.run_nil] at h
    by_cases hx1 : x = Action.emit Signal.connected
    · exact ⟨l, [], by simp [hx1], by simp, by simp⟩
    · have hkeep : (m.run l).connected = true ∧ x ≠ Action.emit Signal.disconnected ∧
          ∀ r, x ≠ Action.call (LibCall.ssh_new r) := by
        rcases x with c | e
        · cases c with
          | ssh_new r => cases r <;> simp [Monitor.step, hx1] at h
          | ssh_channel_new s0 r => cases r <;> simpa [Monitor.step] using h
          | _ => simpa [Monitor.step] using h
        · cases e <;> simp_all [Monitor.step]
      obtain ⟨p, q, hpq, hd, hn⟩ := ih hkeep.1
      refine ⟨p, q ++ [x], by simp [hpq], ?_, ?_⟩
      · simp [hd, Ne.symm hkeep.2.1]
      · intro r
        simp [hn r, Ne.symm (hkeep.2.2 r)]

/-! ## Claims about `SshSession` -/

/-- C1: in every state the object can reach and for every outcome of the libssh
calls, `connectToHost` emits `connected` if and only if session creation,
`ssh_connect`, authentication and the four channel steps all succeed; exactly
then the object ends connected with the poll timer started (holding the new
session and channel); and when `connected` is emitted it is emitted once and is
the last action of the call. -/
theorem connectToHost_connected_iff (ops : List Op) (a : ConnectArgs) (o : ConnectOutcome) :
    (Signal.connected ∈ signals ((run ops).1.connectToHost a o).2 ↔ ConnectSucceeds a o) ∧
    ((((run ops).1.connectToHost a o).1.connected_ = true ∧
        ((run ops).1.connectToHost a o).1.pollTimerActive = true) ↔ ConnectSucceeds a o) ∧
    (ConnectSucceeds a o →
      ((run ops).1.connectToHost a o).1 =
          { session := o.ssh_new, channel := o.ssh_channel_new, pollTimerActive := true,
            connected_ := true } ∧
        (signals ((run ops).1.connectToHost a o).2).count Signal.connected = 1 ∧
        ((run ops).1.connectToHost a o).2.getLast? = some (Action.emit Signal.connected)) := by
  have hinv := inv_run ops
  obtain ⟨msg, hsig⟩ := connectToHost_signals (run ops).1 a o
  have hfst := connectToHost_fst (run ops).1 a o
  refine ⟨?_, ?_, ?_⟩
  · rw [hsig]
    by_cases hs : ConnectSucceeds a o <;> simp [hs]
  · rw [hfst]
    by_cases hs : ConnectSucceeds a o
    · simp [hs]
    · simp only [hs, if_false, iff_false]
      split_ifs with h2
      · simp [init]
      · have hnone : (run ops).1.session = none := by
          rcases Option.eq_none_or_eq_some (run ops).1.session with h3 | ⟨h0, h3⟩
          · exact h3
          · simp [h3] at h2
        rw [eq_init_of_inv _ hinv hnone]
        simp [init]
  · intro hs
    refine ⟨by rw [hfst]; simp [hs], ?_, connectToHost_getLast _ a o hs⟩
    rw [hsig]
    simp [hs]
    split_ifs <;> simp

/-- C2: in every state the object can reach, a `connectToHost` call in which some
step fails (session creation, connect, key load, authentication, channel
creation, channel open, PTY request or shell request) emits exactly one `error`
and no `connected`, and on return the session and channel pointers are null, the
object is not connected, the timer is stopped, and every session and channel
handle ever allocated has been freed. -/
theorem connectToHost_failure (ops : List Op) (a : ConnectArgs) (o : ConnectOutcome)
    (hfail : ¬ ConnectSucceeds a o) :
    errorCount ((run ops).1.connectToHost a o).2 = 1 ∧
    Signal.connected ∉ signals ((run ops).1.connectToHost a o).2 ∧
    ((run ops).1.connectToHost a o).1.session = none ∧
    ((run ops).1.connectToHost a o).1.channel = none ∧
    ((run ops).1.connectToHost a o).1.connected_ = false ∧
    ((run ops).1.connectToHost a o).1.pollTimerActive = false ∧
    (Monitor.init.run ((run ops).2 ++ ((run ops).1.connectToHost a o).2)).sessions = [] ∧
    (Monitor.init.run ((run ops).2 ++ ((run ops).1.connectToHost a o).2)).channels = [] := by
  have hinv := inv_run ops
  obtain ⟨msg, hsig⟩ := connectToHost_signals (run ops).1 a o
  have hfst : ((run ops).1.connectToHost a o).1 = init := by
    rw [connectToHost_fst]
    simp only [hfail, if_false]
    split_ifs with h2
    · rfl
    · have hnone : (run ops).1.session = none := by
        rcases Option.eq_none_or_eq_some (run ops).1.session with h3 | ⟨h0, h3⟩
        · exact h3
        · simp [h3] at h2
      rw [eq_init_of_inv _ hinv hnone]
      rfl
  have hmon : Monitor.init.run ((run ops).2 ++ ((run ops).1.connectToHost a o).2) =
      monitorOf init := by
    rw [Monitor.run_append, (monitor_run ops).2, (monitor_connectToHost _ a o hinv).2, hfst]
  refine ⟨?_, ?_, by rw [hfst]; rfl, by rw [hfst]; rfl, by rw [hfst]; rfl, by rw [hfst]; rfl,
    by rw [hmon]; rfl, by rw [hmon]; rfl⟩
  · simp only [errorCount, hsig, hfail, if_false]
    split_ifs <;> simp [Signal.isError]
  · rw [hsig]
    simp only [hfail, if_false]
    split_ifs <;> simp

/-- C3: a `connectToHost` call that reaches the authentication call (session
creation and `ssh_connect` succeed and, with a key path, the key file loads)
makes exactly one `ssh_userauth_*` call: with a non-empty key path
`ssh_userauth_publickey` with the loaded key; else, with an empty password,
`ssh_userauth_publickey_auto`; else `ssh_userauth_password` with the password.
And for every state and outcome, with a non-empty key path every authentication
call of the invocation is `ssh_userauth_publickey`, whatever the password. -/
theorem connectToHost_auth_method (s : SshSession) (a : ConnectArgs) (o : ConnectOutcome) :
    (∀ h, o.ssh_new = some h → o.ssh_connect = SSH_OK →
      (a.keyPath ≠ "" → o.import_rc = SSH_OK ∧ o.import_key.isSome = true) →
      (userauthCalls (s.connectToHost a o).2).length = 1 ∧
      (a.keyPath ≠ "" → ∃ key, o.import_key = some key ∧
        userauthCalls (s.connectToHost a o).2 = [LibCall.ssh_userauth_publickey h key]) ∧
      (a.keyPath = "" → a.password = "" →
        userauthCalls (s.connectToHost a o).2 = [LibCall.ssh_userauth_publickey_auto h]) ∧
      (a.keyPath = "" → a.password ≠ "" →
        userauthCalls (s.connectToHost a o).2 =
          [LibCall.ssh_userauth_password h a.password])) ∧
    (a.keyPath ≠ "" → ∀ c ∈ userauthCalls (s.connectToHost a o).2,
      ∃ h key, c = LibCall.ssh_userauth_publickey h key) := by
  rw [connectToHost_userauthCalls]
  constructor
  · intro h hn hc hkey
    simp only [hn, auth_userauthCalls]
    by_cases hk : a.keyPath = ""
    · by_cases hp : a.password = "" <;> simp [hc, hk, hp]
    · obtain ⟨h1, h2⟩ := hkey hk
      obtain ⟨key, h2⟩ := Option.isSome_iff_exists.mp h2
      simp [hc, hk, h1, h2]
  · intro hk c hmem
    rcases Option.eq_none_or_eq_some o.ssh_new with hn | ⟨h, hn⟩
    · simp [hn] at hmem
    · simp only [hn, auth_userauthCalls] at hmem
      rcases Option.eq_none_or_eq_some o.import_key with hkey | ⟨key, hkey⟩
      · simp [hk, hkey] at hmem
      · refine ⟨h, key, ?_⟩
        by_cases h1 : o.ssh_connect = SSH_OK <;> by_cases h2 : o.import_rc = SSH_OK <;>
        simp [hk, hkey, h1, h2] at hmem
        exact hmem

/-- C4: in every state the object can reach, a `connectToHost` call with a
non-empty key path whose key file cannot be loaded (`ssh_pki_import_privkey_file`
does not return `SSH_OK`, or yields no key) emits exactly one `error` and no
`connected`, makes no `ssh_userauth_password` call (indeed no authentication
call at all) whatever the password, and returns with the object torn down
(`init`: no session, no channel, timer stopped, not connected). When the call
gets as far as loading the key, the error is the "Failed to load key" one. -/
theorem connectToHost_key_load_failure (ops : List Op) (a : ConnectArgs) (o : ConnectOutcome)
    (hk : a.keyPath ≠ "") (hload : o.import_rc ≠ SSH_OK ∨ o.import_key = none) :
    errorCount ((run ops).1.connectToHost a o).2 = 1 ∧
    Signal.connected ∉ signals ((run ops).1.connectToHost a o).2 ∧
    (∀ h pw, Action.call (LibCall.ssh_userauth_password h pw) ∉
      ((run ops).1.connectToHost a o).2) ∧
    userauthCalls ((run ops).1.connectToHost a o).2 = [] ∧
    ((run ops).1.connectToHost a o).1 = init ∧
    (o.ssh_new.isSome = true → o.ssh_connect = SSH_OK →
      Signal.error ("Failed to load key: " ++ o.ssh_get_error) ∈
        signals ((run ops).1.connectToHost a o).2) := by
  have hinv := inv_run ops
  have hfail : ¬ ConnectSucceeds a o := by
    intro hs
    have h2 := hs.2.2.1
    simp only [AuthSucceeds, hk, ne_eq, not_false_eq_true, if_true] at h2
    rcases hload with h | h
    · exact h h2.1
    · simp [h] at h2
  obtain ⟨msg, hsig⟩ := connectToHost_signals (run ops).1 a o
  have hua : userauthCalls ((run ops).1.connectToHost a o).2 = [] := by
    rw [connectToHost_userauthCalls]
    rcases Option.eq_none_or_eq_some o.ssh_new with hn | ⟨h, hn⟩
    · simp [hn]
    · simp only [hn, auth_userauthCalls]
      rcases hload with h1 | h1
      · rcases Option.eq_none_or_eq_some o.import_key with hkey | ⟨key, hkey⟩ <;>
        simp [hk, h1, hkey]
      · simp [hk, h1]
  refine ⟨?_, ?_, ?_, hua, ?_, ?_⟩
  · simp only [errorCount, hsig, hfail, if_false]
    split_ifs <;> simp [Signal.isError]
  · rw [hsig]
    simp only [hfail, if_false]
    split_ifs <;> simp
  · intro h pw hmem
    have := mem_userauthCalls _ (by rfl) _ hmem
    rw [hua] at this
    simp at this
  · rw [connectToHost_fst]
    simp only [hfail, if_false]
    split_ifs with h2
    · rfl
    · have hnone : (run ops).1.session = none := by
        rcases Option.eq_none_or_eq_some (run ops).1.session with h3 | ⟨h0, h3⟩
        · exact h3
        · simp [h3] at h2
      rw [eq_init_of_inv _ hinv hnone]
      rfl
  · intro hn hc
    obtain ⟨h, hn⟩ := Option.isSome_iff_exists.mp hn
    rw [connectToHost_eq_of_inv _ a o hinv]
    rcases hload with h1 | h1
    · rcases Option.eq_none_or_eq_some o.import_key with hkey | ⟨key, hkey⟩ <;>
      simp [hn, connectToHostAuth, hc, hk, h1, hkey, failWithSshError_eq]
    · simp [hn, connectToHostAuth, hc, hk, h1, failWithSshError_eq]

/-- C5: `disconnectFromHost` is idempotent in every state: a second call right
after a first one changes no state and does nothing visible (no signal, no
libssh call, so no handle is closed or freed), hence two calls in a row leave
the same state and trace as one; and two calls in a row emit `disconnected`
exactly once when the object was connected (and not at all otherwise). -/
theorem disconnectFromHost_idempotent (s : SshSession) :
    disconnectFromHost (disconnectFromHost s).1 = ((disconnectFromHost s).1, []) ∧
    runFrom s [Op.disconnectFromHost, Op.disconnectFromHost] =
      runFrom s [Op.disconnectFromHost] ∧
    (signals (runFrom s [Op.disconnectFromHost, Op.disconnectFromHost]).2).count
        Signal.disconnected = (if s.connected_ then 1 else 0) := by
  have h0 : teardown init = [] := by simp [teardown, init]
  simp only [runFrom, step, disconnectFromHost_eq, after, h0, List.append_nil,
    signals_teardown]
  refine ⟨trivial, trivial, ?_⟩
  split_ifs <;> simp

/-- C6: in every state the object can reach and for every byte sequence, `send`
on an object that is not connected emits exactly the one error "No active SSH
channel", makes no libssh call (nothing is written) and leaves the state
unchanged; on a connected object it makes exactly one `ssh_channel_write` call,
on the held channel with exactly the given bytes and their length, emits no
signal and leaves the state unchanged. -/
theorem send_spec (ops : List Op) (data : QByteArray) :
    ((run ops).1.connected_ = false →
      (run ops).1.send data =
        ((run ops).1, [Action.emit (Signal.error "No active SSH channel")])) ∧
    ((run ops).1.connected_ = true →
      ∃ c, (run ops).1.channel = some c ∧
        (run ops).1.send data =
          ((run ops).1, [Action.call (LibCall.ssh_channel_write c data data.length)])) := by
  have hinv := inv_run ops
  rcases Option.eq_none_or_eq_some (run ops).1.channel with hc | ⟨c, hc⟩
  · have hconn : (run ops).1.connected_ = false := by simp [hinv.1, hc]
    simp [hconn, send, hc]
  · have hconn : (run ops).1.connected_ = true := by simp [hinv.1, hc]
    simp [hconn, send, hc]

/-- C7: when a session handle is held as `connectToHost` is called, the call
first closes and frees the old channel (if any), disconnects and frees the old
session, and emits `disconnected` if the object was connected, and only then
calls `ssh_new`; and after every initial segment of the trace of every sequence
of operations on a fresh object, at most one session handle and at most one
channel handle is allocated and not yet freed. -/
theorem connectToHost_single_live_session (s : SshSession) (a : ConnectArgs)
    (o : ConnectOutcome) (ops : List Op) (n : Nat) :
    (∀ h, s.session = some h → ∃ rest,
      (s.connectToHost a o).2 =
        (match s.channel with
          | some c =>
            [Action.call (LibCall.ssh_channel_close c), Action.call (LibCall.ssh_channel_free c)]
          | none => []) ++
        [Action.call (LibCall.ssh_disconnect h), Action.call (LibCall.ssh_free h)] ++
        (if s.connected_ then [Action.emit Signal.disconnected] else []) ++
        Action.call (LibCall.ssh_new o.ssh_new) :: rest) ∧
    (Monitor.init.run ((run ops).2.take n)).sessions.length ≤ 1 ∧
    (Monitor.init.run ((run ops).2.take n)).channels.length ≤ 1 := by
  constructor
  · intro h hs
    obtain ⟨r, hr⟩ : ∃ r, s.connectToHost a o =
        after ((if s.session.isSome then s.disconnectFromHost else (s, [])).2 ++
          [Action.call (LibCall.ssh_new o.ssh_new)]) r := ⟨_, rfl⟩
    refine ⟨r.2, ?_⟩
    rw [hr]
    simp [hs, disconnectFromHost_eq, teardown]
  · exact monitor_take _ Monitor.init n (monitor_run ops).1 (by simp [Monitor.init])
      (by simp [Monitor.init])

/-- C8: for all `rows` and `cols` and every state, `setPtySize` without a channel
does nothing (no signal, no libssh call, state unchanged); with a channel it
makes exactly one `ssh_channel_change_pty_size` call on that channel, with
`cols` as the width and `rows` as the height, emits no signal and leaves the
state unchanged. -/
theorem setPtySize_spec (s : SshSession) (rows cols : Int) :
    (s.channel = none → s.setPtySize rows cols = (s, [])) ∧
    (∀ c, s.channel = some c →
      s.setPtySize rows cols =
        (s, [Action.call (LibCall.ssh_channel_change_pty_size c cols rows)])) ∧
    signals (s.setPtySize rows cols).2 = [] ∧
    (s.setPtySize rows cols).1 = s := by
  rcases Option.eq_none_or_eq_some s.channel with hc | ⟨c, hc⟩ <;> simp [setPtySize, hc]

/-- C9: a poll tick without a channel does nothing and changes nothing. A tick
with a channel emits, when the read returned `n > 0`, exactly one `output` with
the first `n` bytes of the buffer (and no `output` otherwise), then, when the
channel is at EOF or closed, runs `disconnectFromHost` as the last thing of the
tick (and leaves the state unchanged otherwise). In every state the object can
reach the signals of such a tick are therefore the `output` (if any) followed by
`disconnected` (if EOF or closed). -/
theorem pollTimerTimeout_spec (s : SshSession) (o : PollOutcome) (ops : List Op) :
    (s.channel = none → s.pollTimerTimeout o = (s, [])) ∧
    (s.channel.isSome = true →
      signals (s.pollTimerTimeout o).2 =
          (if o.n > 0 then [Signal.output (o.buffer.take o.n.toNat)] else []) ++
          (if o.is_eof ≠ 0 ∨ o.is_closed ≠ 0 then signals s.disconnectFromHost.2 else []) ∧
      (s.pollTimerTimeout o).1 =
          (if o.is_eof ≠ 0 ∨ o.is_closed ≠ 0 then s.disconnectFromHost.1 else s) ∧
      (o.is_eof ≠ 0 ∨ o.is_closed ≠ 0 →
        ∃ before, (s.pollTimerTimeout o).2 = before ++ s.disconnectFromHost.2)) ∧
    (0 < o.n → o.n ≤ o.buffer.length → ((o.buffer.take o.n.toNat).length : Int) = o.n) ∧
    ((run ops).1.channel.isSome = true →
      signals ((run ops).1.pollTimerTimeout o).2 =
        (if o.n > 0 then [Signal.output (o.buffer.take o.n.toNat)] else []) ++
        (if o.is_eof ≠ 0 ∨ o.is_closed ≠ 0 then [Signal.disconnected] else [])) := by
  have key : ∀ s : SshSession, s.channel.isSome = true →
      signals (s.pollTimerTimeout o).2 =
          (if o.n > 0 then [Signal.output (o.buffer.take o.n.toNat)] else []) ++
          (if o.is_eof ≠ 0 ∨ o.is_closed ≠ 0 then signals s.disconnectFromHost.2 else []) := by
    intro s hs
    obtain ⟨c, hc⟩ := Option.isSome_iff_exists.mp hs
    by_cases hn : o.n > 0 <;> by_cases h1 : o.is_eof = 0 <;> by_cases h2 : o.is_closed = 0 <;>
    simp [pollTimerTimeout, hc, hn, h1, h2]
  refine ⟨?_, ?_, ?_, ?_⟩
  · intro hc
    simp [pollTimerTimeout, hc]
  · intro hs
    refine ⟨key s hs, ?_, ?_⟩
    · rw [pollTimerTimeout_fst]
      simp [hs, disconnectFromHost_eq]
    · intro h
      obtain ⟨c, hc⟩ := Option.isSome_iff_exists.mp hs
      by_cases h1 : o.is_eof = 0
      · have h2 : o.is_closed ≠ 0 := by
          rcases h with h | h
          · exact absurd h1 h
          · exact h
        exact ⟨Action.call (LibCall.ssh_channel_read_nonblocking c 4096) ::
          ((if o.n > 0 then [Action.emit (Signal.output (o.buffer.take o.n.toNat))] else []) ++
            [Action.call (LibCall.ssh_channel_is_eof c),
             Action.call (LibCall.ssh_channel_is_closed c)]),
          by simp [pollTimerTimeout, hc, h1, h2]⟩
      · exact ⟨Action.call (LibCall.ssh_channel_read_nonblocking c 4096) ::
          ((if o.n > 0 then [Action.emit (Signal.output (o.buffer.take o.n.toNat))] else []) ++
            [Action.call (LibCall.ssh_channel_is_eof c)]),
          by simp [pollTimerTimeout, hc, h1]⟩
  · intro h1 h2
    rw [List.length_take]
    omega
  · intro hs
    have hinv := inv_run ops
    have hconn : (run ops).1.connected_ = true := by rw [hinv.1, hs]
    rw [key _ hs, disconnectFromHost_eq]
    simp [signals_teardown, hconn]

/-- C10: in the trace of every sequence of operations on a fresh object, every
`output` signal is emitted while connected: before it the trace holds a
`connected` signal with, between the two, no `disconnected` signal and no
`ssh_new` call (no later connection attempt). -/
theorem output_only_while_connected (ops : List Op) (before later : List Action)
    (d : QByteArray) (h : (run ops).2 = before ++ Action.emit (Signal.output d) :: later) :
    (Monitor.init.run before).connected = true ∧
    ∃ p q, before = p ++ Action.emit Signal.connected :: q ∧
      Action.emit Signal.disconnected ∉ q ∧ ∀ r, Action.call (LibCall.ssh_new r) ∉ q := by
  have hsafe := (monitor_run ops).1
  rw [h] at hsafe
  have hconn := monitor_output before later d Monitor.init hsafe
  exact ⟨hconn, monitor_connected_split Monitor.init rfl before hconn⟩

/-- C1 at a sample input: on a fresh object, a password connect whose every step
succeeds ends connected, holding session 1 and channel 2, with `connected` as
the last action. -/
theorem connectToHost_connected_iff_witness :
    ConnectSucceeds sampleArgs sampleOutcome ∧
    ((run []).1.connectToHost sampleArgs sampleOutcome).1 =
      { session := sampleOutcome.ssh_new, channel := sampleOutcome.ssh_channel_new,
        pollTimerActive := true, connected_ := true } ∧
    (signals ((run []).1.connectToHost sampleArgs sampleOutcome).2).count Signal.connected = 1 ∧
    ((run []).1.connectToHost sampleArgs sampleOutcome).2.getLast? =
      some (Action.emit Signal.connected) :=
  ⟨by decide, (connectToHost_connected_iff [] sampleArgs sampleOutcome).2.2 (by decide)⟩

/-- C2 at a sample input: on a connected object, a reconnect whose PTY request
fails. -/
theorem connectToHost_failure_witness :
    ¬ ConnectSucceeds sampleArgs samplePtyFailure ∧
    errorCount ((run sampleConnected).1.connectToHost sampleArgs samplePtyFailure).2 = 1 ∧
    Signal.connected ∉
      signals ((run sampleConnected).1.connectToHost sampleArgs samplePtyFailure).2 ∧
    ((run sampleConnected).1.connectToHost sampleArgs samplePtyFailure).1.session = none ∧
    ((run sampleConnected).1.connectToHost sampleArgs samplePtyFailure).1.channel = none ∧
    ((run sampleConnected).1.connectToHost sampleArgs samplePtyFailure).1.connected_ = false ∧
    ((run sampleConnected).1.connectToHost sampleArgs samplePtyFailure).1.pollTimerActive
      = false ∧
    (Monitor.init.run ((run sampleConnected).2 ++
      ((run sampleConnected).1.connectToHost sampleArgs samplePtyFailure).2)).sessions = [] ∧
    (Monitor.init.run ((run sampleConnected).2 ++
      ((run sampleConnected).1.connectToHost sampleArgs samplePtyFailure).2)).channels = [] :=
  ⟨by decide, connectToHost_failure sampleConnected sampleArgs samplePtyFailure (by decide)⟩

/-- C3 at a sample input: with a key path and a password both given and the key
loading, the one authentication call is `ssh_userauth_publickey` with the
loaded key. -/
theorem connectToHost_auth_method_witness :
    sampleKeyArgs.keyPath ≠ "" ∧ sampleKeyArgs.password ≠ "" ∧
    (userauthCalls (init.connectToHost sampleKeyArgs sampleOutcome).2).length = 1 ∧
    ∃ key, sampleOutcome.import_key = some key ∧
      userauthCalls (init.connectToHost sampleKeyArgs sampleOutcome).2 =
        [LibCall.ssh_userauth_publickey 1 key] :=
  ⟨by decide, by decide,
    ((connectToHost_auth_method init sampleKeyArgs sampleOutcome).1 1 rfl rfl
      (fun _ => ⟨rfl, rfl⟩)).1,
    ((connectToHost_auth_method init sampleKeyArgs sampleOutcome).1 1 rfl rfl
      (fun _ => ⟨rfl, rfl⟩)).2.1 (by decide)⟩

/-- C4 at a sample input: a key path whose file does not load, with a password
also given, on a fresh object. -/
theorem connectToHost_key_load_failure_witness :
    sampleKeyArgs.keyPath ≠ "" ∧ sampleKeyArgs.password ≠ "" ∧
    (sampleKeyMissing.import_rc ≠ SSH_OK ∨ sampleKeyMissing.import_key = none) ∧
    errorCount ((run []).1.connectToHost sampleKeyArgs sampleKeyMissing).2 = 1 ∧
    Signal.connected ∉ signals ((run []).1.connectToHost sampleKeyArgs sampleKeyMissing).2 ∧
    (∀ h pw, Action.call (LibCall.ssh_userauth_password h pw) ∉
      ((run []).1.connectToHost sampleKeyArgs sampleKeyMissing).2) ∧
    userauthCalls ((run []).1.connectToHost sampleKeyArgs sampleKeyMissing).2 = [] ∧
    ((run []).1.connectToHost sampleKeyArgs sampleKeyMissing).1 = init ∧
    (sampleKeyMissing.ssh_new.isSome = true → sampleKeyMissing.ssh_connect = SSH_OK →
      Signal.error ("Failed to load key: " ++ sampleKeyMissing.ssh_get_error) ∈
        signals ((run []).1.connectToHost sampleKeyArgs sampleKeyMissing).2) :=
  ⟨by decide, by decide, by decide,
    connectToHost_key_load_failure [] sampleKeyArgs sampleKeyMissing (by decide) (by decide)⟩

/-- C6 at a sample input: `send` on a connected object writes the given bytes to
the held channel. -/
theorem send_spec_witness :
    (run sampleConnected).1.connected_ = true ∧
    ∃ c, (run sampleConnected).1.channel = some c ∧
      (run sampleConnected).1.send [108, 115, 10] =
        ((run sampleConnected).1, [Action.call (LibCall.ssh_channel_write c [108, 115, 10] 3)]) :=
  ⟨by decide, (send_spec sampleConnected [108, 115, 10]).2 (by decide)⟩

/-- C7 at a sample input: a reconnect on a connected object tears the old
connection down before `ssh_new`. -/
theorem connectToHost_single_live_session_witness :
    (run sampleConnected).1.session = some 1 ∧
    ∃ rest, ((run sampleConnected).1.connectToHost sampleArgs sampleOutcome).2 =
      (match (run sampleConnected).1.channel with
        | some c =>
          [Action.call (LibCall.ssh_channel_close c), Action.call (LibCall.ssh_channel_free c)]
        | none => []) ++
      [Action.call (LibCall.ssh_disconnect 1), Action.call (LibCall.ssh_free 1)] ++
      (if (run sampleConnected).1.connected_ then [Action.emit Signal.disconnected] else []) ++
      Action.call (LibCall.ssh_new sampleOutcome.ssh_new) :: rest :=
  ⟨by decide,
    (connectToHost_single_live_session (run sampleConnected).1 sampleArgs sampleOutcome [] 0).1 1
      (by decide)⟩

/-- C8 at a sample input: with channel 2 held, `setPtySize 24 100` forwards width
100 and height 24. -/
theorem setPtySize_spec_witness :
    (run sampleConnected).1.channel = some 2 ∧
    (run sampleConnected).1.setPtySize 24 100 =
      ((run sampleConnected).1,
        [Action.call (LibCall.ssh_channel_change_pty_size 2 100 24)]) :=
  ⟨by decide, (setPtySize_spec (run sampleConnected).1 24 100).2.1 2 (by decide)⟩

/-- C9 at a sample input: a tick on a connected object that reads two bytes and
finds the channel at EOF emits the output and then `disconnected`. -/
theorem pollTimerTimeout_spec_witness :
    (run sampleConnected).1.channel.isSome = true ∧
    signals ((run sampleConnected).1.pollTimerTimeout samplePoll).2 =
      (if samplePoll.n > 0 then [Signal.output (samplePoll.buffer.take samplePoll.n.toNat)]
        else []) ++
      (if samplePoll.is_eof ≠ 0 ∨ samplePoll.is_closed ≠ 0 then [Signal.disconnected] else []) :=
  ⟨by decide,
    (pollTimerTimeout_spec (run sampleConnected).1 samplePoll sampleConnected).2.2.2 (by decide)⟩

/-- C10 at a sample input: a connect followed by a tick that reads two bytes. -/
theorem output_only_while_connected_witness :
    (run (sampleConnected ++ [Op.pollTick samplePoll])).2 =
      (run sampleConnected).2 ++ [Action.call (LibCall.ssh_channel_read_nonblocking 2 4096)] ++
        Action.emit (Signal.output [104, 105]) ::
          [Action.call (LibCall.ssh_channel_is_eof 2),
           Action.call (LibCall.ssh_channel_close 2), Action.call (LibCall.ssh_channel_free 2),
           Action.call (LibCall.ssh_disconnect 1), Action.call (LibCall.ssh_free 1),
           Action.emit Signal.disconnected] ∧
    (Monitor.init.run
      ((run sampleConnected).2 ++
        [Action.call (LibCall.ssh_channel_read_nonblocking 2 4096)])).connected = true ∧
    ∃ p q, (run sampleConnected).2 ++
        [Action.call (LibCall.ssh_channel_read_nonblocking 2 4096)] =
          p ++ Action.emit Signal.connected :: q ∧
      Action.emit Signal.disconnected ∉ q ∧ ∀ r, Action.call (LibCall.ssh_new r) ∉ q :=
  ⟨by decide,
    output_only_while_connected (sampleConnected ++ [Op.pollTick samplePoll])
      ((run sampleConnected).2 ++ [Action.call (LibCall.ssh_channel_read_nonblocking 2 4096)])
      [Action.call (LibCall.ssh_channel_is_eof 2),
       Action.call (LibCall.ssh_channel_close 2), Action.call (LibCall.ssh_channel_free 2),
       Action.call (LibCall.ssh_disconnect 1), Action.call (LibCall.ssh_free 1),
       Action.emit Signal.disconnected]
      [104, 105] (by decide)⟩


/-! ## Facts about `stripAnsi` -/

theorem stripAnsiStep_out (st : StripState) (out : QByteArray) (c : Nat) :
    stripAnsiStep (st, out) c =
      ((stripAnsiStep (st, []) c).1, out ++ (stripAnsiStep (st, []) c).2) := by
  cases st <;> simp [stripAnsiStep] <;> split_ifs <;> simp

theorem foldl_stripAnsiStep (l : QByteArray) : ∀ (st : StripState) (out : QByteArray),
    l.foldl stripAnsiStep (st, out) = (scan st l, out ++ kept st l) := by
  induction l with
  | nil => intro st out; simp [scan, kept]
  | cons c l ih =>
    intro st out
    simp only [List.foldl_cons, scan, kept]
    rw [stripAnsiStep_out st out c, ih, ih (stripAnsiStep (st, []) c).1 (stripAnsiStep (st, []) c).2]
    simp [scan, kept, List.append_assoc]

theorem scan_nil (st : StripState) : scan st [] = st := rfl

theorem kept_nil (st : StripState) : kept st [] = [] := rfl

theorem scan_cons (st : StripState) (c : Nat) (l : QByteArray) :
    scan st (c :: l) = scan (stripAnsiStep (st, []) c).1 l := by
  simp only [scan, List.foldl_cons]
  rw [stripAnsiStep_out, foldl_stripAnsiStep]
  simp [scan]

theorem kept_cons (st : StripState) (c : Nat) (l : QByteArray) :
    kept st (c :: l) = (stripAnsiStep (st, []) c).2 ++ kept (stripAnsiStep (st, []) c).1 l := by
  simp only [kept, List.foldl_cons]
  rw [stripAnsiStep_out, foldl_stripAnsiStep]
  simp [kept]

theorem scan_append (a b : QByteArray) : ∀ st : StripState,
    scan st (a ++ b) = scan (scan st a) b := by
  induction a with
  | nil => intro st; rfl
  | cons c a ih => intro st; simp only [List.cons_append, scan_cons, ih]

theorem kept_append (a b : QByteArray) : ∀ st : StripState,
    kept st (a ++ b) = kept st a ++ kept (scan st a) b := by
  induction a with
  | nil => intro st; simp [kept_nil, scan_nil]
  | cons c a ih => intro st; simp only [List.cons_append, kept_cons, scan_cons, ih, List.append_assoc]

theorem stripAnsi_eq_kept (input : QByteArray) : stripAnsi input = kept StripState.Normal input :=
  rfl

theorem kept_sublist (l : QByteArray) : ∀ st : StripState, (kept st l).Sublist l := by
  induction l with
  | nil => intro st; simp [kept_nil]
  | cons c l ih =>
    intro st
    rw [kept_cons]
    cases st <;> simp only [stripAnsiStep] <;> split_ifs <;>
    first
      | exact (ih _).cons₂ c
      | exact (ih _).cons c

theorem kept_no_esc (l : QByteArray) : ∀ st : StripState, 0x1b ∉ kept st l := by
  induction l with
  | nil => intro st; simp [kept_nil]
  | cons c l ih =>
    intro st
    rw [kept_cons]
    cases st <;> simp only [stripAnsiStep] <;> split_ifs with h1 <;>
    (simp [ih]; try exact fun h => h1 h.symm)

theorem csi_params (params : QByteArray) (h : ∀ p ∈ params, isCsiFinal p = false) :
    scan StripState.Csi params = StripState.Csi ∧ kept StripState.Csi params = [] := by
  induction params with
  | nil => exact ⟨rfl, rfl⟩
  | cons c l ih =>
    have hc : ¬ (c ≥ 0x40 ∧ c ≤ 0x7e) := by
      have := h c (List.mem_cons_self _ _)
      simpa [isCsiFinal] using this
    have hl := ih (fun p hp => h p (List.mem_cons_of_mem _ hp))
    simp [scan_cons, kept_cons, stripAnsiStep, hc, hl]

theorem hasST_cons_cons (a b : Nat) (rest : QByteArray) :
    hasST (a :: b :: rest) = ((a = 0x1b && b = 0x5c) || hasST (b :: rest)) := by
  simp [hasST]

theorem hasFreeBel_cons (afterEsc : Bool) (c : Nat) (rest : QByteArray) :
    hasFreeBel afterEsc (c :: rest) =
      ((decide (c = 0x07) && !afterEsc) || hasFreeBel (decide (c = 0x1b)) rest) := rfl

theorem osc_body (body : QByteArray) : ∀ afterEsc : Bool,
    hasFreeBel afterEsc body = false → hasST body = false →
    (afterEsc = true → body.head? ≠ some 0x5c) →
    kept (if afterEsc then StripState.OscEsc else StripState.Osc) body = [] ∧
    scan (if afterEsc then StripState.OscEsc else StripState.Osc) body =
      (if (body.getLast?.getD (if afterEsc then 0x1b else 0)) = 0x1b then StripState.OscEsc
        else StripState.Osc) := by
  induction body with
  | nil => intro afterEsc _ _ _; cases afterEsc <;> simp [kept_nil, scan_nil]
  | cons c l ih =>
    intro afterEsc hbel hst hhead
    rw [hasFreeBel_cons] at hbel
    simp only [Bool.or_eq_false_iff] at hbel
    have hlst : hasST l = false := by
      cases l with
      | nil => rfl
      | cons d l2 =>
        rw [hasST_cons_cons] at hst
        simp only [Bool.or_eq_false_iff] at hst
        exact hst.2
    have hnext : c = 0x1b → l.head? ≠ some 0x5c := by
      intro hc
      cases l with
      | nil => simp
      | cons d l2 =>
        rw [hasST_cons_cons] at hst
        simp only [Bool.or_eq_false_iff, Bool.and_eq_false_imp, decide_eq_true_eq,
          decide_eq_false_iff_not] at hst
        simpa using hst.1 hc
    have hlast : (c :: l).getLast?.getD (if afterEsc then 0x1b else 0) =
        l.getLast?.getD c := by
      cases l with
      | nil => simp
      | cons d l2 => simp [List.getLast?_cons_cons, List.getLast?_cons]
    rw [hlast]
    by_cases hc : c = 0x1b
    · have hl7 : hasFreeBel true l = false := by simpa [hc] using hbel.2
      have h := ih true hl7 hlst (fun _ => hnext hc)
      simp only [if_true] at h
      cases afterEsc
      · simpa [scan_cons, kept_cons, stripAnsiStep, hc] using h
      · simpa [scan_cons, kept_cons, stripAnsiStep, hc] using h
    · have hl7 : hasFreeBel false l = false := by simpa [hc] using hbel.2
      have h := ih false hl7 hlst (by simp)
      simp only [Bool.false_eq_true, if_false] at h
      have hget : l.getLast?.getD c = 0x1b ↔ l.getLast?.getD 0 = 0x1b := by
        cases hg : l.getLast? with
        | none => simp [hc]
        | some x => simp
      cases afterEsc
      · have hc7 : c ≠ 0x07 := by simpa using hbel.1
        simp [scan_cons, kept_cons, stripAnsiStep, hc7, hc, hget, h]
      · have h5c : c ≠ 0x5c := by
          intro h5
          exact hhead rfl (by simp [h5])
        simp [scan_cons, kept_cons, stripAnsiStep, h5c, hc, hget, h]

theorem token_scan (tok : Token) (h : tok.Scanned) :
    scan StripState.Normal tok.bytes = StripState.Normal ∧
    kept StripState.Normal tok.bytes = tok.text := by
  cases tok with
  | plain c =>
    have hc : c ≠ 0x1b := h
    simp [Token.bytes, Token.text, scan_cons, kept_cons, scan_nil, kept_nil, stripAnsiStep, hc]
  | escape c =>
    have hc : c ≠ 0x5b ∧ c ≠ 0x5d := h
    simp [Token.bytes, Token.text, scan_cons, kept_cons, scan_nil, kept_nil, stripAnsiStep,
      hc.1, hc.2]
  | csi params final =>
    have hc : (∀ p ∈ params, isCsiFinal p = false) ∧ isCsiFinal final = true := h
    have hp := csi_params params hc.1
    have hf : final ≥ 0x40 ∧ final ≤ 0x7e := by simpa [isCsiFinal] using hc.2
    simp [Token.bytes, Token.text, scan_cons, kept_cons, scan_nil, kept_nil, stripAnsiStep,
      scan_append, kept_append, hp.1, hp.2, hf.1, hf.2]
  | oscBel body =>
    have hc : hasFreeBel false body = false ∧ hasST body = false ∧
        body.getLast? ≠ some 0x1b := h
    have hb := osc_body body false hc.1 hc.2.1 (by simp)
    have hlast : ¬ (body.getLast?.getD 0 = 0x1b) := by
      cases hg : body.getLast? with
      | none => simp
      | some x =>
        have := hc.2.2
        rw [hg] at this
        simpa using this
    simp only [Bool.false_eq_true, if_false, hlast] at hb
    simp [Token.bytes, Token.text, scan_cons, kept_cons, scan_nil, kept_nil, stripAnsiStep,
      scan_append, kept_append, hb.1, hb.2]
  | oscSt body =>
    have hc : hasFreeBel false body = false ∧ hasST body = false := h
    have hb := osc_body body false hc.1 hc.2 (by simp)
    simp only [Bool.false_eq_true, if_false] at hb
    by_cases hlast : body.getLast?.getD 0 = 0x1b
    · simp only [hlast, if_true] at hb
      simp [Token.bytes, Token.text, scan_cons, kept_cons, scan_nil, kept_nil, stripAnsiStep,
        scan_append, kept_append, hb.1, hb.2]
    · simp only [hlast, if_false] at hb
      simp [Token.bytes, Token.text, scan_cons, kept_cons, scan_nil, kept_nil, stripAnsiStep,
        scan_append, kept_append, hb.1, hb.2]

theorem tail_kept (tail : QByteArray) (h : UnterminatedTail tail) :
    kept StripState.Normal tail = [] := by
  rcases h with h | h | ⟨params, h, hp⟩ | ⟨body, h, h7, hst⟩
  · subst h; rfl
  · subst h; simp [kept_cons, kept_nil, stripAnsiStep]
  · subst h
    simp [kept_cons, stripAnsiStep, (csi_params params hp).2]
  · subst h
    have hb := osc_body body false h7 hst (by simp)
    simp only [Bool.false_eq_true, if_false] at hb
    simp [kept_cons, stripAnsiStep, hb.1]

theorem tokens_kept (toks : List Token) (tail : QByteArray)
    (hv : ∀ t ∈ toks, t.Scanned) (ht : UnterminatedTail tail) :
    kept StripState.Normal (toks.flatMap Token.bytes ++ tail) = toks.flatMap Token.text := by
  induction toks with
  | nil => simpa using tail_kept tail ht
  | cons t toks ih =>
    have h1 := token_scan t (hv t (List.mem_cons_self _ _))
    have h2 := ih (fun x hx => hv x (List.mem_cons_of_mem _ hx))
    simp only [List.flatMap_cons, List.append_assoc]
    rw [kept_append, h1.1, h1.2, h2]

theorem hasST_concat (body : QByteArray) (c : Nat) :
    hasST (body ++ [c]) =
      (hasST body || (decide (body.getLast? = some 0x1b) && decide (c = 0x5c))) := by
  induction body with
  | nil => simp [hasST]
  | cons a l ih =>
    cases l with
    | nil => simp [hasST]
    | cons b l2 =>
      simp only [List.cons_append] at ih ⊢
      rw [hasST_cons_cons, ih, hasST_cons_cons]
      simp [List.getLast?_cons_cons, Bool.or_assoc]

theorem hasFreeBel_concat (body : QByteArray) (c : Nat) : ∀ afterEsc : Bool,
    hasFreeBel afterEsc (body ++ [c]) =
      (hasFreeBel afterEsc body ||
        (decide (c = 0x07) &&
          !decide (body.getLast?.getD (if afterEsc then 0x1b else 0) = 0x1b))) := by
  induction body with
  | nil => intro afterEsc; cases afterEsc <;> simp [hasFreeBel]
  | cons a l ih =>
    intro afterEsc
    simp only [List.cons_append, hasFreeBel_cons, ih, Bool.or_assoc]
    congr 2
    cases l with
    | nil => by_cases ha : a = 0x1b <;> simp [ha]
    | cons b l2 =>
      cases hg : (b :: l2).getLast? with
      | none => simp at hg
      | some x => simp [List.getLast?_cons_cons, hg]

theorem parse_exists (input : QByteArray) :
    ∃ (toks : List Token) (tail : QByteArray), (∀ t ∈ toks, t.Scanned) ∧
      UnterminatedTail tail ∧
      input = toks.flatMap Token.bytes ++ tail := by
  induction input using List.reverseRecOn with
  | nil => exact ⟨[], [], by simp, Or.inl rfl, rfl⟩
  | append_singleton l c ih =>
    obtain ⟨toks, tail, hv, ht, rfl⟩ := ih
    have hsnoc : ∀ t : Token, t.Scanned → ∀ x ∈ toks ++ [t], Token.Scanned x := by
      intro t htk x hx
      rcases List.mem_append.mp hx with h | h
      · exact hv x h
      · rw [List.mem_singleton.mp h]; exact htk
    rcases ht with h | h | ⟨params, h, hp⟩ | ⟨body, h, h7, hst⟩
    · subst h
      by_cases hc : c = 0x1b
      · exact ⟨toks, [0x1b], hv, Or.inr (Or.inl rfl), by simp [hc]⟩
      · exact ⟨toks ++ [Token.plain c], [], hsnoc _ hc, Or.inl rfl, by simp [Token.bytes]⟩
    · subst h
      by_cases h1 : c = 0x5b
      · exact ⟨toks, [0x1b, 0x5b], hv, Or.inr (Or.inr (Or.inl ⟨[], rfl, by simp⟩)),
          by simp [h1]⟩
      · by_cases h2 : c = 0x5d
        · exact ⟨toks, [0x1b, 0x5d], hv,
            Or.inr (Or.inr (Or.inr ⟨[], rfl, by simp [hasFreeBel], by simp [hasST]⟩)),
            by simp [h2]⟩
        · exact ⟨toks ++ [Token.escape c], [], hsnoc _ ⟨h1, h2⟩, Or.inl rfl,
            by simp [Token.bytes]⟩
    · subst h
      by_cases hf : isCsiFinal c = true
      · exact ⟨toks ++ [Token.csi params c], [], hsnoc _ ⟨hp, hf⟩, Or.inl rfl,
          by simp [Token.bytes]⟩
      · refine ⟨toks, 0x1b :: 0x5b :: (params ++ [c]), hv,
          Or.inr (Or.inr (Or.inl ⟨params ++ [c], rfl, ?_⟩)), by simp⟩
        intro p hpm
        rcases List.mem_append.mp hpm with h | h
        · exact hp p h
        · rw [List.mem_singleton.mp h]; simpa using hf
    · subst h
      by_cases hlast : body.getLast? = some 0x1b
      · by_cases h5 : c = 0x5c
        · obtain ⟨body2, hb2⟩ := List.getLast?_eq_some_iff.mp hlast
          subst hb2
          rw [hasFreeBel_concat] at h7
          rw [hasST_concat] at hst
          simp only [Bool.or_eq_false_iff] at h7 hst
          exact ⟨toks ++ [Token.oscSt body2], [], hsnoc _ ⟨h7.1, hst.1⟩, Or.inl rfl,
            by simp [Token.bytes, h5]⟩
        · refine ⟨toks, 0x1b :: 0x5d :: (body ++ [c]), hv,
            Or.inr (Or.inr (Or.inr ⟨body ++ [c], rfl, ?_, ?_⟩)), by simp⟩
          · rw [hasFreeBel_concat]
            simp [h7, hlast]
          · rw [hasST_concat]
            simp [hst, h5]
      · by_cases hb : c = 0x07
        · exact ⟨toks ++ [Token.oscBel body], [], hsnoc _ ⟨h7, hst, hlast⟩, Or.inl rfl,
            by simp [Token.bytes, hb]⟩
        · refine ⟨toks, 0x1b :: 0x5d :: (body ++ [c]), hv,
            Or.inr (Or.inr (Or.inr ⟨body ++ [c], rfl, ?_, ?_⟩)), by simp⟩
          · rw [hasFreeBel_concat]
            simp [h7, hb]
          · rw [hasST_concat]
            simp [hst, hlast]

/-! ## Claims about the session, continued, and about the plain-text path -/

/-- C11 as stated fails: in the state a `connectToHost` call is in when
authentication is refused (session 1 held, no channel, not connected),
`disconnectFromHost` disconnects and frees the live session and emits no
`disconnected`; the whole failed call on a fresh object emits the error only. -/
theorem disconnectFromHost_preconnected_counterexample :
    (disconnectFromHost
        { session := some 1, channel := none, pollTimerActive := false, connected_ := false }).2 =
      [Action.call (LibCall.ssh_disconnect 1), Action.call (LibCall.ssh_free 1)] ∧
    (signals (disconnectFromHost
        { session := some 1, channel := none, pollTimerActive := false,
          connected_ := false }).2).count Signal.disconnected = 0 ∧
    signals (init.connectToHost sampleArgs sampleAuthDenied).2 =
      [Signal.error "SSH auth failed: timeout"] ∧
    Action.call (LibCall.ssh_free 1) ∈ (init.connectToHost sampleArgs sampleAuthDenied).2 := by
  decide

/-- C11 as amended: in every state `disconnectFromHost` emits `disconnected`
exactly once when `connected_` is set and not at all otherwise, so never a second
time; and in every state the object can reach between calls, a `connectToHost`
call that fails emits no `disconnected` for the session it tears down: its
signals are the `disconnected` of the connection that was up before the call, if
any, and then the one `error`. -/
theorem disconnectFromHost_disconnected_count (s : SshSession) (ops : List Op)
    (a : ConnectArgs) (o : ConnectOutcome) :
    (signals (disconnectFromHost s).2).count Signal.disconnected =
      (if s.connected_ then 1 else 0) ∧
    (signals (disconnectFromHost (disconnectFromHost s).1).2).count Signal.disconnected = 0 ∧
    (¬ ConnectSucceeds a o → ∃ msg,
      signals ((run ops).1.connectToHost a o).2 =
        (if (run ops).1.connected_ then [Signal.disconnected] else []) ++ [Signal.error msg]) := by
  refine ⟨?_, ?_, ?_⟩
  · rw [disconnectFromHost_eq, signals_teardown]
    split_ifs <;> simp
  · simp [disconnectFromHost_eq, signals_teardown, init]
  · intro hfail
    have hinv := inv_run ops
    obtain ⟨msg, hsig⟩ := connectToHost_signals (run ops).1 a o
    refine ⟨msg, ?_⟩
    rw [hsig]
    simp only [hfail, if_false]
    rcases Option.eq_none_or_eq_some (run ops).1.session with hs | ⟨h0, hs⟩
    · have := eq_init_of_inv _ hinv hs
      simp [this, init]
    · by_cases hc : (run ops).1.connected_ = true <;> simp [hs, hc]

/-- C11 as amended, at a sample input: a failing reconnect on a connected object
emits `disconnected` once, for the connection that was up, and then the error. -/
theorem disconnectFromHost_disconnected_count_witness :
    ¬ ConnectSucceeds sampleArgs sampleAuthDenied ∧
    ∃ msg, signals ((run sampleConnected).1.connectToHost sampleArgs sampleAuthDenied).2 =
      (if (run sampleConnected).1.connected_ then [Signal.disconnected] else []) ++
        [Signal.error msg] :=
  ⟨by decide,
    (disconnectFromHost_disconnected_count init sampleConnected sampleArgs sampleAuthDenied).2.2
      (by decide)⟩

/-- C12, the defect: in the build without libvterm, feeding `ESC` and then
`[31mX` in two `writeData` calls leaves `[31mX` in the document, while feeding
the six bytes in one call leaves `X`: the scanner of `stripAnsi` starts again in
`Normal` on every call, so an escape sequence split over two calls is not
stripped. -/
theorem writeData_split_escape :
    ((TerminalWidget.initFallbackUi TerminalWidget.init).writeData plainBuild [0x1b]).1.writeData
        plainBuild [0x5b, 0x33, 0x31, 0x6d, 0x58] =
      ({ TerminalWidget.initFallbackUi TerminalWidget.init with
          output_ := some [0x5b, 0x33, 0x31, 0x6d, 0x58] }, []) ∧
    (TerminalWidget.initFallbackUi TerminalWidget.init).writeData plainBuild
        ([0x1b] ++ [0x5b, 0x33, 0x31, 0x6d, 0x58]) =
      ({ TerminalWidget.initFallbackUi TerminalWidget.init with output_ := some [0x58] }, []) ∧
    stripAnsi [0x1b] ++ stripAnsi [0x5b, 0x33, 0x31, 0x6d, 0x58] ≠
      stripAnsi ([0x1b] ++ [0x5b, 0x33, 0x31, 0x6d, 0x58]) := by
  decide

/-- C13 as stated fails: `ESC ] ESC BEL` is an OSC up to its `BEL` and
`ESC [ BEL x` a CSI up to its final byte `x`, both as described, so the text of
the two is empty; `stripAnsi` gives `x`, because it takes the `BEL` after the
`ESC` for a part of the OSC body. -/
theorem stripAnsi_osc_counterexample :
    Token.Described (Token.oscBel [0x1b]) ∧ Token.Described (Token.csi [0x07] 0x78) ∧
    [Token.oscBel [0x1b], Token.csi [0x07] 0x78].flatMap Token.bytes =
      [0x1b, 0x5d, 0x1b, 0x07, 0x1b, 0x5b, 0x07, 0x78] ∧
    [Token.oscBel [0x1b], Token.csi [0x07] 0x78].flatMap Token.text = [] ∧
    stripAnsi [0x1b, 0x5d, 0x1b, 0x07, 0x1b, 0x5b, 0x07, 0x78] = [0x78] := by
  refine ⟨by simp [Token.Described, hasST], by simp [Token.Described, isCsiFinal], by decide,
    by decide, by decide⟩

/-- C13 as amended: `stripAnsi` is a total function; for every input its output
is a subsequence of the input and holds no `ESC`; every input is a run of bytes
of text and ESC-introduced sequences (`ESC` and one byte other than `[` and `]`,
a CSI up to its final byte, an OSC up to the first `ESC \` or the first `BEL`
that does not directly follow an `ESC`) with an unterminated sequence at the
end, and the output is its bytes of text; and for every such run, the output is
the bytes of text: every byte of a sequence is dropped. -/
theorem stripAnsi_safe (input : QByteArray) (toks : List Token) (tail : QByteArray)
    (hv : ∀ t ∈ toks, t.Scanned) (ht : UnterminatedTail tail) :
    (stripAnsi input).Sublist input ∧ 0x1b ∉ stripAnsi input ∧
    stripAnsi (toks.flatMap Token.bytes ++ tail) = toks.flatMap Token.text ∧
    ∃ (toks2 : List Token) (tail2 : QByteArray), (∀ t ∈ toks2, t.Scanned) ∧
      UnterminatedTail tail2 ∧ input = toks2.flatMap Token.bytes ++ tail2 ∧
      stripAnsi input = toks2.flatMap Token.text := by
  refine ⟨kept_sublist input _, kept_no_esc input _, tokens_kept toks tail hv ht, ?_⟩
  obtain ⟨toks2, tail2, hv2, ht2, hin⟩ := parse_exists input
  refine ⟨toks2, tail2, hv2, ht2, hin, ?_⟩
  rw [hin]
  exact tokens_kept toks2 tail2 hv2 ht2

/-- C13 as amended, at a sample input: `a`, a colour sequence, `b`, an OSC whose
body holds `ESC BEL` and which ends at the `BEL` after `t`, `c`, and a CSI cut
off at the end of the input; the output is `abc`. -/
theorem stripAnsi_safe_witness :
    (∀ t ∈ [Token.plain 0x61, Token.csi [0x33, 0x31] 0x6d, Token.plain 0x62,
        Token.oscBel [0x1b, 0x07, 0x74], Token.plain 0x63], t.Scanned) ∧
    UnterminatedTail [0x1b, 0x5b, 0x33] ∧
    [Token.plain 0x61, Token.csi [0x33, 0x31] 0x6d, Token.plain 0x62,
        Token.oscBel [0x1b, 0x07, 0x74], Token.plain 0x63].flatMap Token.bytes ++
          [0x1b, 0x5b, 0x33] =
      [0x61, 0x1b, 0x5b, 0x33, 0x31, 0x6d, 0x62, 0x1b, 0x5d, 0x1b, 0x07, 0x74, 0x07, 0x63,
        0x1b, 0x5b, 0x33] ∧
    stripAnsi ([Token.plain 0x61, Token.csi [0x33, 0x31] 0x6d, Token.plain 0x62,
        Token.oscBel [0x1b, 0x07, 0x74], Token.plain 0x63].flatMap Token.bytes ++
          [0x1b, 0x5b, 0x33]) =
      [Token.plain 0x61, Token.csi [0x33, 0x31] 0x6d, Token.plain 0x62,
        Token.oscBel [0x1b, 0x07, 0x74], Token.plain 0x63].flatMap Token.text ∧
    [Token.plain 0x61, Token.csi [0x33, 0x31] 0x6d, Token.plain 0x62,
        Token.oscBel [0x1b, 0x07, 0x74], Token.plain 0x63].flatMap Token.text =
      [0x61, 0x62, 0x63] :=
  have hv : ∀ t ∈ [Token.plain 0x61, Token.csi [0x33, 0x31] 0x6d, Token.plain 0x62,
      Token.oscBel [0x1b, 0x07, 0x74], Token.plain 0x63], t.Scanned := by
    simp [Token.Scanned, Token.Described, isCsiFinal, hasST, hasFreeBel]
  have ht : UnterminatedTail [0x1b, 0x5b, 0x33] :=
    Or.inr (Or.inr (Or.inl ⟨[0x33], rfl, by simp [isCsiFinal]⟩))
  ⟨hv, ht, by decide,
    (stripAnsi_safe [0x1b, 0x5d, 0x1b, 0x07, 0x78] _ [0x1b, 0x5b, 0x33] hv ht).2.2.1, by decide⟩

/-! ## Claims about the size of the terminal -/

/-- C14: for every state with the libvterm object ready, every positive widget
size `w`, `h` and positive cell size, after `updateSizeFromPixel` the recorded
size is `rows = min (max 24 (h / cellHeight)) 1000` and
`cols = min (max 100 (w / cellWidth)) 1000` with the truncating division of C++
(which is the integer division, the operands being positive), hence
`24 <= rows <= 1000` and `100 <= cols <= 1000`; and when the call changes the
size, the grid of libvterm takes that size too unless the build is for macOS. -/
theorem updateSizeFromPixel_dims (b : Build) (t : TerminalWidget) (w h : Int)
    (hv : t.vterm_.isSome = true) (hr : t.vtermReady_ = true)
    (hw : 0 < w) (hh : 0 < h) (hcw : 0 < t.cellWidth_) (hch : 0 < t.cellHeight_) :
    (t.updateSizeFromPixel b w h).1.lastRows_ = min (max 24 (h.tdiv t.cellHeight_)) 1000 ∧
    (t.updateSizeFromPixel b w h).1.lastCols_ = min (max 100 (w.tdiv t.cellWidth_)) 1000 ∧
    h.tdiv t.cellHeight_ = h / t.cellHeight_ ∧ w.tdiv t.cellWidth_ = w / t.cellWidth_ ∧
    24 ≤ (t.updateSizeFromPixel b w h).1.lastRows_ ∧
    (t.updateSizeFromPixel b w h).1.lastRows_ ≤ 1000 ∧
    100 ≤ (t.updateSizeFromPixel b w h).1.lastCols_ ∧
    (t.updateSizeFromPixel b w h).1.lastCols_ ≤ 1000 ∧
    ((t.updateSizeFromPixel b w h).2 ≠ [] → b.APPLE = false →
      (t.updateSizeFromPixel b w h).1.vterm_.map (fun vt => (vt.rows, vt.cols)) =
        some (min (max 24 (h.tdiv t.cellHeight_)) 1000,
          min (max 100 (w.tdiv t.cellWidth_)) 1000)) := by
  obtain ⟨vt, hvt⟩ := Option.isSome_iff_exists.mp hv
  have g1 : ¬ (t.cellWidth_ ≤ 0 ∨ t.cellHeight_ ≤ 0) := by omega
  have g2 : ¬ (w ≤ 0 ∨ h ≤ 0) := by omega
  have e1 : (t.updateSizeFromPixel b w h).1.lastRows_ =
      min (max 24 (h.tdiv t.cellHeight_)) 1000 ∧
      (t.updateSizeFromPixel b w h).1.lastCols_ = min (max 100 (w.tdiv t.cellWidth_)) 1000 := by
    simp only [TerminalWidget.updateSizeFromPixel, hvt, hr, g1, g2, if_false]
    by_cases hsame : min (max 24 (h.tdiv t.cellHeight_)) 1000 = t.lastRows_ ∧
        min (max 100 (w.tdiv t.cellWidth_)) 1000 = t.lastCols_
    · simp [hsame.1, hsame.2]
    · cases hb : b.APPLE <;> simp [hsame]
  refine ⟨e1.1, e1.2, Int.tdiv_eq_ediv (le_of_lt hh) (le_of_lt hch),
    Int.tdiv_eq_ediv (le_of_lt hw) (le_of_lt hcw), ?_, ?_, ?_, ?_, ?_⟩
  · rw [e1.1]; omega
  · rw [e1.1]; omega
  · rw [e1.2]; omega
  · rw [e1.2]; omega
  · intro heff hb
    simp only [TerminalWidget.updateSizeFromPixel, hvt, hr, g1, g2, if_false] at heff ⊢
    by_cases hsame : min (max 24 (h.tdiv t.cellHeight_)) 1000 = t.lastRows_ ∧
        min (max 100 (w.tdiv t.cellWidth_)) 1000 = t.lastCols_
    · simp [hsame.1, hsame.2] at heff
    · simp [hsame, hb, vterm_set_size]

/-- C14 at a sample input: a widget of 12000 by 600 pixels with cells of 8 by 16
gets 37 rows and the maximum of 1000 columns. -/
theorem updateSizeFromPixel_dims_witness :
    ((TerminalWidget.initVTerm vtermBuild TerminalWidget.init 100 30 8 16).1.updateSizeFromPixel
      vtermBuild 12000 600).1.lastRows_ = min (max 24 (Int.tdiv 600 16)) 1000 ∧
    ((TerminalWidget.initVTerm vtermBuild TerminalWidget.init 100 30 8 16).1.updateSizeFromPixel
      vtermBuild 12000 600).1.lastCols_ = min (max 100 (Int.tdiv 12000 8)) 1000 :=
  ⟨(updateSizeFromPixel_dims vtermBuild
      (TerminalWidget.initVTerm vtermBuild TerminalWidget.init 100 30 8 16).1 12000 600
      (by decide) (by decide) (by decide) (by decide) (by decide) (by decide)).1,
   (updateSizeFromPixel_dims vtermBuild
      (TerminalWidget.initVTerm vtermBuild TerminalWidget.init 100 30 8 16).1 12000 600
      (by decide) (by decide) (by decide) (by decide) (by decide) (by decide)).2.1⟩

/-- The function `initVTerm` itself takes the lower bounds only: were the widget
16016 pixels wide when it runs, with cells 8 pixels wide, the grid would be
created with 2002 columns. The upper bound at creation rests on the size the
widget has in its constructor. -/
theorem initVTerm_unclamped :
    (TerminalWidget.initVTerm vtermBuild TerminalWidget.init 16016 480 8 16).1.lastCols_ = 2002 ∧
    (TerminalWidget.initVTerm vtermBuild TerminalWidget.init 16016 480 8 16).1.vterm_.map
      (fun vt => (vt.rows, vt.cols)) = some (30, 2002) ∧
    (TerminalWidget.initVTerm vtermBuild TerminalWidget.init 16016 480 8 16).2 =
      [TermAction.vterm_new 30 2002, TermAction.terminalResized 30 2002] ∧
    ¬ ((2002 : Int) ≤ 1000) := by
  decide

/-- C16: for every state with the libvterm object ready and positive widget and
cell sizes: when the clamped size equals the recorded one, `updateSizeFromPixel`
does nothing at all (same state, no libvterm call, no signal); when it differs,
the call records the clamped size and emits exactly one `terminalResized`, with
the new recorded rows and columns. The recorded size is the current one: off
macOS it is also the size of the grid of libvterm, from `initVTerm` on and
after every `updateSizeFromPixel`. -/
theorem updateSizeFromPixel_noop_iff (b : Build) (t : TerminalWidget) (w h : Int)
    (hv : t.vterm_.isSome = true) (hr : t.vtermReady_ = true)
    (hw : 0 < w) (hh : 0 < h) (hcw : 0 < t.cellWidth_) (hch : 0 < t.cellHeight_) :
    ((min (max 24 (h.tdiv t.cellHeight_)) 1000 = t.lastRows_ ∧
        min (max 100 (w.tdiv t.cellWidth_)) 1000 = t.lastCols_) →
      t.updateSizeFromPixel b w h = (t, [])) ∧
    (¬ (min (max 24 (h.tdiv t.cellHeight_)) 1000 = t.lastRows_ ∧
        min (max 100 (w.tdiv t.cellWidth_)) 1000 = t.lastCols_) →
      resizedSignals (t.updateSizeFromPixel b w h).2 =
        [((t.updateSizeFromPixel b w h).1.lastRows_, (t.updateSizeFromPixel b w h).1.lastCols_)] ∧
      (t.updateSizeFromPixel b w h).1.lastRows_ = min (max 24 (h.tdiv t.cellHeight_)) 1000 ∧
      (t.updateSizeFromPixel b w h).1.lastCols_ = min (max 100 (w.tdiv t.cellWidth_)) 1000) ∧
    (b.APPLE = false →
      t.vterm_.map (fun vt => (vt.rows, vt.cols)) = some (t.lastRows_, t.lastCols_) →
      (t.updateSizeFromPixel b w h).1.vterm_.map (fun vt => (vt.rows, vt.cols)) =
        some ((t.updateSizeFromPixel b w h).1.lastRows_,
          (t.updateSizeFromPixel b w h).1.lastCols_)) ∧
    (∀ t0 width height fmWidth fmHeight,
      (TerminalWidget.initVTerm b t0 width height fmWidth fmHeight).1.vterm_.map
          (fun vt => (vt.rows, vt.cols)) =
        some ((TerminalWidget.initVTerm b t0 width height fmWidth fmHeight).1.lastRows_,
          (TerminalWidget.initVTerm b t0 width height fmWidth fmHeight).1.lastCols_)) := by
  obtain ⟨vt, hvt⟩ := Option.isSome_iff_exists.mp hv
  have g1 : ¬ (t.cellWidth_ ≤ 0 ∨ t.cellHeight_ ≤ 0) := by omega
  have g2 : ¬ (w ≤ 0 ∨ h ≤ 0) := by omega
  refine ⟨?_, ?_, ?_, ?_⟩
  · intro hsame
    simp only [TerminalWidget.updateSizeFromPixel, hvt, hr, g1, g2, if_false]
    simp [hsame.1, hsame.2]
  · intro hdiff
    simp only [TerminalWidget.updateSizeFromPixel, hvt, hr, g1, g2, if_false]
    cases hb : b.APPLE <;> simp [hdiff, resizedSignals]
  · intro hb hgrid
    simp only [TerminalWidget.updateSizeFromPixel, hvt, hr, g1, g2, if_false]
    by_cases hsame : min (max 24 (h.tdiv t.cellHeight_)) 1000 = t.lastRows_ ∧
        min (max 100 (w.tdiv t.cellWidth_)) 1000 = t.lastCols_
    · simp only [hsame.1, hsame.2, and_self, if_true]
      rw [hvt] at hgrid
      simpa [hvt] using hgrid
    · simp [hsame, hb, vterm_set_size]
  · intro t0 width height fmWidth fmHeight
    simp [TerminalWidget.initVTerm, vterm_new]

/-- C16 at a sample input: after creation with 24 rows and 100 columns, a widget
of 640 by 320 pixels with cells of 8 by 16 still gives 24 by 100 and the call
does nothing; a widget of 800 by 600 pixels gives one `terminalResized 37 100`. -/
theorem updateSizeFromPixel_noop_iff_witness :
    (TerminalWidget.initVTerm vtermBuild TerminalWidget.init 100 30 8 16).1.updateSizeFromPixel
        vtermBuild 640 320 =
      ((TerminalWidget.initVTerm vtermBuild TerminalWidget.init 100 30 8 16).1, []) ∧
    resizedSignals
        ((TerminalWidget.initVTerm vtermBuild TerminalWidget.init 100 30 8 16).1.updateSizeFromPixel
          vtermBuild 800 600).2 =
      [(((TerminalWidget.initVTerm vtermBuild TerminalWidget.init 100 30 8 16).1.updateSizeFromPixel
          vtermBuild 800 600).1.lastRows_,
        ((TerminalWidget.initVTerm vtermBuild TerminalWidget.init 100 30 8 16).1.updateSizeFromPixel
          vtermBuild 800 600).1.lastCols_)] :=
  ⟨(updateSizeFromPixel_noop_iff vtermBuild
      (TerminalWidget.initVTerm vtermBuild TerminalWidget.init 100 30 8 16).1 640 320
      (by decide) (by decide) (by decide) (by decide) (by decide) (by decide)).1 (by decide),
   ((updateSizeFromPixel_noop_iff vtermBuild
      (TerminalWidget.initVTerm vtermBuild TerminalWidget.init 100 30 8 16).1 800 600
      (by decide) (by decide) (by decide) (by decide) (by decide) (by decide)).2.1
        (by decide)).1⟩

/-! ## Facts about the tab -/

theorem profilesConnected_append (l1 l2 : List TabAction) :
    profilesConnected (l1 ++ l2) = profilesConnected l1 ++ profilesConnected l2 := by
  induction l1 with
  | nil => rfl
  | cons x l ih => cases x <;> simp [profilesConnected, ih]

theorem sessionConnectedCount_append (l1 l2 : List TabAction) :
    sessionConnectedCount (l1 ++ l2) = sessionConnectedCount l1 + sessionConnectedCount l2 := by
  induction l1 with
  | nil => simp [sessionConnectedCount]
  | cons x l ih =>
    cases x with
    | session a =>
      cases a with
      | call c => simp [sessionConnectedCount, ih]
      | emit e => cases e <;> simp [sessionConnectedCount, ih] <;> omega
    | _ => simp [sessionConnectedCount, ih]

theorem profilesConnected_terminal (l : List TermAction) :
    profilesConnected (l.map TabAction.terminal) = [] := by
  induction l with
  | nil => rfl
  | cons x l ih => simp [profilesConnected, ih]

theorem sessionConnectedCount_terminal (l : List TermAction) :
    sessionConnectedCount (l.map TabAction.terminal) = 0 := by
  induction l with
  | nil => rfl
  | cons x l ih => simp [sessionConnectedCount, ih]

theorem deliver_spec (b : Build) (tab : TerminalTab) (e : Signal) :
    (TerminalTab.deliver b tab e).1.hasProfile_ = tab.hasProfile_ ∧
    (TerminalTab.deliver b tab e).1.currentProfile_ = tab.currentProfile_ ∧
    (TerminalTab.deliver b tab e).1.session_ = tab.session_ ∧
    sessionConnectedCount (TerminalTab.deliver b tab e).2 = 0 ∧
    profilesConnected (TerminalTab.deliver b tab e).2 =
      (if e = Signal.connected ∧ tab.hasProfile_ = true then [tab.currentProfile_] else []) := by
  cases e with
  | output data =>
    simp [TerminalTab.deliver, TerminalTab.onSessionOutput, profilesConnected_terminal,
      sessionConnectedCount_terminal]
  | error message =>
    simp [TerminalTab.deliver, TerminalTab.onSessionError, profilesConnected_terminal,
      sessionConnectedCount_terminal]
  | connected =>
    cases hp : tab.hasProfile_ <;>
    simp [TerminalTab.deliver, TerminalTab.onSessionConnected, profilesConnected_terminal,
      sessionConnectedCount_terminal, profilesConnected_append, sessionConnectedCount_append, hp,
      profilesConnected, sessionConnectedCount]
  | disconnected =>
    simp [TerminalTab.deliver, TerminalTab.onSessionDisconnected, profilesConnected,
      sessionConnectedCount]

theorem dispatch_spec (b : Build) (t : List Action) : ∀ tab : TerminalTab,
    (TerminalTab.dispatch b tab t).1.hasProfile_ = tab.hasProfile_ ∧
    (TerminalTab.dispatch b tab t).1.currentProfile_ = tab.currentProfile_ ∧
    (TerminalTab.dispatch b tab t).1.session_ = tab.session_ ∧
    sessionConnectedCount (TerminalTab.dispatch b tab t).2 = (signals t).count Signal.connected ∧
    profilesConnected (TerminalTab.dispatch b tab t).2 =
      (if tab.hasProfile_ = true then
        List.replicate ((signals t).count Signal.connected) tab.currentProfile_ else []) := by
  induction t with
  | nil => intro tab; simp [TerminalTab.dispatch, sessionConnectedCount, profilesConnected]
  | cons x t ih =>
    intro tab
    cases x with
    | call c =>
      have h := ih tab
      simp [TerminalTab.dispatch, sessionConnectedCount, profilesConnected, h]
    | emit e =>
      have hd := deliver_spec b tab e
      have h := ih (TerminalTab.deliver b tab e).1
      simp only [hd.1, hd.2.1, hd.2.2.1] at h
      cases e <;> cases hp : tab.hasProfile_ <;>
      simp [TerminalTab.dispatch, sessionConnectedCount, profilesConnected,
        sessionConnectedCount_append, profilesConnected_append, h, hd, hp, List.count_cons,
        List.replicate_succ]

theorem send_connected_count (s : SshSession) (data : QByteArray) :
    (signals (s.send data).2).count Signal.connected = 0 := by
  rcases Option.eq_none_or_eq_some s.channel with hc | ⟨c, hc⟩ <;> simp [send, hc]

theorem setPtySize_connected_count (s : SshSession) (rows cols : Int) :
    (signals (s.setPtySize rows cols).2).count Signal.connected = 0 := by
  rcases Option.eq_none_or_eq_some s.channel with hc | ⟨c, hc⟩ <;> simp [setPtySize, hc]

theorem pollTimerTimeout_connected_count (s : SshSession) (o : PollOutcome) :
    (signals (s.pollTimerTimeout o).2).count Signal.connected = 0 := by
  rcases Option.eq_none_or_eq_some s.channel with hc | ⟨c, hc⟩
  · simp [pollTimerTimeout, hc]
  · by_cases hn : o.n > 0 <;> by_cases h1 : o.is_eof = 0 <;> by_cases h2 : o.is_closed = 0 <;>
    cases hcon : s.connected_ <;>
    simp [pollTimerTimeout, hc, hn, h1, h2, disconnectFromHost_eq, signals_teardown, hcon]

theorem connectToHost_connected_count (s : SshSession) (a : ConnectArgs) (o : ConnectOutcome) :
    (signals (s.connectToHost a o).2).count Signal.connected ≤ 1 := by
  obtain ⟨msg, hsig⟩ := connectToHost_signals s a o
  rw [hsig]
  split_ifs <;> simp

theorem forward_spec (b : Build) (t : List TermAction) : ∀ tab : TerminalTab,
    sessionConnectedCount (TerminalTab.forward b tab t).2 = 0 ∧
    profilesConnected (TerminalTab.forward b tab t).2 = [] := by
  induction t with
  | nil => intro tab; simp [TerminalTab.forward, sessionConnectedCount, profilesConnected]
  | cons x t ih =>
    intro tab
    cases x with
    | terminalResized rows cols =>
      have hd := dispatch_spec b (tab.session_.setPtySize rows cols).2
        { tab with session_ := (tab.session_.setPtySize rows cols).1 }
      simp only [setPtySize_connected_count] at hd
      simp [TerminalTab.forward, sessionConnectedCount, profilesConnected,
        sessionConnectedCount_append, profilesConnected_append, ih, TerminalTab.onTerminalResize,
        TerminalTab.callSession, hd]
    | sendData data =>
      have hd := dispatch_spec b (tab.session_.send data).2
        { tab with session_ := (tab.session_.send data).1 }
      simp only [send_connected_count] at hd
      simp [TerminalTab.forward, sessionConnectedCount, profilesConnected,
        sessionConnectedCount_append, profilesConnected_append, ih, TerminalTab.callSession, hd]
    | vterm_new rows cols =>
      simp [TerminalTab.forward, sessionConnectedCount, profilesConnected, ih tab]
    | vterm_input_write data =>
      simp [TerminalTab.forward, sessionConnectedCount, profilesConnected, ih tab]
    | vterm_set_size rows cols =>
      simp [TerminalTab.forward, sessionConnectedCount, profilesConnected, ih tab]

theorem connect_dispatch (b : Build) (tab : TerminalTab) (p : Profile) (a : ConnectArgs)
    (o : ConnectOutcome) :
    profilesConnected
        (TerminalTab.callSession b { tab with currentProfile_ := p, hasProfile_ := true }
          (tab.session_.connectToHost a o)).2 =
      List.replicate
        (sessionConnectedCount
          (TerminalTab.callSession b { tab with currentProfile_ := p, hasProfile_ := true }
            (tab.session_.connectToHost a o)).2) p ∧
    sessionConnectedCount
        (TerminalTab.callSession b { tab with currentProfile_ := p, hasProfile_ := true }
          (tab.session_.connectToHost a o)).2 ≤ 1 := by
  have hd := dispatch_spec b (tab.session_.connectToHost a o).2
    { tab with currentProfile_ := p, hasProfile_ := true,
               session_ := (tab.session_.connectToHost a o).1 }
  have hle := connectToHost_connected_count tab.session_ a o
  simp only [if_true] at hd
  simp only [TerminalTab.callSession]
  rw [hd.2.2.2.1, hd.2.2.2.2]
  exact ⟨rfl, hle⟩

/-! ## Claims about the tab -/

/-- C17, the defect: a tab is created (24 rows, 100 columns), its widget is laid out
at 800 by 600 pixels with cells of 8 by 16 (37 rows, 100 columns; `setPtySize`
finds no channel and does nothing), then a profile is connected and every step
succeeds. The channel is then open and the terminal has 37 rows and 100
columns, but no `ssh_channel_change_pty_size` call was ever made: the size the
terminal took before the connect is never forwarded to the new channel. -/
theorem connect_after_resize_forwards_no_size :
    (tabRunFrom vtermBuild (TerminalTab.create vtermBuild true 100 30 8 16).1
        [TabOp.updateSize 800 600,
         TabOp.connectProfile sampleProfile true false { ok := true, text := "" }
           sampleOutcome]).1.session_.channel = some 2 ∧
    ((tabRunFrom vtermBuild (TerminalTab.create vtermBuild true 100 30 8 16).1
        [TabOp.updateSize 800 600,
         TabOp.connectProfile sampleProfile true false { ok := true, text := "" }
           sampleOutcome]).1.terminal_.lastRows_,
      (tabRunFrom vtermBuild (TerminalTab.create vtermBuild true 100 30 8 16).1
        [TabOp.updateSize 800 600,
         TabOp.connectProfile sampleProfile true false { ok := true, text := "" }
           sampleOutcome]).1.terminal_.lastCols_) = (37, 100) ∧
    ptySizes ((TerminalTab.create vtermBuild true 100 30 8 16).2 ++
      (tabRunFrom vtermBuild (TerminalTab.create vtermBuild true 100 30 8 16).1
        [TabOp.updateSize 800 600,
         TabOp.connectProfile sampleProfile true false { ok := true, text := "" }
           sampleOutcome]).2) = [] := by
  decide

/-- C18 as stated fails: in the build with libvterm, a tab whose terminal was fed
the byte `A` shows it in its first cell, and after `onSessionConnected` the
terminal is the same, `A` included. -/
theorem onSessionConnected_keeps_screen :
    ((TerminalTab.onSessionOutput vtermBuild
        (TerminalTab.create vtermBuild true 100 30 8 16).1 [0x41]).1.terminal_.vterm_.map
      (fun vt => vt.cells)) = some [[0x41]] ∧
    (TerminalTab.onSessionConnected vtermBuild
        (TerminalTab.onSessionOutput vtermBuild
          (TerminalTab.create vtermBuild true 100 30 8 16).1 [0x41]).1).1.terminal_ =
      (TerminalTab.onSessionOutput vtermBuild
        (TerminalTab.create vtermBuild true 100 30 8 16).1 [0x41]).1.terminal_ := by
  decide

/-- C18 as amended: the slot of `connected` is `onSessionConnected`, which calls
`clearScreen`. In the build without libvterm that empties the plain-text
document, so nothing written before remains; in the build with libvterm
`clearScreen` does nothing, by design: no libvterm call is made and the
terminal, its grid included, is left as it was. -/
theorem onSessionConnected_clearScreen (b : Build) (tab : TerminalTab) :
    TerminalTab.deliver b tab Signal.connected = TerminalTab.onSessionConnected b tab ∧
    (b.HAVE_LIBVTERM = false →
      (TerminalTab.onSessionConnected b tab).1.terminal_.output_ =
        tab.terminal_.output_.map (fun _ => [])) ∧
    (b.HAVE_LIBVTERM = true →
      (TerminalTab.onSessionConnected b tab).1.terminal_ = tab.terminal_ ∧
      ∀ a, TabAction.terminal a ∉ (TerminalTab.onSessionConnected b tab).2) := by
  refine ⟨rfl, ?_, ?_⟩
  · intro hb
    rcases Option.eq_none_or_eq_some tab.terminal_.output_ with ho | ⟨doc, ho⟩ <;>
    simp [TerminalTab.onSessionConnected, TerminalWidget.clearScreen, hb, ho]
  · intro hb
    cases hp : tab.hasProfile_ <;>
    simp [TerminalTab.onSessionConnected, TerminalWidget.clearScreen, hb, hp]

/-- C18 as amended, at a sample input: in the build without libvterm, a tab whose
document holds `A` has an empty document after `onSessionConnected`. -/
theorem onSessionConnected_clearScreen_witness :
    ((TerminalTab.onSessionOutput plainBuild
        (TerminalTab.create plainBuild true 100 30 8 16).1 [0x41]).1.terminal_.output_ =
      some [0x41]) ∧
    (TerminalTab.onSessionConnected plainBuild
        (TerminalTab.onSessionOutput plainBuild
          (TerminalTab.create plainBuild true 100 30 8 16).1 [0x41]).1).1.terminal_.output_ =
      (TerminalTab.onSessionOutput plainBuild
        (TerminalTab.create plainBuild true 100 30 8 16).1 [0x41]).1.terminal_.output_.map
          (fun _ => []) :=
  ⟨by decide,
    (onSessionConnected_clearScreen plainBuild
      (TerminalTab.onSessionOutput plainBuild
        (TerminalTab.create plainBuild true 100 30 8 16).1 [0x41]).1).2.1 (by decide)⟩

/-- C19: in every state of a tab, a `connectProfile` call emits one
`profileConnected` for every `connected` signal of its session (there is at most
one), and it carries the profile passed to that call; and no other operation on
the tab (a resize, a change of theme, a poll tick, a key press) makes the session
emit `connected` or the tab emit `profileConnected`. -/
theorem connectProfile_profileConnected (b : Build) (tab : TerminalTab) :
    (∀ p promptKeyPass fileExists dialog o,
      profilesConnected (tab.connectProfile b p promptKeyPass fileExists dialog o).2 =
        List.replicate
          (sessionConnectedCount (tab.connectProfile b p promptKeyPass fileExists dialog o).2) p ∧
      sessionConnectedCount (tab.connectProfile b p promptKeyPass fileExists dialog o).2 ≤ 1) ∧
    (∀ w h, sessionConnectedCount (tab.updateSize b w h).2 = 0 ∧
      profilesConnected (tab.updateSize b w h).2 = []) ∧
    (∀ fmWidth fmHeight visible w h,
      sessionConnectedCount (tab.applyTheme b fmWidth fmHeight visible w h).2 = 0 ∧
      profilesConnected (tab.applyTheme b fmWidth fmHeight visible w h).2 = []) ∧
    (∀ o, sessionConnectedCount (tab.pollTick b o).2 = 0 ∧
      profilesConnected (tab.pollTick b o).2 = []) ∧
    (∀ event clipboard, sessionConnectedCount (tab.keyPress b event clipboard).2 = 0 ∧
      profilesConnected (tab.keyPress b event clipboard).2 = []) := by
  refine ⟨?_, ?_, ?_, ?_, ?_⟩
  · intro p promptKeyPass fileExists dialog o
    by_cases h1 : (decide (promptKeyPass = true ∧ trimmed p.keyPath ≠ "" ∧ fileExists = true)
        = true ∧ dialog.ok = false)
    · simp [TerminalTab.connectProfile, h1, profilesConnected, sessionConnectedCount]
    · simp only [TerminalTab.connectProfile, h1, if_false, profilesConnected,
        sessionConnectedCount]
      exact connect_dispatch b tab p _ o
  · intro w h
    exact forward_spec b _ _
  · intro fmWidth fmHeight visible w h
    exact forward_spec b _ _
  · intro o
    have hd := dispatch_spec b (tab.session_.pollTimerTimeout o).2
      { tab with session_ := (tab.session_.pollTimerTimeout o).1 }
    simp only [pollTimerTimeout_connected_count] at hd
    simp [TerminalTab.pollTick, TerminalTab.callSession, hd]
  · intro event clipboard
    exact forward_spec b _ _

/-- C19 at a sample input: a successful connect of a profile on a new tab emits
one `profileConnected`, with that profile. -/
theorem connectProfile_profileConnected_witness :
    sessionConnectedCount
      ((TerminalTab.create vtermBuild true 100 30 8 16).1.connectProfile vtermBuild sampleProfile
        true false { ok := true, text := "" } sampleOutcome).2 = 1 ∧
    profilesConnected
      ((TerminalTab.create vtermBuild true 100 30 8 16).1.connectProfile vtermBuild sampleProfile
        true false { ok := true, text := "" } sampleOutcome).2 =
      List.replicate
        (sessionConnectedCount
          ((TerminalTab.create vtermBuild true 100 30 8 16).1.connectProfile vtermBuild
            sampleProfile true false { ok := true, text := "" } sampleOutcome).2) sampleProfile :=
  ⟨by decide,
    ((connectProfile_profileConnected vtermBuild
      (TerminalTab.create vtermBuild true 100 30 8 16).1).1 sampleProfile true false
        { ok := true, text := "" } sampleOutcome).1⟩

/-! ## Claims about the key encoder -/

/-- C20: for every key event with Ctrl held that is no paste combination (not
Shift with key V, not Shift with key Insert), whatever its text and its other
modifiers: when the key is a letter `Key_A` to `Key_Z`, `handleKeyEvent` emits
exactly one `sendData` of the one byte `key - Key_A + 1`, which lies in 1 to 26,
and returns true; otherwise it emits nothing and returns false. -/
theorem handleKeyEvent_ctrl (event : QKeyEvent) (clipboard : Option String)
    (hctrl : event.modifiers.control = true)
    (hv : ¬ (event.modifiers.shift = true ∧ event.key = Key_V))
    (hins : ¬ (event.modifiers.shift = true ∧ event.key = Key_Insert)) :
    (Key_A ≤ event.key ∧ event.key ≤ Key_Z →
      TerminalWidget.handleKeyEvent event clipboard =
          ([TermAction.sendData [(event.key - Key_A + 1).toNat]], true) ∧
        1 ≤ (event.key - Key_A + 1).toNat ∧ (event.key - Key_A + 1).toNat ≤ 26 ∧
        ((event.key - Key_A + 1).toNat : Int) = event.key - 0x41 + 1) ∧
    (¬ (Key_A ≤ event.key ∧ event.key ≤ Key_Z) →
      TerminalWidget.handleKeyEvent event clipboard = ([], false)) := by
  have h1 : ¬ (event.modifiers.shift = true ∧ event.modifiers.control = true ∧
      event.key = Key_V) := fun h => hv ⟨h.1, h.2.2⟩
  constructor
  · intro hk
    have hA : event.key ≥ Key_A ∧ event.key ≤ Key_Z := hk
    have hb : TerminalWidget.keyBytes event = [(event.key - Key_A + 1).toNat] := by
      simp [TerminalWidget.keyBytes, hctrl, hA]
    refine ⟨?_, ?_, ?_, ?_⟩
    · simp [TerminalWidget.handleKeyEvent, h1, hins, hb]
    · simp only [Key_A, Key_Z] at hk ⊢; omega
    · simp only [Key_A, Key_Z] at hk ⊢; omega
    · simp only [Key_A, Key_Z] at hk ⊢; omega
  · intro hk
    have hA : ¬ (event.key ≥ Key_A ∧ event.key ≤ Key_Z) := hk
    have hb : TerminalWidget.keyBytes event = [] := by
      simp only [TerminalWidget.keyBytes, hctrl, if_true, hA, if_false]
    simp [TerminalWidget.handleKeyEvent, h1, hins, hb]

/-- C20 at sample inputs: Ctrl with `A` sends the byte 1, with the text of the
event ignored; Ctrl with Enter sends nothing and is not handled. -/
theorem handleKeyEvent_ctrl_witness :
    TerminalWidget.handleKeyEvent
        { modifiers := { shift := false, control := true, alt := false, meta := false,
                         keypad := false },
          key := Key_A, text := "\x01" } none =
      ([TermAction.sendData [1]], true) ∧
    TerminalWidget.handleKeyEvent
        { modifiers := { shift := false, control := true, alt := false, meta := false,
                         keypad := false },
          key := Key_Enter, text := "\r" } (some "pasted") =
      ([], false) :=
  ⟨((handleKeyEvent_ctrl
      { modifiers := { shift := false, control := true, alt := false, meta := false,
                       keypad := false },
        key := Key_A, text := "\x01" } none rfl (by decide) (by decide)).1 (by decide)).1,
   (handleKeyEvent_ctrl
      { modifiers := { shift := false, control := true, alt := false, meta := false,
                       keypad := false },
        key := Key_Enter, text := "\r" } (some "pasted") rfl (by decide) (by decide)).2
      (by decide)⟩


/-! ## Facts about the key encoder -/

theorem utf8EncodeChar_ne_nil (c : Char) : String.utf8EncodeChar c ≠ [] := by
  unfold String.utf8EncodeChar
  simp only []
  split_ifs <;> simp

theorem toUtf8_eq_nil (s : String) : toUtf8 s = [] ↔ s = "" := by
  rcases s with ⟨l⟩
  cases l with
  | nil => simp [toUtf8]
  | cons c l =>
    have h := utf8EncodeChar_ne_nil c
    simp [toUtf8, h]
    intro hs
    have := congrArg String.data hs
    simp at this

theorem handleKeyEvent_of_not_paste (event : QKeyEvent) (clipboard : Option String)
    (hp : event.isPaste = false) :
    TerminalWidget.handleKeyEvent event clipboard =
      if TerminalWidget.keyBytes event ≠ [] then
        ([TermAction.sendData (TerminalWidget.keyBytes event)], true)
      else ([], false) := by
  have h1 : ¬ (event.modifiers.shift = true ∧ event.modifiers.control = true ∧
      event.key = Key_V) := by
    intro h
    simp [QKeyEvent.isPaste, h] at hp
  have h2 : ¬ (event.modifiers.shift = true ∧ event.key = Key_Insert) := by
    intro h
    simp [QKeyEvent.isPaste, h] at hp
  simp only [TerminalWidget.handleKeyEvent, h1, h2, if_false]

theorem handleKeyEvent_of_paste (event : QKeyEvent) (clipboard : Option String)
    (hp : event.isPaste = true) :
    TerminalWidget.handleKeyEvent event clipboard =
      (TerminalWidget.pasteFromClipboard clipboard, true) := by
  simp only [QKeyEvent.isPaste, Bool.decide_and, Bool.or_eq_true, Bool.and_eq_true,
    decide_eq_true_eq, Bool.decide_eq_true] at hp
  rcases hp with h | h
  · simp [TerminalWidget.handleKeyEvent, h.1, h.2.1, h.2.2]
  · by_cases h1 : event.modifiers.shift = true ∧ event.modifiers.control = true ∧
        event.key = Key_V
    · simp [TerminalWidget.handleKeyEvent, h1.1, h1.2.1, h1.2.2]
    · simp only [TerminalWidget.handleKeyEvent, h1, if_false]
      simp [h.1, h.2]

theorem keyBytes_named (event : QKeyEvent) (hctrl : event.modifiers.control = false) :
    (event.key = Key_Backspace → TerminalWidget.keyBytes event = [0x7f]) ∧
    (event.key = Key_Return → TerminalWidget.keyBytes event = [0x0d]) ∧
    (event.key = Key_Enter → TerminalWidget.keyBytes event = [0x0d]) ∧
    (event.key = Key_Tab → TerminalWidget.keyBytes event = [0x09]) ∧
    (event.key = Key_Escape → TerminalWidget.keyBytes event = [0x1b]) ∧
    (event.key = Key_Space → TerminalWidget.keyBytes event = [0x20]) ∧
    (event.key = Key_Up → TerminalWidget.keyBytes event = [0x1b, 0x5b, 0x41]) ∧
    (event.key = Key_Down → TerminalWidget.keyBytes event = [0x1b, 0x5b, 0x42]) ∧
    (event.key = Key_Right → TerminalWidget.keyBytes event = [0x1b, 0x5b, 0x43]) ∧
    (event.key = Key_Left → TerminalWidget.keyBytes event = [0x1b, 0x5b, 0x44]) ∧
    (event.key = Key_Home → TerminalWidget.keyBytes event = [0x1b, 0x5b, 0x48]) ∧
    (event.key = Key_End → TerminalWidget.keyBytes event = [0x1b, 0x5b, 0x46]) ∧
    (event.key = Key_Delete → TerminalWidget.keyBytes event = [0x1b, 0x5b, 0x33, 0x7e]) := by
  refine ⟨?_, ?_, ?_, ?_, ?_, ?_, ?_, ?_, ?_, ?_, ?_, ?_, ?_⟩ <;> intro h <;>
  simp [TerminalWidget.keyBytes, hctrl, h, Key_Backspace, Key_Return, Key_Enter, Key_Tab,
    Key_Escape, Key_Space, Key_Up, Key_Down, Key_Right, Key_Left, Key_Home, Key_End, Key_Delete]

theorem named_not_paste (event : QKeyEvent) (h : event.key ∈ namedKeys) :
    event.isPaste = false := by
  have hv : event.key ≠ Key_V := by
    intro hk
    rw [hk] at h
    simp [namedKeys, Key_V, Key_Backspace, Key_Return, Key_Enter, Key_Tab,
      Key_Escape, Key_Space, Key_Up, Key_Down, Key_Right, Key_Left, Key_Home, Key_End,
      Key_Delete] at h
  have hi : event.key ≠ Key_Insert := by
    intro hk
    rw [hk] at h
    simp [namedKeys, Key_Insert, Key_Backspace, Key_Return, Key_Enter, Key_Tab,
      Key_Escape, Key_Space, Key_Up, Key_Down, Key_Right, Key_Left, Key_Home, Key_End,
      Key_Delete] at h
  simp [QKeyEvent.isPaste, hv, hi]

theorem handleKeyEvent_fixed (event : QKeyEvent) (clipboard : Option String)
    (hkey : event.key ∈ namedKeys) (bytes : QByteArray)
    (hb : TerminalWidget.keyBytes event = bytes) (hne : bytes ≠ []) :
    TerminalWidget.handleKeyEvent event clipboard = ([TermAction.sendData bytes], true) := by
  rw [handleKeyEvent_of_not_paste event clipboard (named_not_paste event hkey), hb]
  simp [hne]

/-! ## Claims about the key encoder, continued -/

/-- C21: for every key event without Ctrl, whatever its text, its other
modifiers and the clipboard: when its key is one of the named keys, the event
is no paste combination and `handleKeyEvent` emits exactly one `sendData` with
the fixed bytes of the key and returns true: Backspace 7F, Return and Enter 0D,
Tab 09, Escape 1B, Space 20, Up, Down, Right, Left `ESC [` and A, B, C, D, Home
`ESC [ H`, End `ESC [ F`, Delete `ESC [ 3 ~`. -/
theorem handleKeyEvent_named (event : QKeyEvent) (clipboard : Option String)
    (hctrl : event.modifiers.control = false) :
    (event.key ∈ namedKeys → event.isPaste = false) ∧
    (event.key = Key_Backspace →
      TerminalWidget.handleKeyEvent event clipboard = ([TermAction.sendData [0x7f]], true)) ∧
    (event.key = Key_Return ∨ event.key = Key_Enter →
      TerminalWidget.handleKeyEvent event clipboard = ([TermAction.sendData [0x0d]], true)) ∧
    (event.key = Key_Tab →
      TerminalWidget.handleKeyEvent event clipboard = ([TermAction.sendData [0x09]], true)) ∧
    (event.key = Key_Escape →
      TerminalWidget.handleKeyEvent event clipboard = ([TermAction.sendData [0x1b]], true)) ∧
    (event.key = Key_Space →
      TerminalWidget.handleKeyEvent event clipboard = ([TermAction.sendData [0x20]], true)) ∧
    (event.key = Key_Up →
      TerminalWidget.handleKeyEvent event clipboard =
        ([TermAction.sendData [0x1b, 0x5b, 0x41]], true)) ∧
    (event.key = Key_Down →
      TerminalWidget.handleKeyEvent event clipboard =
        ([TermAction.sendData [0x1b, 0x5b, 0x42]], true)) ∧
    (event.key = Key_Right →
      TerminalWidget.handleKeyEvent event clipboard =
        ([TermAction.sendData [0x1b, 0x5b, 0x43]], true)) ∧
    (event.key = Key_Left →
      TerminalWidget.handleKeyEvent event clipboard =
        ([TermAction.sendData [0x1b, 0x5b, 0x44]], true)) ∧
    (event.key = Key_Home →
      TerminalWidget.handleKeyEvent event clipboard =
        ([TermAction.sendData [0x1b, 0x5b, 0x48]], true)) ∧
    (event.key = Key_End →
      TerminalWidget.handleKeyEvent event clipboard =
        ([TermAction.sendData [0x1b, 0x5b, 0x46]], true)) ∧
    (event.key = Key_Delete →
      TerminalWidget.handleKeyEvent event clipboard =
        ([TermAction.sendData [0x1b, 0x5b, 0x33, 0x7e]], true)) := by
  have hb := keyBytes_named event hctrl
  refine ⟨named_not_paste event, ?_, ?_, ?_, ?_, ?_, ?_, ?_, ?_, ?_, ?_, ?_, ?_⟩
  · exact fun h => handleKeyEvent_fixed event clipboard (by simp [namedKeys, h]) _ (hb.1 h)
      (by simp)
  · intro h
    rcases h with h | h
    · exact handleKeyEvent_fixed event clipboard (by simp [namedKeys, h]) _ (hb.2.1 h) (by simp)
    · exact handleKeyEvent_fixed event clipboard (by simp [namedKeys, h]) _ (hb.2.2.1 h)
        (by simp)
  · exact fun h => handleKeyEvent_fixed event clipboard (by simp [namedKeys, h]) _
      (hb.2.2.2.1 h) (by simp)
  · exact fun h => handleKeyEvent_fixed event clipboard (by simp [namedKeys, h]) _
      (hb.2.2.2.2.1 h) (by simp)
  · exact fun h => handleKeyEvent_fixed event clipboard (by simp [namedKeys, h]) _
      (hb.2.2.2.2.2.1 h) (by simp)
  · exact fun h => handleKeyEvent_fixed event clipboard (by simp [namedKeys, h]) _
      (hb.2.2.2.2.2.2.1 h) (by simp)
  · exact fun h => handleKeyEvent_fixed event clipboard (by simp [namedKeys, h]) _
      (hb.2.2.2.2.2.2.2.1 h) (by simp)
  · exact fun h => handleKeyEvent_fixed event clipboard (by simp [namedKeys, h]) _
      (hb.2.2.2.2.2.2.2.2.1 h) (by simp)
  · exact fun h => handleKeyEvent_fixed event clipboard (by simp [namedKeys, h]) _
      (hb.2.2.2.2.2.2.2.2.2.1 h) (by simp)
  · exact fun h => handleKeyEvent_fixed event clipboard (by simp [namedKeys, h]) _
      (hb.2.2.2.2.2.2.2.2.2.2.1 h) (by simp)
  · exact fun h => handleKeyEvent_fixed event clipboard (by simp [namedKeys, h]) _
      (hb.2.2.2.2.2.2.2.2.2.2.2.1 h) (by simp)
  · exact fun h => handleKeyEvent_fixed event clipboard (by simp [namedKeys, h]) _
      (hb.2.2.2.2.2.2.2.2.2.2.2.2 h) (by simp)

/-- C21 at a sample input: Shift and Alt with the key Left and a text of its own
sends `ESC [ D`. -/
theorem handleKeyEvent_named_witness :
    TerminalWidget.handleKeyEvent
        { modifiers := { shift := true, control := false, alt := true, meta := false,
                         keypad := false },
          key := Key_Left, text := "x" } (some "pasted") =
      ([TermAction.sendData [0x1b, 0x5b, 0x44]], true) :=
  (handleKeyEvent_named
    { modifiers := { shift := true, control := false, alt := true, meta := false,
                     keypad := false },
      key := Key_Left, text := "x" } (some "pasted") rfl).2.2.2.2.2.2.2.2.2.1 rfl

/-- C22: for every key event that is a paste combination (Shift and Ctrl with the
key V, or Shift with the key Insert, whatever the other modifiers and the text),
`handleKeyEvent` returns true and what it sends is decided by the clipboard
alone: one `sendData` with the UTF-8 bytes of the clipboard text when there is a
clipboard and its text is not empty, nothing otherwise; no bytes are encoded
from the key. -/
theorem handleKeyEvent_paste (event : QKeyEvent) (clipboard : Option String)
    (hp : (event.modifiers.shift = true ∧ event.modifiers.control = true ∧ event.key = Key_V) ∨
      (event.modifiers.shift = true ∧ event.key = Key_Insert)) :
    (TerminalWidget.handleKeyEvent event clipboard).2 = true ∧
    (∀ text, clipboard = some text → text ≠ "" →
      (TerminalWidget.handleKeyEvent event clipboard).1 = [TermAction.sendData (toUtf8 text)]) ∧
    (clipboard = none ∨ clipboard = some "" →
      (TerminalWidget.handleKeyEvent event clipboard).1 = []) ∧
    (∀ a ∈ (TerminalWidget.handleKeyEvent event clipboard).1,
      ∃ text, clipboard = some text ∧ a = TermAction.sendData (toUtf8 text)) := by
  have hp2 : event.isPaste = true := by
    rcases hp with h | h
    · simp [QKeyEvent.isPaste, h.1, h.2.1, h.2.2]
    · simp [QKeyEvent.isPaste, h.1, h.2]
  rw [handleKeyEvent_of_paste event clipboard hp2]
  refine ⟨rfl, ?_, ?_, ?_⟩
  · intro text hc ht
    simp [TerminalWidget.pasteFromClipboard, hc, ht]
  · intro hc
    rcases hc with hc | hc <;> simp [TerminalWidget.pasteFromClipboard, hc]
  · intro a ha
    cases clipboard with
    | none => simp [TerminalWidget.pasteFromClipboard] at ha
    | some text =>
      by_cases ht : text = ""
      · simp [TerminalWidget.pasteFromClipboard, ht] at ha
      · simp [TerminalWidget.pasteFromClipboard, ht] at ha
        exact ⟨text, rfl, ha⟩

/-- C22 at a sample input: Shift, Ctrl and V with the clipboard text `ls` sends
the two bytes of `ls`, not the byte 16 of Ctrl with V. -/
theorem handleKeyEvent_paste_witness :
    (TerminalWidget.handleKeyEvent
        { modifiers := { shift := true, control := true, alt := false, meta := false,
                         keypad := false },
          key := Key_V, text := "\x16" } (some "ls")).1 = [TermAction.sendData (toUtf8 "ls")] ∧
    toUtf8 "ls" = [0x6c, 0x73] :=
  ⟨(handleKeyEvent_paste
      { modifiers := { shift := true, control := true, alt := false, meta := false,
                       keypad := false },
        key := Key_V, text := "\x16" } (some "ls") (Or.inl ⟨rfl, rfl, rfl⟩)).2.1 "ls" rfl
      (by decide),
   by decide⟩

/-- C23: for every key event without Ctrl whose key is no named key and that is
no paste combination, the bytes encoded are the UTF-8 bytes of the text of the
event: with a non-empty text `handleKeyEvent` sends them in one `sendData` and
returns true, with an empty text it sends nothing and returns false. And for
every key event that is no paste combination, `handleKeyEvent` sends the encoded
bytes and returns true if they are not empty, and sends nothing and returns
false if they are; for every key event at all it returns true exactly when the
encoded bytes are not empty or the event is a paste combination. -/
theorem handleKeyEvent_text (event : QKeyEvent) (clipboard : Option String) :
    (event.modifiers.control = false → event.key ∉ namedKeys → event.isPaste = false →
      TerminalWidget.keyBytes event = toUtf8 event.text ∧
      (event.text ≠ "" → TerminalWidget.handleKeyEvent event clipboard =
        ([TermAction.sendData (toUtf8 event.text)], true)) ∧
      (event.text = "" → TerminalWidget.handleKeyEvent event clipboard = ([], false))) ∧
    (event.isPaste = false →
      TerminalWidget.handleKeyEvent event clipboard =
        if TerminalWidget.keyBytes event ≠ [] then
          ([TermAction.sendData (TerminalWidget.keyBytes event)], true)
        else ([], false)) ∧
    ((TerminalWidget.handleKeyEvent event clipboard).2 = true ↔
      TerminalWidget.keyBytes event ≠ [] ∨ event.isPaste = true) := by
  refine ⟨?_, handleKeyEvent_of_not_paste event clipboard, ?_⟩
  · intro hctrl hkey hp
    have hb : TerminalWidget.keyBytes event = toUtf8 event.text := by
      simp only [namedKeys, List.mem_cons, List.mem_singleton, List.not_mem_nil, or_false,
        not_or] at hkey
      simp [TerminalWidget.keyBytes, hctrl, hkey]
    refine ⟨hb, ?_, ?_⟩
    · intro ht
      have hne : toUtf8 event.text ≠ [] := fun h => ht ((toUtf8_eq_nil _).mp h)
      rw [handleKeyEvent_of_not_paste event clipboard hp, hb]
      simp [hne]
    · intro ht
      rw [handleKeyEvent_of_not_paste event clipboard hp, hb]
      simp [(toUtf8_eq_nil _).mpr ht]
  · cases hp : event.isPaste
    · rw [handleKeyEvent_of_not_paste event clipboard hp]
      by_cases hb : TerminalWidget.keyBytes event = [] <;> simp [hb]
    · rw [handleKeyEvent_of_paste event clipboard hp]
      simp

/-- C23 at sample inputs: the key `é` without Ctrl sends the two UTF-8 bytes of
its text; the key Insert alone, with no text, sends nothing and is not handled. -/
theorem handleKeyEvent_text_witness :
    TerminalWidget.handleKeyEvent
        { modifiers := { shift := false, control := false, alt := false, meta := false,
                         keypad := false },
          key := 0xc9, text := "é" } none = ([TermAction.sendData (toUtf8 "é")], true) ∧
    toUtf8 "é" = [0xc3, 0xa9] ∧
    TerminalWidget.handleKeyEvent
        { modifiers := { shift := false, control := false, alt := false, meta := false,
                         keypad := false },
          key := Key_Insert, text := "" } (some "pasted") = ([], false) :=
  ⟨((handleKeyEvent_text
      { modifiers := { shift := false, control := false, alt := false, meta := false,
                       keypad := false },
        key := 0xc9, text := "é" } none).1 rfl (by decide) (by decide)).2.1 (by decide),
   by decide,
   ((handleKeyEvent_text
      { modifiers := { shift := false, control := false, alt := false, meta := false,
                       keypad := false },
        key := Key_Insert, text := "" } (some "pasted")).1 rfl (by decide) (by decide)).2.2 rfl⟩

/-! ## Facts about the selection -/

theorem mem_intRange (lo hi x : Int) : x ∈ intRange lo hi ↔ lo ≤ x ∧ x ≤ hi := by
  simp only [intRange, List.mem_map, List.mem_range]
  constructor
  · rintro ⟨i, hi1, rfl⟩
    omega
  · rintro ⟨h1, h2⟩
    exact ⟨(x - lo).toNat, by omega, by omega⟩

theorem intRange_eq_map (lo hi : Int) (n : Nat) (h : hi + 1 - lo = (n : Int)) :
    intRange lo hi = (List.range n).map (fun (i : Nat) => lo + (i : Int)) := by
  simp [intRange, h]

theorem normalized_comm (p q : VTermPos) :
    TerminalWidget.normalized p q = TerminalWidget.normalized q p := by
  rcases p with ⟨pr, pc⟩
  rcases q with ⟨qr, qc⟩
  by_cases h1 : qr < pr ∨ (qr = pr ∧ qc < pc) <;>
  by_cases h2 : pr < qr ∨ (pr = qr ∧ pc < qc)
  · omega
  · simp [TerminalWidget.normalized, TerminalWidget.before, h1, h2]
  · simp [TerminalWidget.normalized, TerminalWidget.before, h1, h2]
  · have hr : pr = qr := by omega
    have hc : pc = qc := by omega
    subst hr hc
    rfl

theorem normalized_of_le (a b : VTermPos) (h : a.le b) : TerminalWidget.normalized a b = (a, b) := by
  have h1 : ¬ (b.row < a.row ∨ (b.row = a.row ∧ b.col < a.col)) := by
    unfold VTermPos.le at h
    omega
  simp [TerminalWidget.normalized, TerminalWidget.before, h1]

theorem selectedText_comm (t : TerminalWidget) (s1 s2 : Bool) (p q : VTermPos) :
    TerminalWidget.selectedText t { selecting_ := s1, selStart_ := p, selEnd_ := q } =
      TerminalWidget.selectedText t { selecting_ := s2, selStart_ := q, selEnd_ := p } := by
  simp only [TerminalWidget.selectedText, normalized_comm p q]

theorem withoutTrailingSpaces_eq (l : List Nat) :
    TerminalWidget.withoutTrailingSpaces l =
      l.take (l.length - (l.reverse.takeWhile (fun ch => ch = 0x20)).length) := by
  have h := List.takeWhile_append_dropWhile (fun ch : Nat => decide (ch = 0x20)) l.reverse
  have hl : l = (l.reverse.dropWhile (fun ch => decide (ch = 0x20))).reverse ++
      (l.reverse.takeWhile (fun ch => decide (ch = 0x20))).reverse := by
    rw [← List.reverse_append, h, List.reverse_reverse]
  have hlen : l.length - (l.reverse.takeWhile (fun ch => decide (ch = 0x20))).length =
      ((l.reverse.dropWhile (fun ch => decide (ch = 0x20))).reverse).length := by
    have := congrArg List.length h
    simp only [List.length_append, List.length_reverse] at this ⊢
    omega
  unfold TerminalWidget.withoutTrailingSpaces
  rw [hlen]
  conv_rhs => rw [hl]
  simp

theorem withoutTrailingSpaces_getLast (l : List Nat) :
    (TerminalWidget.withoutTrailingSpaces l).getLast? ≠ some 0x20 := by
  unfold TerminalWidget.withoutTrailingSpaces
  rw [List.getLast?_reverse]
  have h := List.head?_dropWhile_not (fun ch : Nat => decide (ch = 0x20)) l.reverse
  intro hx
  rw [hx] at h
  simp at h

theorem withoutTrailingSpaces_blank (l : List Nat) (h : ∀ x ∈ l, x = 0x20) :
    TerminalWidget.withoutTrailingSpaces l = [] := by
  unfold TerminalWidget.withoutTrailingSpaces
  rw [List.reverse_eq_nil_iff, List.dropWhile_eq_nil_iff]
  intro x hx
  simpa using h x (List.mem_reverse.mp hx)

theorem cellText_eq_glyph (vt : VTerm) (r c : Int) (h : VTermPos.inBounds vt { row := r, col := c }) :
    TerminalWidget.cellText vt { row := r, col := c } = glyph vt r c := by
  have h1 : 0 ≤ r ∧ r < vt.rows ∧ 0 ≤ c ∧ c < vt.cols := h
  simp only [TerminalWidget.cellText, vterm_screen_get_cell, h1, and_self, if_true, glyph]

/-! ## Claims about the selection -/

/-- C24: for every terminal (every grid, with or without libvterm object), every
two positions `p` and `q`, on the screen or not, and whether or not a drag is in
progress, `selectedText` with start `p` and end `q` equals `selectedText` with
start `q` and end `p`. -/
theorem selectedText_symmetric (t : TerminalWidget) (selecting_ : Bool) (p q : VTermPos) :
    TerminalWidget.selectedText t { selecting_ := selecting_, selStart_ := p, selEnd_ := q } =
      TerminalWidget.selectedText t { selecting_ := selecting_, selStart_ := q, selEnd_ := p } :=
  selectedText_comm t selecting_ selecting_ p q

theorem span_text (vt : VTerm) (r c0 c1 : Int) (hr : 0 ≤ r ∧ r < vt.rows)
    (h0 : 0 ≤ c0) (h01 : c0 ≤ c1) (h1 : c1 < vt.cols) :
    (if c0 > c1 then intRange c1 (min c0 (vt.cols - 1))
      else intRange c0 (min c1 (vt.cols - 1))).map
        (fun c => TerminalWidget.cellText vt { row := r, col := c }) =
      (List.range (c1 + 1 - c0).toNat).map (fun (i : Nat) => glyph vt r (c0 + (i : Int))) := by
  have hn : ¬ (c0 > c1) := by omega
  have hm : min c1 (vt.cols - 1) = c1 := min_eq_left (by omega)
  simp only [hn, if_false, hm, intRange, List.map_map]
  apply List.map_congr_left
  intro i hi
  have hi2 : i < (c1 + 1 - c0).toNat := List.mem_range.mp hi
  have hc : 0 ≤ c0 + (i : Int) ∧ c0 + (i : Int) < vt.cols := by omega
  exact cellText_eq_glyph vt r (c0 + (i : Int)) ⟨hr.1, hr.2, hc.1, hc.2⟩

theorem describedLine_eq (vt : VTerm) (a b : VTermPos) (r : Int) :
    describedLine vt a b r =
      TerminalWidget.withoutTrailingSpaces
        ((List.range ((if r = b.row then b.col else vt.cols - 1) + 1 -
            (if r = a.row then a.col else 0)).toNat).map
          (fun (i : Nat) => glyph vt r ((if r = a.row then a.col else 0) + (i : Int)))) := by
  simp only [describedLine, withoutTrailingSpaces_eq]

theorem selectedLine_eq_described (vt : VTerm) (a b : VTermPos) (r : Int)
    (ha : a.inBounds vt) (hb : b.inBounds vt) (hab : a.le b) (hr : a.row ≤ r ∧ r ≤ b.row) :
    TerminalWidget.selectedLine vt a b r = describedLine vt a b r := by
  have hA : 0 ≤ a.row ∧ a.row < vt.rows ∧ 0 ≤ a.col ∧ a.col < vt.cols := ha
  have hB : 0 ≤ b.row ∧ b.row < vt.rows ∧ 0 ≤ b.col ∧ b.col < vt.cols := hb
  have hle : a.row < b.row ∨ (a.row = b.row ∧ a.col ≤ b.col) := hab
  rw [describedLine_eq]
  simp only [TerminalWidget.selectedLine, TerminalWidget.selectedCols]
  rw [span_text vt r _ _ ⟨by omega, by omega⟩ (by split_ifs <;> omega)
    (by split_ifs <;> omega) (by split_ifs <;> omega)]

theorem selectedText_eq_described (t : TerminalWidget) (vt : VTerm) (selecting_ : Bool)
    (a b : VTermPos) (hvt : t.vterm_ = some vt) (ha : a.inBounds vt) (hb : b.inBounds vt)
    (hab : a.le b) :
    TerminalWidget.selectedText t { selecting_ := selecting_, selStart_ := a, selEnd_ := b } =
      describedText vt a b := by
  have hA : 0 ≤ a.row ∧ a.row < vt.rows ∧ 0 ≤ a.col ∧ a.col < vt.cols := ha
  have hB : 0 ≤ b.row ∧ b.row < vt.rows ∧ 0 ≤ b.col ∧ b.col < vt.cols := hb
  have hle : a.row < b.row ∨ (a.row = b.row ∧ a.col ≤ b.col) := hab
  have hsize : ¬ (vt.rows ≤ 0 ∨ vt.cols ≤ 0) := by omega
  have hm : min b.row (vt.rows - 1) = b.row := min_eq_left (by omega)
  simp only [TerminalWidget.selectedText, hvt, hsize, if_false, normalized_of_le a b hab,
    TerminalWidget.selectedRows, hm, describedText]
  rw [intRange_eq_map a.row b.row (b.row - a.row + 1).toNat (by omega), List.map_map]
  congr 1
  apply List.map_congr_left
  intro i hi
  have hi2 : i < (b.row - a.row + 1).toNat := List.mem_range.mp hi
  exact selectedLine_eq_described vt a b (a.row + (i : Int)) ha hb hab ⟨by omega, by omega⟩

/-- C24 at the sample input of the specification: on the sample screen, start at
row 2, column 5 with end at row 1, column 0 gives the same text as start at row
1, column 0 with end at row 2, column 5, namely `c`, two blanks, `d` and a line
break. -/
theorem selectedText_symmetric_witness :
    TerminalWidget.selectedText sampleTerminal
        { selecting_ := false, selStart_ := { row := 2, col := 5 },
          selEnd_ := { row := 1, col := 0 } } =
      TerminalWidget.selectedText sampleTerminal
        { selecting_ := false, selStart_ := { row := 1, col := 0 },
          selEnd_ := { row := 2, col := 5 } } ∧
    TerminalWidget.selectedText sampleTerminal
        { selecting_ := false, selStart_ := { row := 1, col := 0 },
          selEnd_ := { row := 2, col := 5 } } = [0x63, 0x20, 0x20, 0x64, 0x0a] :=
  ⟨selectedText_symmetric sampleTerminal false { row := 2, col := 5 } { row := 1, col := 0 },
   by decide⟩

/-- C25: for every terminal with a libvterm object `vt` and every two positions
`a` and `b` on its screen with `a` before or at `b` in the order by row and
column, whichever of the two is the start of the selection, `selectedText` is
the text described: the `"\n"`-join of the lines of the rows `a.row` to `b.row`,
which are `b.row - a.row + 1` lines, the line of row `r` being the glyphs of
the columns `c0` to `c1` (`c0` is `a.col` in row `a.row` and 0 elsewhere, `c1`
is `b.col` in row `b.row` and `cols - 1` elsewhere), a blank cell read as a
space, without its trailing spaces. No such line ends in a space, and a line
whose span holds only blanks and spaces is empty. -/
theorem selectedText_spec (t : TerminalWidget) (vt : VTerm) (selecting_ : Bool) (a b : VTermPos)
    (hvt : t.vterm_ = some vt) (ha : a.inBounds vt) (hb : b.inBounds vt) (hab : a.le b) :
    TerminalWidget.selectedText t { selecting_ := selecting_, selStart_ := a, selEnd_ := b } =
      describedText vt a b ∧
    TerminalWidget.selectedText t { selecting_ := selecting_, selStart_ := b, selEnd_ := a } =
      describedText vt a b ∧
    ((b.row - a.row + 1).toNat : Int) = b.row - a.row + 1 ∧
    (∀ r : Int, (describedLine vt a b r).getLast? ≠ some 0x20) ∧
    (∀ r : Int,
      (∀ c : Int, (if r = a.row then a.col else 0) ≤ c →
        c ≤ (if r = b.row then b.col else vt.cols - 1) → glyph vt r c = 0x20) →
      describedLine vt a b r = []) := by
  have hA : 0 ≤ a.row ∧ a.row < vt.rows ∧ 0 ≤ a.col ∧ a.col < vt.cols := ha
  have hB : 0 ≤ b.row ∧ b.row < vt.rows ∧ 0 ≤ b.col ∧ b.col < vt.cols := hb
  have hle : a.row < b.row ∨ (a.row = b.row ∧ a.col ≤ b.col) := hab
  refine ⟨selectedText_eq_described t vt selecting_ a b hvt ha hb hab, ?_, by omega, ?_, ?_⟩
  · rw [selectedText_comm t selecting_ selecting_ b a]
    exact selectedText_eq_described t vt selecting_ a b hvt ha hb hab
  · intro r
    rw [describedLine_eq]
    exact withoutTrailingSpaces_getLast _
  · intro r hblank
    rw [describedLine_eq]
    apply withoutTrailingSpaces_blank
    intro x hx
    obtain ⟨i, hi, rfl⟩ := List.mem_map.mp hx
    have hi2 := List.mem_range.mp hi
    exact hblank _ (by omega) (by omega)

/-- C25 at a sample input: on the sample screen the selection from row 0, column
1 to row 1, column 3 is `b`, a line break, and `c`, two blanks and `d`; the
selection from row 0, column 2 to row 2, column 1 has an empty first and an
empty last line. -/
theorem selectedText_spec_witness :
    TerminalWidget.selectedText sampleTerminal
        { selecting_ := false, selStart_ := { row := 0, col := 1 },
          selEnd_ := { row := 1, col := 3 } } =
      describedText { rows := 3, cols := 4, cells := [[0x61, 0x62, 0, 0], [0x63, 0, 0, 0x64]],
                      internal := 0 } { row := 0, col := 1 } { row := 1, col := 3 } ∧
    TerminalWidget.selectedText sampleTerminal
        { selecting_ := false, selStart_ := { row := 0, col := 1 },
          selEnd_ := { row := 1, col := 3 } } = [0x62, 0x0a, 0x63, 0x20, 0x20, 0x64] ∧
    TerminalWidget.selectedText sampleTerminal
        { selecting_ := false, selStart_ := { row := 0, col := 2 },
          selEnd_ := { row := 2, col := 1 } } = [0x0a, 0x63, 0x20, 0x20, 0x64, 0x0a] :=
  ⟨(selectedText_spec sampleTerminal _ false { row := 0, col := 1 } { row := 1, col := 3 } rfl
      (by decide) (by decide) (by decide)).1,
   by decide, by decide⟩

/-- C26, the defect: on the sample screen, a press of the left button on the
cell in row 0 and column 0, which shows `a`, sets start and end to that cell;
the release, with no move in between, finds the selected text `a`, not the
empty text, and writes it to the clipboard. After the release `renderVTerm`
highlights no cell: it takes a selection with start equal to end for none. -/
theorem mouseReleaseEvent_click_copies :
    (TerminalWidget.mousePressEvent sampleTerminal TerminalWidget.initSelection
        MouseButton.LeftButton { x := 3, y := 5 } none).1 =
      { selecting_ := true, selStart_ := { row := 0, col := 0 },
        selEnd_ := { row := 0, col := 0 } } ∧
    TerminalWidget.selectedText sampleTerminal
        { selecting_ := false, selStart_ := { row := 0, col := 0 },
          selEnd_ := { row := 0, col := 0 } } = [0x61] ∧
    TerminalWidget.mouseReleaseEvent sampleTerminal
        (TerminalWidget.mousePressEvent sampleTerminal TerminalWidget.initSelection
          MouseButton.LeftButton { x := 3, y := 5 } none).1 MouseButton.LeftButton true true =
      ({ selecting_ := false, selStart_ := { row := 0, col := 0 },
         selEnd_ := { row := 0, col := 0 } },
        [{ text := [0x61], mode := ClipboardMode.Clipboard },
         { text := [0x61], mode := ClipboardMode.Selection }]) ∧
    TerminalWidget.highlighted sampleTerminal
        { selecting_ := false, selStart_ := { row := 0, col := 0 },
          selEnd_ := { row := 0, col := 0 } } 0 0 = false := by
  decide

theorem normalized_spec (p q : VTermPos) :
    (TerminalWidget.normalized p q).1.le (TerminalWidget.normalized p q).2 ∧
    ((TerminalWidget.normalized p q = (p, q)) ∨ (TerminalWidget.normalized p q = (q, p))) := by
  by_cases h : q.row < p.row ∨ (q.row = p.row ∧ q.col < p.col)
  · have : TerminalWidget.normalized p q = (q, p) := by
      simp [TerminalWidget.normalized, TerminalWidget.before, h]
    rw [this]
    refine ⟨?_, Or.inr rfl⟩
    show q.row < p.row ∨ (q.row = p.row ∧ q.col ≤ p.col)
    omega
  · have : TerminalWidget.normalized p q = (p, q) := by
      simp [TerminalWidget.normalized, TerminalWidget.before, h]
    rw [this]
    refine ⟨?_, Or.inl rfl⟩
    show p.row < q.row ∨ (p.row = q.row ∧ p.col ≤ q.col)
    omega

theorem mem_span (vt : VTerm) (a b : VTermPos) (r c : Int) (ha : a.inBounds vt)
    (hb : b.inBounds vt) (hab : a.le b) :
    (r ∈ TerminalWidget.selectedRows vt a b ∧ c ∈ TerminalWidget.selectedCols vt a b r) ↔
      (0 ≤ r ∧ r < vt.rows ∧ 0 ≤ c ∧ c < vt.cols) ∧
        (a.row < r ∨ (a.row = r ∧ a.col ≤ c)) ∧ (r < b.row ∨ (r = b.row ∧ c ≤ b.col)) := by
  have hA : 0 ≤ a.row ∧ a.row < vt.rows ∧ 0 ≤ a.col ∧ a.col < vt.cols := ha
  have hB : 0 ≤ b.row ∧ b.row < vt.rows ∧ 0 ≤ b.col ∧ b.col < vt.cols := hb
  have hle : a.row < b.row ∨ (a.row = b.row ∧ a.col ≤ b.col) := hab
  simp only [TerminalWidget.selectedRows, TerminalWidget.selectedCols, mem_intRange, min_def]
  by_cases hra : r = a.row <;> by_cases hrb : r = b.row <;>
  simp only [hra, hrb, if_true, if_false] <;> split_ifs <;>
  (try simp only [mem_intRange, true_and, false_and, or_false]) <;> omega

theorem inSel_iff (a b : VTermPos) (r c : Int) (hab : a.le b) :
    TerminalWidget.inSel a b r c = true ↔
      (a.row < r ∨ (a.row = r ∧ a.col ≤ c)) ∧ (r < b.row ∨ (r = b.row ∧ c ≤ b.col)) := by
  have hle : a.row < b.row ∨ (a.row = b.row ∧ a.col ≤ b.col) := hab
  unfold TerminalWidget.inSel
  split_ifs <;> simp <;> omega

theorem intRange_sorted (lo hi : Int) : (intRange lo hi).Sorted (· < ·) := by
  unfold intRange
  rw [List.Sorted, List.pairwise_map]
  exact (List.pairwise_lt_range _).imp (fun h => by omega)

theorem filter_intRange (lo hi lo2 hi2 : Int) (p : Int → Bool) (h1 : lo ≤ lo2) (h2 : hi2 ≤ hi)
    (hp : ∀ x, lo ≤ x → x ≤ hi → (p x = true ↔ lo2 ≤ x ∧ x ≤ hi2)) :
    (intRange lo hi).filter p = intRange lo2 hi2 := by
  apply List.eq_of_perm_of_sorted (r := (· < ·))
  · rw [List.perm_ext_iff_of_nodup ((intRange_sorted lo hi).nodup.filter _)
      (intRange_sorted lo2 hi2).nodup]
    intro x
    simp only [List.mem_filter, mem_intRange]
    constructor
    · rintro ⟨⟨hx1, hx2⟩, hpx⟩
      exact (hp x hx1 hx2).mp hpx
    · rintro ⟨hx1, hx2⟩
      exact ⟨⟨by omega, by omega⟩, (hp x (by omega) (by omega)).mpr ⟨hx1, hx2⟩⟩
  · exact (intRange_sorted lo hi).filter _
  · exact intRange_sorted lo2 hi2

theorem highlighted_iff (t : TerminalWidget) (vt : VTerm) (sel : Selection)
    (hvt : t.vterm_ = some vt) (hcw : 0 < t.cellWidth_) (hch : 0 < t.cellHeight_)
    (hshown : sel.selStart_ ≠ sel.selEnd_ ∨ sel.selecting_ = true) (r c : Int) :
    TerminalWidget.highlighted t sel r c = true ↔
      (0 ≤ r ∧ r < vt.rows ∧ 0 ≤ c ∧ c < vt.cols) ∧
        TerminalWidget.inSel (TerminalWidget.normalized sel.selStart_ sel.selEnd_).1
          (TerminalWidget.normalized sel.selStart_ sel.selEnd_).2 r c = true := by
  have hhas : (sel.selStart_.row ≠ sel.selEnd_.row ∨ sel.selStart_.col ≠ sel.selEnd_.col ∨
      sel.selecting_ = true) := by
    rcases hshown with h | h
    · by_cases hrow : sel.selStart_.row = sel.selEnd_.row
      · right; left
        intro hcol
        apply h
        rcases hse : sel.selStart_ with ⟨r1, c1⟩
        rcases hee : sel.selEnd_ with ⟨r2, c2⟩
        simp only [hse, hee] at hrow hcol
        simp [hrow, hcol]
      · exact Or.inl hrow
    · exact Or.inr (Or.inr h)
  have hcell : ¬ (t.cellWidth_ ≤ 0 ∨ t.cellHeight_ ≤ 0) := by omega
  simp only [TerminalWidget.highlighted, hvt, hcell, if_false, hhas, decide_True, true_and,
    TerminalWidget.normalized, vterm_screen_get_cell]
  constructor
  · intro h
    simp only [Bool.and_eq_true, decide_eq_true_eq] at h
    exact ⟨h.1, h.2.2⟩
  · intro h
    simp only [Bool.and_eq_true, decide_eq_true_eq]
    refine ⟨h.1, ?_, h.2⟩
    simp [h.1]

theorem selectedLine_eq_glyphs (vt : VTerm) (a b : VTermPos) (r : Int)
    (ha : a.inBounds vt) (hb : b.inBounds vt) (hab : a.le b) (hr : a.row ≤ r ∧ r ≤ b.row) :
    TerminalWidget.selectedLine vt a b r =
      TerminalWidget.withoutTrailingSpaces
        ((intRange (if r = a.row then a.col else 0)
            (if r = b.row then b.col else vt.cols - 1)).map (fun c => glyph vt r c)) := by
  have hA : 0 ≤ a.row ∧ a.row < vt.rows ∧ 0 ≤ a.col ∧ a.col < vt.cols := ha
  have hB : 0 ≤ b.row ∧ b.row < vt.rows ∧ 0 ≤ b.col ∧ b.col < vt.cols := hb
  have hle : a.row < b.row ∨ (a.row = b.row ∧ a.col ≤ b.col) := hab
  simp only [TerminalWidget.selectedLine, TerminalWidget.selectedCols]
  rw [span_text vt r _ _ ⟨by omega, by omega⟩ (by split_ifs <;> omega)
    (by split_ifs <;> omega) (by split_ifs <;> omega)]
  simp only [intRange, List.map_map]
  rfl

theorem selectedText_eq_highlightedText (t : TerminalWidget) (vt : VTerm) (sel : Selection)
    (hvt : t.vterm_ = some vt) (hcw : 0 < t.cellWidth_) (hch : 0 < t.cellHeight_)
    (hs : sel.selStart_.inBounds vt) (he : sel.selEnd_.inBounds vt)
    (hshown : sel.selStart_ ≠ sel.selEnd_ ∨ sel.selecting_ = true) :
    TerminalWidget.selectedText t sel = highlightedText t sel := by
  obtain ⟨hab, hor⟩ := normalized_spec sel.selStart_ sel.selEnd_
  have hbounds : (TerminalWidget.normalized sel.selStart_ sel.selEnd_).1.inBounds vt ∧
      (TerminalWidget.normalized sel.selStart_ sel.selEnd_).2.inBounds vt := by
    rcases hor with h | h <;> rw [h] <;> simp [hs, he]
  have hhl := fun r c => (highlighted_iff t vt sel hvt hcw hch hshown r c).trans
    (and_congr_right (fun _ => inSel_iff _ _ r c hab))
  have hsize0 : ¬ (vt.rows ≤ 0 ∨ vt.cols ≤ 0) := by
    have h0 : 0 ≤ sel.selStart_.row ∧ sel.selStart_.row < vt.rows ∧ 0 ≤ sel.selStart_.col ∧
      sel.selStart_.col < vt.cols := hs
    omega
  have hst : TerminalWidget.selectedText t sel =
      List.intercalate [0x0a]
        ((TerminalWidget.selectedRows vt (TerminalWidget.normalized sel.selStart_ sel.selEnd_).1
            (TerminalWidget.normalized sel.selStart_ sel.selEnd_).2).map
          (TerminalWidget.selectedLine vt
            (TerminalWidget.normalized sel.selStart_ sel.selEnd_).1
            (TerminalWidget.normalized sel.selStart_ sel.selEnd_).2)) := by
    simp only [TerminalWidget.selectedText, hvt, hsize0, if_false]
  rw [hst]
  clear hor hst
  generalize TerminalWidget.normalized sel.selStart_ sel.selEnd_ = ab at hab hbounds hhl ⊢
  obtain ⟨a, b⟩ := ab
  dsimp only at hhl
  have hA : 0 ≤ a.row ∧ a.row < vt.rows ∧ 0 ≤ a.col ∧ a.col < vt.cols := hbounds.1
  have hB : 0 ≤ b.row ∧ b.row < vt.rows ∧ 0 ≤ b.col ∧ b.col < vt.cols := hbounds.2
  have hle : a.row < b.row ∨ (a.row = b.row ∧ a.col ≤ b.col) := hab
  have hsize : ¬ (vt.rows ≤ 0 ∨ vt.cols ≤ 0) := by omega
  have hm : min b.row (vt.rows - 1) = b.row := min_eq_left (by omega)
  have hcols : ∀ r, a.row ≤ r → r ≤ b.row →
      (intRange 0 (vt.cols - 1)).filter (fun c => TerminalWidget.highlighted t sel r c) =
        intRange (if r = a.row then a.col else 0) (if r = b.row then b.col else vt.cols - 1) := by
    intro r hr1 hr2
    apply filter_intRange
    · split_ifs <;> omega
    · split_ifs <;> omega
    · intro c hc1 hc2
      rw [hhl r c]
      split_ifs <;> omega
  have hrows : (intRange 0 (vt.rows - 1)).filter
      (fun r => (intRange 0 (vt.cols - 1)).any
        (fun c => TerminalWidget.highlighted t sel r c)) = intRange a.row b.row := by
    apply filter_intRange
    · omega
    · omega
    · intro r hr1 hr2
      rw [List.any_eq_true]
      constructor
      · rintro ⟨c, _, hc⟩
        have := (hhl r c).mp hc
        omega
      · intro hr
        refine ⟨if r = a.row then a.col else 0, ?_, ?_⟩
        · rw [mem_intRange]
          split_ifs <;> omega
        · rw [hhl r _]
          split_ifs <;> omega
  simp only [highlightedText, hvt, hrows, TerminalWidget.selectedRows, hm]
  congr 1
  apply List.map_congr_left
  intro r hr
  have hr2 := (mem_intRange _ _ _).mp hr
  rw [selectedLine_eq_glyphs vt a b r hbounds.1 hbounds.2 hab hr2, withoutTrailingSpaces_eq,
    hcols r hr2.1 hr2.2]

/-- C29: for every terminal with a libvterm object and positive cell size (so
that `renderVTerm` paints), every start and end on its screen with a selection
shown (start and end differ, or a drag is in progress): `renderVTerm`
highlights a cell exactly when it is a cell of the screen and lies between the
normalized endpoints in the order by row and column, which for a cell of the
screen is what its `inSel` test says; these are the cells the two loops of
`selectedText` visit, row by row the columns from `c0` to `c1`; and the text
`selectedText` returns is the text of the highlighted cells, so the glyphs it
reads are those of the highlighted cells and no others. -/
theorem highlighted_iff_selected (t : TerminalWidget) (vt : VTerm) (sel : Selection)
    (hvt : t.vterm_ = some vt) (hcw : 0 < t.cellWidth_) (hch : 0 < t.cellHeight_)
    (hs : sel.selStart_.inBounds vt) (he : sel.selEnd_.inBounds vt)
    (hshown : sel.selStart_ ≠ sel.selEnd_ ∨ sel.selecting_ = true) :
    TerminalWidget.selectedText t sel = highlightedText t sel ∧
    (∀ r c : Int, TerminalWidget.highlighted t sel r c = true ↔
      r ∈ TerminalWidget.selectedRows vt
          (TerminalWidget.normalized sel.selStart_ sel.selEnd_).1
          (TerminalWidget.normalized sel.selStart_ sel.selEnd_).2 ∧
        c ∈ TerminalWidget.selectedCols vt
          (TerminalWidget.normalized sel.selStart_ sel.selEnd_).1
          (TerminalWidget.normalized sel.selStart_ sel.selEnd_).2 r) ∧
    (∀ r c : Int, TerminalWidget.highlighted t sel r c = true ↔
      VTermPos.inBounds vt { row := r, col := c } ∧
        (TerminalWidget.normalized sel.selStart_ sel.selEnd_).1.le { row := r, col := c } ∧
          VTermPos.le { row := r, col := c }
            (TerminalWidget.normalized sel.selStart_ sel.selEnd_).2) ∧
    (∀ r c : Int, VTermPos.inBounds vt { row := r, col := c } →
      (TerminalWidget.inSel (TerminalWidget.normalized sel.selStart_ sel.selEnd_).1
          (TerminalWidget.normalized sel.selStart_ sel.selEnd_).2 r c = true ↔
        (TerminalWidget.normalized sel.selStart_ sel.selEnd_).1.le { row := r, col := c } ∧
          VTermPos.le { row := r, col := c }
            (TerminalWidget.normalized sel.selStart_ sel.selEnd_).2)) ∧
    (∀ r c : Int, TerminalWidget.highlighted t sel r c = true ↔
      ((TerminalWidget.normalized sel.selStart_ sel.selEnd_).1.row ≤ r ∧
        r ≤ (TerminalWidget.normalized sel.selStart_ sel.selEnd_).2.row) ∧
      (if r = (TerminalWidget.normalized sel.selStart_ sel.selEnd_).1.row then
          (TerminalWidget.normalized sel.selStart_ sel.selEnd_).1.col else 0) ≤ c ∧
      c ≤ (if r = (TerminalWidget.normalized sel.selStart_ sel.selEnd_).2.row then
          (TerminalWidget.normalized sel.selStart_ sel.selEnd_).2.col else vt.cols - 1)) := by
  obtain ⟨hab, hor⟩ := normalized_spec sel.selStart_ sel.selEnd_
  have hbounds : (TerminalWidget.normalized sel.selStart_ sel.selEnd_).1.inBounds vt ∧
      (TerminalWidget.normalized sel.selStart_ sel.selEnd_).2.inBounds vt := by
    rcases hor with h | h <;> rw [h] <;> simp [hs, he]
  have hhl := highlighted_iff t vt sel hvt hcw hch hshown
  have hspan := fun r c => mem_span vt _ _ r c hbounds.1 hbounds.2 hab
  have hin := fun r c => inSel_iff _ _ r c hab
  have hA := hbounds.1
  have hB := hbounds.2
  unfold VTermPos.inBounds at hA hB
  unfold VTermPos.le at hab
  refine ⟨selectedText_eq_highlightedText t vt sel hvt hcw hch hs he hshown, ?_, ?_, ?_, ?_⟩
  · intro r c
    rw [hhl, hspan, hin]
  · intro r c
    rw [hhl, hin]
    rfl
  · intro r c _
    rw [hin]
    rfl
  · intro r c
    rw [hhl, hin]
    constructor
    · rintro ⟨h1, h2, h3⟩
      refine ⟨by omega, ?_, ?_⟩ <;> split_ifs <;> omega
    · rintro ⟨h1, h2, h3⟩
      split_ifs at h2 h3 <;> omega

/-- C29 at a sample input: on the sample screen with start at row 1, column 3
and end at row 0, column 1, the text selected is the text of the highlighted
cells, `b`, a line break, `c`, two blanks and `d`; the cell in row 1, column 0
is highlighted and the cell in row 0, column 0 is not. -/
theorem highlighted_iff_selected_witness :
    TerminalWidget.selectedText sampleTerminal
        { selecting_ := false, selStart_ := { row := 1, col := 3 },
          selEnd_ := { row := 0, col := 1 } } =
      highlightedText sampleTerminal
        { selecting_ := false, selStart_ := { row := 1, col := 3 },
          selEnd_ := { row := 0, col := 1 } } ∧
    highlightedText sampleTerminal
        { selecting_ := false, selStart_ := { row := 1, col := 3 },
          selEnd_ := { row := 0, col := 1 } } = [0x62, 0x0a, 0x63, 0x20, 0x20, 0x64] ∧
    TerminalWidget.highlighted sampleTerminal
        { selecting_ := false, selStart_ := { row := 1, col := 3 },
          selEnd_ := { row := 0, col := 1 } } 1 0 = true ∧
    TerminalWidget.highlighted sampleTerminal
        { selecting_ := false, selStart_ := { row := 1, col := 3 },
          selEnd_ := { row := 0, col := 1 } } 0 0 = false :=
  ⟨(highlighted_iff_selected sampleTerminal _
      { selecting_ := false, selStart_ := { row := 1, col := 3 },
        selEnd_ := { row := 0, col := 1 } } rfl (by decide) (by decide) (by decide) (by decide)
      (by decide)).1,
   by decide, by decide, by decide⟩

/-! ## Facts about the order of `connected` and `disconnected` -/

theorem alternates_append (t u : List Signal) : ∀ c : Bool,
    alternates c (t ++ u) = (alternates c t).bind (fun c2 => alternates c2 u) := by
  induction t with
  | nil => intro c; simp [alternates]
  | cons x t ih =>
    intro c
    cases x <;> cases c <;> simp [alternates, ih]

theorem alternates_connectToHost (s : SshSession) (a : ConnectArgs) (o : ConnectOutcome)
    (h : Inv s) :
    alternates s.connected_ (signals (connectToHost s a o).2) =
      some (connectToHost s a o).1.connected_ := by
  obtain ⟨msg, hsig⟩ := connectToHost_signals s a o
  rw [hsig, connectToHost_fst]
  rcases s with ⟨_ | h0, _ | c, _ | _, _ | _⟩ <;> simp [Inv] at h <;>
  by_cases hsucc : ConnectSucceeds a o <;>
  rcases Option.eq_none_or_eq_some o.ssh_new with hn | ⟨h1, hn⟩ <;>
  simp [hsucc, hn, alternates, init]

theorem alternates_step (s : SshSession) (op : Op) (h : Inv s) :
    alternates s.connected_ (signals (step s op).2) = some (step s op).1.connected_ := by
  cases op with
  | connectToHost a o => exact alternates_connectToHost s a o h
  | send data =>
    rcases s with ⟨_ | h0, _ | c, p, _ | _⟩ <;> simp [step, send, alternates]
  | disconnectFromHost =>
    rcases s with ⟨_ | h0, _ | c, p, _ | _⟩ <;>
    simp [step, disconnectFromHost_eq, signals_teardown, alternates, init]
  | setPtySize rows cols =>
    rcases s with ⟨_ | h0, _ | c, p, _ | _⟩ <;> simp [step, setPtySize, alternates]
  | pollTick o =>
    rcases s with ⟨_ | h0, _ | c, p, _ | _⟩ <;> simp [Inv] at h <;>
    by_cases hn : o.n > 0 <;> by_cases h1 : o.is_eof = 0 <;> by_cases h2 : o.is_closed = 0 <;>
    simp [step, pollTimerTimeout, h1, h2, hn, disconnectFromHost_eq, teardown, init, alternates]

theorem alternates_runFrom (ops : List Op) : ∀ s : SshSession, Inv s →
    alternates s.connected_ (signals (runFrom s ops).2) = some (runFrom s ops).1.connected_ := by
  induction ops with
  | nil => intro s _; simp [runFrom, alternates]
  | cons op ops ih =>
    intro s h
    have h1 := alternates_step s op h
    have h2 := ih _ (inv_step s op h)
    simp [runFrom, alternates_append, h1, h2]

/-! ## Facts about the session actions of a tab -/

theorem sessionTrace_append (l1 l2 : List TabAction) :
    sessionTrace (l1 ++ l2) = sessionTrace l1 ++ sessionTrace l2 := by
  induction l1 with
  | nil => rfl
  | cons x l ih => cases x <;> simp [sessionTrace, ih]

theorem sessionTrace_terminal (l : List TermAction) :
    sessionTrace (l.map TabAction.terminal) = [] := by
  induction l with
  | nil => rfl
  | cons x l ih => simp [sessionTrace, ih]

theorem sessionTrace_deliver (b : Build) (tab : TerminalTab) (e : Signal) :
    sessionTrace (TerminalTab.deliver b tab e).2 = [] := by
  cases e with
  | output data => simp [TerminalTab.deliver, TerminalTab.onSessionOutput, sessionTrace_terminal]
  | error message => simp [TerminalTab.deliver, TerminalTab.onSessionError, sessionTrace_terminal]
  | connected =>
    cases hp : tab.hasProfile_ <;>
    simp [TerminalTab.deliver, TerminalTab.onSessionConnected, sessionTrace_terminal,
      sessionTrace_append, hp, sessionTrace]
  | disconnected => simp [TerminalTab.deliver, TerminalTab.onSessionDisconnected, sessionTrace]

theorem sessionTrace_dispatch (b : Build) (t : List Action) : ∀ tab : TerminalTab,
    sessionTrace (TerminalTab.dispatch b tab t).2 = t := by
  induction t with
  | nil => intro tab; simp [TerminalTab.dispatch, sessionTrace]
  | cons x t ih =>
    intro tab
    cases x with
    | call c => simp [TerminalTab.dispatch, sessionTrace, ih]
    | emit e =>
      simp [TerminalTab.dispatch, sessionTrace, sessionTrace_append, sessionTrace_deliver, ih]

theorem userauthCalls_empty_password (s : SshSession) (a : ConnectArgs) (o : ConnectOutcome)
    (hpw : a.password = "") :
    userauthCalls (connectToHost s a o).2 =
      match o.ssh_new with
      | none => []
      | some h =>
        if o.ssh_connect ≠ SSH_OK then []
        else if a.keyPath ≠ "" then
          (match o.import_key with
           | some key =>
             if o.import_rc = SSH_OK then [LibCall.ssh_userauth_publickey h key] else []
           | none => [])
        else [LibCall.ssh_userauth_publickey_auto h] := by
  rw [connectToHost_userauthCalls]
  rcases Option.eq_none_or_eq_some o.ssh_new with hn | ⟨h, hn⟩
  · simp [hn]
  · simp [hn, auth_userauthCalls, hpw]

theorem connectProfile_run (b : Build) (tab : TerminalTab) (p : Profile) (promptKeyPass : Bool)
    (fileExists : Bool) (dialog : DialogResult) (o : ConnectOutcome)
    (h : ¬ (promptKeyPass = true ∧ trimmed p.keyPath ≠ "" ∧ fileExists = true ∧
      dialog.ok = false)) :
    ∃ pass, sessionTrace (tab.connectProfile b p promptKeyPass fileExists dialog o).2 =
        (tab.session_.connectToHost
          { host := p.host, user := p.user, password := "", keyPath := trimmed p.keyPath,
            keyPassphrase := pass, port := p.port } o).2 ∧
      (tab.connectProfile b p promptKeyPass fileExists dialog o).1.currentProfile_ = p ∧
      (tab.connectProfile b p promptKeyPass fileExists dialog o).1.hasProfile_ = true := by
  have h1 : ¬ (decide (promptKeyPass = true ∧ trimmed p.keyPath ≠ "" ∧ fileExists = true)
      = true ∧ dialog.ok = false) := by
    intro hc
    apply h
    have := of_decide_eq_true hc.1
    exact ⟨this.1, this.2.1, this.2.2, hc.2⟩
  refine ⟨if decide (promptKeyPass = true ∧ trimmed p.keyPath ≠ "" ∧ fileExists = true) = true
    then dialog.text else "", ?_, ?_, ?_⟩
  · simp only [TerminalTab.connectProfile, h1, if_false, sessionTrace, TerminalTab.callSession,
      sessionTrace_dispatch]
  · simp only [TerminalTab.connectProfile, h1, if_false, TerminalTab.callSession]
    rw [(dispatch_spec b _ _).2.1]
  · simp only [TerminalTab.connectProfile, h1, if_false, TerminalTab.callSession]
    rw [(dispatch_spec b _ _).1]

/-! ## Facts about the list of last sessions -/

theorem removeLastLoop_eq_take (fuel : Nat) : ∀ names : List String,
    names.length ≤ fuel + 10 → MainWindow.removeLastLoop fuel names = names.take 10 := by
  induction fuel with
  | zero =>
    intro names h
    simp only [MainWindow.removeLastLoop]
    exact (List.take_of_length_le (by omega)).symm
  | succ fuel ih =>
    intro names h
    simp only [MainWindow.removeLastLoop]
    split_ifs with hlen
    · rw [ih names.dropLast (by simp only [List.length_dropLast]; omega),
        List.dropLast_eq_take, List.take_take, min_eq_left (by omega)]
    · exact (List.take_of_length_le (by omega)).symm

theorem onProfileConnected_eq (stored : List String) (p : Profile) :
    MainWindow.onProfileConnected stored p =
      (p.name :: stored.filter (fun name => name ≠ p.name)).take 10 := by
  simp only [MainWindow.onProfileConnected]
  exact removeLastLoop_eq_take _ _ (by omega)

/-! ## Claims about the session, the tab and the main window -/

/-- C27: after every sequence of public operations (`connectToHost`, `send`,
`disconnectFromHost`, `setPtySize`, poll tick) on a freshly constructed object,
whatever the libssh calls return: `connected_` is true exactly when the channel
is non-null, the channel is non-null exactly when the poll timer runs, and a
non-null channel comes with a non-null session; and in the whole trace the
`connected` and `disconnected` signals alternate, starting with `connected`,
the object being connected at the end exactly when the last of them is
`connected`. -/
theorem session_handle_invariant (ops : List Op) :
    ((run ops).1.connected_ = true ↔ (run ops).1.channel ≠ none) ∧
    ((run ops).1.channel ≠ none ↔ (run ops).1.pollTimerActive = true) ∧
    ((run ops).1.channel ≠ none → (run ops).1.session ≠ none) ∧
    alternates false (signals (run ops).2) = some (run ops).1.connected_ := by
  have hinv := inv_run ops
  have halt := alternates_runFrom ops init inv_init
  unfold Inv at hinv
  refine ⟨?_, ?_, ?_, halt⟩
  · rw [hinv.1]
    cases (run ops).1.channel <;> simp
  · rw [hinv.2.1]
    cases (run ops).1.channel <;> simp
  · intro hc
    have h3 := hinv.2.2
    cases hch : (run ops).1.channel with
    | none => exact absurd hch hc
    | some c =>
      rw [hch] at h3
      have := h3 rfl
      intro hs
      rw [hs] at this
      simp at this

/-- C28: for every tab, profile and outcome of the libssh calls, a
`connectProfile` call makes no `ssh_userauth_password` call; every
authentication call it makes is `ssh_userauth_publickey` when the trimmed key
path of the profile is non-empty and `ssh_userauth_publickey_auto` when it is
empty, and one such call is made when the connect gets that far. When the
passphrase dialog is shown and cancelled the call does nothing: no action of
the session, and the tab, its current profile and `hasProfile_` included, is
unchanged. Otherwise the session runs `connectToHost` with the host, user and
port of the profile, the trimmed key path and an empty password. -/
theorem connectProfile_auth (b : Build) (tab : TerminalTab) (p : Profile) (promptKeyPass : Bool)
    (fileExists : Bool) (dialog : DialogResult) (o : ConnectOutcome) :
    (∀ h pw, Action.call (LibCall.ssh_userauth_password h pw) ∉
      sessionTrace (tab.connectProfile b p promptKeyPass fileExists dialog o).2) ∧
    (trimmed p.keyPath ≠ "" →
      ∀ c ∈ userauthCalls
          (sessionTrace (tab.connectProfile b p promptKeyPass fileExists dialog o).2),
        ∃ h key, c = LibCall.ssh_userauth_publickey h key) ∧
    (trimmed p.keyPath = "" →
      ∀ c ∈ userauthCalls
          (sessionTrace (tab.connectProfile b p promptKeyPass fileExists dialog o).2),
        ∃ h, c = LibCall.ssh_userauth_publickey_auto h) ∧
    ((promptKeyPass = true ∧ trimmed p.keyPath ≠ "" ∧ fileExists = true ∧ dialog.ok = false) →
      tab.connectProfile b p promptKeyPass fileExists dialog o = (tab, [])) ∧
    (¬ (promptKeyPass = true ∧ trimmed p.keyPath ≠ "" ∧ fileExists = true ∧
        dialog.ok = false) →
      (∃ pass, sessionTrace (tab.connectProfile b p promptKeyPass fileExists dialog o).2 =
        (tab.session_.connectToHost
          { host := p.host, user := p.user, password := "", keyPath := trimmed p.keyPath,
            keyPassphrase := pass, port := p.port } o).2) ∧
      (∀ h, o.ssh_new = some h → o.ssh_connect = SSH_OK →
        (trimmed p.keyPath = "" →
          userauthCalls
              (sessionTrace (tab.connectProfile b p promptKeyPass fileExists dialog o).2) =
            [LibCall.ssh_userauth_publickey_auto h]) ∧
        (trimmed p.keyPath ≠ "" → ∀ key, o.import_key = some key → o.import_rc = SSH_OK →
          userauthCalls
              (sessionTrace (tab.connectProfile b p promptKeyPass fileExists dialog o).2) =
            [LibCall.ssh_userauth_publickey h key]))) := by
  have hcancel : (promptKeyPass = true ∧ trimmed p.keyPath ≠ "" ∧ fileExists = true ∧
      dialog.ok = false) → tab.connectProfile b p promptKeyPass fileExists dialog o = (tab, []) := by
    intro hc
    simp [TerminalTab.connectProfile, hc.1, hc.2.1, hc.2.2.1, hc.2.2.2]
  have hcalls : ∀ c ∈ userauthCalls
      (sessionTrace (tab.connectProfile b p promptKeyPass fileExists dialog o).2),
      (trimmed p.keyPath ≠ "" → ∃ h key, c = LibCall.ssh_userauth_publickey h key) ∧
      (trimmed p.keyPath = "" → ∃ h, c = LibCall.ssh_userauth_publickey_auto h) := by
    intro c hc
    by_cases hcan : (promptKeyPass = true ∧ trimmed p.keyPath ≠ "" ∧ fileExists = true ∧
        dialog.ok = false)
    · rw [hcancel hcan] at hc
      simp [sessionTrace, userauthCalls_nil] at hc
    · obtain ⟨pass, htrace, _, _⟩ := connectProfile_run b tab p promptKeyPass fileExists dialog o hcan
      rw [htrace, userauthCalls_empty_password _ _ _ rfl] at hc
      rcases Option.eq_none_or_eq_some o.ssh_new with hn | ⟨h, hn⟩
      · simp [hn] at hc
      · rcases Option.eq_none_or_eq_some o.import_key with hkey | ⟨key, hkey⟩ <;>
        by_cases h1 : o.ssh_connect = SSH_OK <;> by_cases h2 : o.import_rc = SSH_OK <;>
        by_cases hk : trimmed p.keyPath = "" <;>
        simp [hn, hkey, h1, h2, hk] at hc ⊢ <;>
        first | exact ⟨_, _, hc⟩ | exact ⟨_, hc⟩
  refine ⟨?_, fun hk c hc => (hcalls c hc).1 hk, fun hk c hc => (hcalls c hc).2 hk, hcancel, ?_⟩
  · intro h pw hmem
    have hu := mem_userauthCalls (LibCall.ssh_userauth_password h pw) rfl _ hmem
    by_cases hk : trimmed p.keyPath = ""
    · obtain ⟨h2, he⟩ := (hcalls _ hu).2 hk
      cases he
    · obtain ⟨h2, key, he⟩ := (hcalls _ hu).1 hk
      cases he
  · intro hcan
    obtain ⟨pass, htrace, _, _⟩ := connectProfile_run b tab p promptKeyPass fileExists dialog o hcan
    refine ⟨⟨pass, htrace⟩, ?_⟩
    intro h hn hconn
    rw [htrace, userauthCalls_empty_password _ _ _ rfl]
    constructor
    · intro hk
      simp [hn, hconn, hk]
    · intro hk key hkey hrc
      simp [hn, hconn, hk, hkey, hrc]

/-- C28 at sample inputs: connecting the sample profile, which has no key path,
makes the agent call for session 1; connecting a profile with a key path, with
the passphrase dialog cancelled, does nothing. -/
theorem connectProfile_auth_witness :
    userauthCalls
        (sessionTrace ((TerminalTab.create vtermBuild true 100 30 8 16).1.connectProfile vtermBuild
          sampleProfile true false { ok := true, text := "" } sampleOutcome).2) =
      [LibCall.ssh_userauth_publickey_auto 1] ∧
    (TerminalTab.create vtermBuild true 100 30 8 16).1.connectProfile vtermBuild sampleKeyProfile
        true true { ok := false, text := "" } sampleOutcome =
      ((TerminalTab.create vtermBuild true 100 30 8 16).1, []) :=
  ⟨(((connectProfile_auth vtermBuild (TerminalTab.create vtermBuild true 100 30 8 16).1
      sampleProfile true false { ok := true, text := "" } sampleOutcome).2.2.2.2
        (by decide)).2 1 rfl rfl).1 (by decide),
   (connectProfile_auth vtermBuild (TerminalTab.create vtermBuild true 100 30 8 16).1
      sampleKeyProfile true true { ok := false, text := "" } sampleOutcome).2.2.2.1 (by decide)⟩

/-- C30: for every stored list of names and every connected profile,
`onProfileConnected` saves the first 10 elements of the name of the profile
followed by the stored names other than it; so the saved list has at most 10
names, starts with the name, holds it exactly once, and after it come the first
9 of the other stored names in their stored order. -/
theorem onProfileConnected_spec (stored : List String) (p : Profile) :
    MainWindow.onProfileConnected stored p =
      (p.name :: stored.filter (fun name => name ≠ p.name)).take 10 ∧
    (MainWindow.onProfileConnected stored p).length ≤ 10 ∧
    (MainWindow.onProfileConnected stored p).head? = some p.name ∧
    (MainWindow.onProfileConnected stored p).count p.name = 1 ∧
    (MainWindow.onProfileConnected stored p).tail =
      (stored.filter (fun name => name ≠ p.name)).take 9 ∧
    (MainWindow.onProfileConnected stored p).tail.Sublist stored := by
  have hnot : p.name ∉ (stored.filter (fun name => name ≠ p.name)).take 9 := by
    intro hmem
    have := List.mem_filter.mp (List.mem_of_mem_take hmem)
    simp at this
  rw [onProfileConnected_eq]
  refine ⟨rfl, ?_, ?_, ?_, ?_, ?_⟩
  · simp [List.length_take]
  · simp
  · rw [List.take_succ_cons, List.count_cons_self, List.count_eq_zero_of_not_mem hnot]
  · simp
  · simp only [List.take_succ_cons, List.tail_cons]
    exact (List.take_sublist _ _).trans (List.filter_sublist _)

/-- C30 at a sample input: with twelve stored names, `h` among them twice, the
connect of profile `h` saves `h` and the first nine other names. -/
theorem onProfileConnected_spec_witness :
    MainWindow.onProfileConnected ["a", "h", "b", "c", "d", "e", "f", "h", "g", "i", "j", "k"]
        { sampleProfile with name := "h" } =
      ["h", "a", "b", "c", "d", "e", "f", "g", "i", "j"] := by
  have h := (onProfileConnected_spec ["a", "h", "b", "c", "d", "e", "f", "h", "g", "i", "j", "k"]
    { sampleProfile with name := "h" }).1
  rw [h]
  decide

end SimpleSSHTerm
